import Mathlib

/-!
# Swadge firmware: scanline fill, melee menu and fighter session

A shallow embedding of

* `oddEvenFillFix`        (main/modes/mode_diceroller.c),
* the melee menu           (main/meleeMenu.c),
* the fighter session: its menu callbacks and p2p handlers
                           (main/modes/fighter/fighter_menu.c),

followed by the properties proved about them.

Conventions.  C `int` values are `Int`; the loops only compare and increment
them inside clamped ranges, so no 32-bit wrap can occur.  `uint8_t` and
`uint16_t` values are `Nat` with an explicit `% 256` / `% 65536` at every
store.  Constants that live in headers outside the sources at hand
(`MAX_ROWS`, `MAX_ROWS_ON_SCREEN`, `NO_CHARACTER`, `NO_STAGE`) are parameters
of the definitions that use them.  The callback a menu points to is code of
the hosting mode; `meleeMenuButton` runs it through a parameter that gives
the menu each call leaves (`menuCbEnv`), and `fighterCbEnv` is that parameter
for the callbacks of fighter_menu.c.
-/

namespace Swadge

/-! ## Part 1. Definitions -/

/-! ### Display and the scanline fill (mode_diceroller.c) -/

/-- A palette index (`paletteColor_t`). -/
abbrev paletteColor_t := Nat

/-- The canvas: `disp->w`, `disp->h` and the colour stored at each position.
Only the positions with `0 ≤ x < w` and `0 ≤ y < h` belong to the frame
buffer; the value of `px` elsewhere stands for whatever memory lies there. -/
structure display_t where
  w : Nat
  h : Nat
  px : Int → Int → paletteColor_t

/-- Modelled from the spec: the macro `GET_PIXEL` comes from display.h, which
is not among the sources; it is the platform primitive `getPixel(x, y)`. -/
def GET_PIXEL (disp : display_t) (x y : Int) : paletteColor_t :=
  disp.px x y

/-- Modelled from the spec: the macro `TURBO_SET_PIXEL_BOUNDS` comes from
display.h, which is not among the sources; it is the platform primitive
`setPixel(x, y, color)`, guarded (as its name says) by the canvas bounds. -/
def TURBO_SET_PIXEL_BOUNDS (disp : display_t) (x y : Int) (c : paletteColor_t) :
    display_t :=
  if 0 ≤ x ∧ x < disp.w ∧ 0 ≤ y ∧ y < disp.h then
    { disp with px := fun a b => if a = x ∧ b = y then c else disp.px a b }
  else disp

/-- The machine state of `oddEvenFillFix`: the canvas, the three locals of the
row loop, and (instrumentation) every position handed to `GET_PIXEL` or
`TURBO_SET_PIXEL_BOUNDS`, most recent first. -/
structure fill_t where
  disp : display_t
  isInside : Bool
  insideHysteresis : Bool
  transitionCount : Nat
  accessed : List (Int × Int)

/-- Body of the first inner loop (lines 495-517): counts transitions. -/
def countStep (boundaryColor : paletteColor_t) (y x : Int) (s : fill_t) : fill_t :=
  let s := { s with accessed := (x, y) :: s.accessed }
  if boundaryColor = GET_PIXEL s.disp x y then
    if !s.insideHysteresis then
      { s with isInside := !s.isInside, insideHysteresis := true,
               transitionCount := (s.transitionCount + 1) % 65536 }
    else s
  else if s.isInside then
    { s with insideHysteresis := false }
  else
    { s with insideHysteresis := false }

/-- The loop `for(int x = x0; x < x1; x++)` around `countStep`, with `n` iterations left. -/
def countLoop (boundaryColor : paletteColor_t) (y : Int) : Nat → Int → fill_t → fill_t
  | 0, _, s => s
  | n + 1, x, s => countLoop boundaryColor y n (x + 1) (countStep boundaryColor y x s)

/-- Body of the second inner loop (lines 523-545): paints. -/
def paintStep (boundaryColor fillColor : paletteColor_t) (y x : Int) (s : fill_t) : fill_t :=
  let s := { s with accessed := (x, y) :: s.accessed }
  if boundaryColor = GET_PIXEL s.disp x y then
    if !s.insideHysteresis then
      { s with isInside := !s.isInside, insideHysteresis := true }
    else s
  else if s.isInside then
    { s with disp := TURBO_SET_PIXEL_BOUNDS s.disp x y fillColor,
             accessed := (x, y) :: s.accessed,
             insideHysteresis := false }
  else
    { s with insideHysteresis := false }

/-- The loop `for(int x = x0; x < x1; x++)` around `paintStep`, with `n` iterations left. -/
def paintLoop (boundaryColor fillColor : paletteColor_t) (y : Int) :
    Nat → Int → fill_t → fill_t
  | 0, _, s => s
  | n + 1, x, s =>
    paintLoop boundaryColor fillColor y n (x + 1) (paintStep boundaryColor fillColor y x s)

/-- Body of the row loop (lines 489-547): count, then paint when
`!(transitionCount % 2)`. -/
def rowBody (boundaryColor fillColor : paletteColor_t) (x0 x1 y : Int) (s : fill_t) : fill_t :=
  let s := { s with isInside := false, insideHysteresis := false, transitionCount := 0 }
  let s := countLoop boundaryColor y (x1 - x0).toNat x0 s
  if s.transitionCount % 2 = 0 then
    let s := { s with isInside := false, insideHysteresis := false }
    paintLoop boundaryColor fillColor y (x1 - x0).toNat x0 s
  else s

/-- The loop `for(int y = y0; y < y1; y++)` around `rowBody`, with `n` iterations left. -/
def rowLoop (boundaryColor fillColor : paletteColor_t) (x0 x1 : Int) :
    Nat → Int → fill_t → fill_t
  | 0, _, s => s
  | n + 1, y, s =>
    rowLoop boundaryColor fillColor x0 x1 n (y + 1) (rowBody boundaryColor fillColor x0 x1 y s)

/-- Lower clamp of lines 473-476 and 481-484: `if (v < 0) v = 0`. -/
def clampLo (v : Int) : Int := if v < 0 then 0 else v

/-- Upper clamp of lines 477-480 and 485-488: `if (v > limit) v = limit`. -/
def clampHi (v : Int) (limit : Nat) : Int := if v > (limit : Int) then (limit : Int) else v

/-- The function `oddEvenFillFix`, returning the whole machine state. -/
def oddEvenFillFixRun (disp : display_t) (x0 y0 x1 y1 : Int)
    (boundaryColor fillColor : paletteColor_t) : fill_t :=
  let x0 := clampLo x0
  let x1 := clampHi x1 disp.w
  let y0 := clampLo y0
  let y1 := clampHi y1 disp.h
  rowLoop boundaryColor fillColor x0 x1 (y1 - y0).toNat y0
    { disp := disp, isInside := false, insideHysteresis := false,
      transitionCount := 0, accessed := [] }

/-- The canvas left by `oddEvenFillFix`. -/
def oddEvenFillFix (disp : display_t) (x0 y0 x1 y1 : Int)
    (boundaryColor fillColor : paletteColor_t) : display_t :=
  (oddEvenFillFixRun disp x0 y0 x1 y1 boundaryColor fillColor).disp

/-- The transition count the first pass finds on row `y` of the clamped
rectangle (the value tested on line 519). -/
def rowTransitionCount (disp : display_t) (x0 x1 y : Int) (boundaryColor : paletteColor_t) :
    Nat :=
  (countLoop boundaryColor y (clampHi x1 disp.w - clampLo x0).toNat (clampLo x0)
    { disp := disp, isInside := false, insideHysteresis := false,
      transitionCount := 0, accessed := [] }).transitionCount

/-- One update of the two scan flags `(isInside, insideHysteresis)` on a pixel
that is (`b = true`) or is not a boundary pixel; both passes share it. -/
def flagsStep (b : Bool) (f : Bool × Bool) : Bool × Bool :=
  if b then (if !f.2 then (!f.1, true) else f) else (f.1, false)

/-- The scan flags after `n` pixels of row `y` starting at column `x`. -/
def flagsAt (disp : display_t) (boundaryColor : paletteColor_t) (y : Int) :
    Nat → Int → Bool × Bool → Bool × Bool
  | 0, _, f => f
  | n + 1, x, f =>
    flagsAt disp boundaryColor y n (x + 1) (flagsStep (decide (boundaryColor = disp.px x y)) f)

/-- The pixel `(a, b)` is painted by a fill of the columns `[x0, x1)` of row `b`:
it is on the canvas and in the column range, the row's scan ends outside (its
transition count is even), the pixel is not a boundary pixel and the scan is
inside when it reaches the pixel. -/
def paintedPx (disp : display_t) (bc : paletteColor_t) (x0 x1 a b : Int) : Prop :=
  x0 ≤ a ∧ a < x1 ∧ 0 ≤ a ∧ a < disp.w ∧ 0 ≤ b ∧ b < disp.h ∧
    (flagsAt disp bc b (x1 - x0).toNat x0 (false, false)).1 = false ∧
    disp.px a b ≠ bc ∧
    (flagsAt disp bc b (a - x0).toNat x0 (false, false)).1 = true

instance (disp : display_t) (bc : paletteColor_t) (x0 x1 a b : Int) :
    Decidable (paintedPx disp bc x0 x1 a b) := by
  unfold paintedPx; infer_instance

/-- The macro `CLAMP(x, l, u)` of display.c. -/
def CLAMP (x l u : Int) : Int := if x < l then l else if x > u then u else x

/-- The runs `(first, last)` lie in `[lo, hi)`, in increasing order, with at
least one position between consecutive runs. -/
def runsChain (hi : Int) : Int → List (Int × Int) → Prop
  | _, [] => True
  | lo, r :: rest => lo ≤ r.1 ∧ r.1 ≤ r.2 ∧ r.2 < hi ∧ runsChain hi (r.2 + 2) rest

/-- The position `p` lies in one of the runs. -/
def inRuns (p : Int) (runs : List (Int × Int)) : Prop :=
  ∃ r ∈ runs, r.1 ≤ p ∧ p ≤ r.2

/-- The boundary-coloured pixels of row `y` inside `[lo, hi)` form exactly the
maximal runs `runs`. -/
def rowRuns (disp : display_t) (bc : paletteColor_t) (y lo hi : Int)
    (runs : List (Int × Int)) : Prop :=
  runsChain hi lo runs ∧ ∀ p, lo ≤ p → p < hi → (disp.px p y = bc ↔ inRuns p runs)

/-- The number of runs that start before position `p`. -/
def startsBefore (p : Int) (runs : List (Int × Int)) : Nat :=
  (runs.filter (fun r => decide (r.1 < p))).length

/-- One update of `(transitionCount, insideHysteresis)` by the first inner loop
on a pixel that is (`b = true`) or is not a boundary pixel. -/
def countFlagsStep (b : Bool) (s : Nat × Bool) : Nat × Bool :=
  if b then (if !s.2 then ((s.1 + 1) % 65536, true) else s) else (s.1, false)

/-- The pair `(transitionCount, insideHysteresis)` after `n` pixels of row `y`
starting at column `x`. -/
def countAt (disp : display_t) (boundaryColor : paletteColor_t) (y : Int) :
    Nat → Int → Nat × Bool → Nat × Bool
  | 0, _, s => s
  | n + 1, x, s =>
    countAt disp boundaryColor y n (x + 1)
      (countFlagsStep (decide (boundaryColor = disp.px x y)) s)

/-- The flag `isInside` of the first pass after it has handled the pixel at
column `p` of row `y` of the clamped rectangle. -/
def rowInsideAfter (disp : display_t) (x0 y p : Int) (boundaryColor : paletteColor_t) : Bool :=
  (countLoop boundaryColor y (p + 1 - clampLo x0).toNat (clampLo x0)
    { disp := disp, isInside := false, insideHysteresis := false,
      transitionCount := 0, accessed := [] }).isInside

/-- A canvas given by its rows, for examples. -/
def canvasOf (w h : Nat) (rows : List (List paletteColor_t)) : display_t :=
  { w := w, h := h, px := fun x y => ((rows.getD y.toNat []).getD x.toNat 0) }

/-! ### The melee menu (meleeMenu.c) -/

/-- A row label or title: a borrowed `const char*`, identified by its text. -/
abbrev label_t := String

/-- A selection callback (`meleeMenuCb`), identified by the name of the function. -/
abbrev meleeMenuCb := String

/-- Store into a `uint8_t`. -/
def u8 (v : Int) : Nat := (v % 256).toNat

/-- The struct `meleeMenu_t`.  Its declaration (meleeMenu.h) is not among the
sources: the row counters are `uint8_t`, like the locals `startRow`, `endRow`,
`row` and `rowsAdded` that copy them; `rows` is the allocated array, an
entry `none` being a NULL pointer; `fontH` is `font->h`.  The animation speed
and offset, and the y coordinates derived from them, are kept as unbounded
integers. -/
structure meleeMenu_t where
  title : label_t
  rows : List (Option label_t)
  cbFunc : meleeMenuCb
  fontH : Nat
  numRows : Nat
  numRowsAllocated : Nat
  firstRowOnScreen : Nat
  selectedRow : Nat
  animateStartRow : Nat
  allowLEDControl : Bool
  usePerRowXOffsets : Bool
  animating : Bool
  animateSpeed : Int
  animateOffset : Int
  deriving DecidableEq, Repr

/-- The buttons of `buttonBit_t` named in `meleeMenuButton`, and any other value. -/
inductive buttonBit_t where
  | UP | DOWN | LEFT | RIGHT | BTN_A | BTN_B | START | SELECT
  | other (v : Nat)
  deriving DecidableEq, Repr

/-- The function `initMeleeMenu`: `calloc` zeroes every field and every row slot. -/
def initMeleeMenu (MAX_ROWS_ON_SCREEN : Nat) (title : label_t) (fontH : Nat)
    (cbFunc : meleeMenuCb) : meleeMenu_t :=
  { title := title
    rows := List.replicate MAX_ROWS_ON_SCREEN none
    cbFunc := cbFunc
    fontH := fontH
    numRows := 0
    numRowsAllocated := u8 MAX_ROWS_ON_SCREEN
    firstRowOnScreen := 0
    selectedRow := 0
    animateStartRow := 0
    allowLEDControl := true
    usePerRowXOffsets := true
    animating := false
    animateSpeed := 0
    animateOffset := 0 }

/-- The function `resetMeleeMenu`: the `memset` clears the first
`numRowsAllocated` row slots. -/
def resetMeleeMenu (menu : meleeMenu_t) (title : label_t) (cbFunc : meleeMenuCb) :
    meleeMenu_t :=
  { menu with
    title := title
    numRows := 0
    firstRowOnScreen := 0
    selectedRow := 0
    cbFunc := cbFunc
    rows := List.replicate (min menu.numRowsAllocated menu.rows.length) none ++
              menu.rows.drop menu.numRowsAllocated }

/-- What `realloc(rows, newCount * sizeof(const char*))` leaves in the array when
it succeeds: the old entries that fit, then indeterminate entries `junk i`. -/
def reallocRows (rows : List (Option label_t)) (newCount : Nat)
    (junk : Nat → Option label_t) : List (Option label_t) :=
  (List.range newCount).map (fun i => (rows.get? i).getD (junk i))

/-- The function `maybeGrowRowsArray`.  The allocator is an input: `none` when
`realloc` returns NULL, `some junk` when it succeeds. -/
def maybeGrowRowsArray (menu : meleeMenu_t) (originalCount additionalCount : Nat)
    (alloc : Option (Nat → Option label_t)) : meleeMenu_t × Nat :=
  let newCount := originalCount + additionalCount
  match alloc with
  | none => (menu, 0)
  | some junk => ({ menu with rows := reallocRows menu.rows newCount junk }, u8 additionalCount)

/-- The last two statements of `addRowToMeleeMenu`:
`menu->rows[menu->numRows] = label; return menu->numRows++;`. -/
def storeRow (menu : meleeMenu_t) (label : label_t) : meleeMenu_t × Int :=
  ({ menu with rows := menu.rows.set menu.numRows (some label),
               numRows := u8 ((menu.numRows : Int) + 1) }, menu.numRows)

/-- The function `addRowToMeleeMenu`; the result is the menu and the returned `int`. -/
def addRowToMeleeMenu (MAX_ROWS MAX_ROWS_ON_SCREEN : Nat) (menu : meleeMenu_t)
    (label : label_t) (alloc : Option (Nat → Option label_t)) : meleeMenu_t × Int :=
  if menu.numRows < MAX_ROWS then
    if menu.numRowsAllocated < menu.numRows + 1 then
      let r := maybeGrowRowsArray menu menu.numRowsAllocated MAX_ROWS_ON_SCREEN alloc
      if r.2 = 0 then (r.1, -1)
      else storeRow { r.1 with numRowsAllocated := u8 ((r.1.numRowsAllocated : Int) + r.2) } label
    else storeRow menu label
  else (menu, -1)

/-- The statement `if (!menu->animating) menu->animateStartRow = menu->firstRowOnScreen;`. -/
def captureStartRow (menu : meleeMenu_t) : meleeMenu_t :=
  if !menu.animating then { menu with animateStartRow := menu.firstRowOnScreen } else menu

/-- What the functions a `meleeMenuCb` can point to do to the menu:
`cb f opt menu` is the menu left by the call `f(opt)` made while the menu is
`menu`.  The callbacks belong to the hosting mode (fighter_menu.c,
mode_gamepad.c); they act on the mode's global state, which holds the menu, and
may reset and refill it. -/
abbrev menuCbEnv := meleeMenuCb → Option (Option label_t) → meleeMenu_t → meleeMenu_t

/-- The function `meleeMenuButton`.  The call `menu->cbFunc(menu->rows[menu->selectedRow])`
runs inside the function: the menu returned for START and BTN_A is the one the
callback leaves.  The second component records the invocation, if any: the
callback and its argument `rows[selectedRow]` (`none` when that slot lies
outside the array). -/
def meleeMenuButton (MAX_ROWS_ON_SCREEN : Nat) (cb : menuCbEnv) (menu : meleeMenu_t)
    (btn : buttonBit_t) : meleeMenu_t × Option (meleeMenuCb × Option (Option label_t)) :=
  match btn with
  | .UP =>
    let menu :=
      if 0 = menu.selectedRow then { menu with selectedRow := u8 ((menu.numRows : Int) - 1) }
      else { menu with selectedRow := u8 ((menu.selectedRow : Int) - 1) }
    if menu.selectedRow < menu.firstRowOnScreen then
      let menu := captureStartRow menu
      ({ menu with firstRowOnScreen := u8 ((menu.firstRowOnScreen : Int) - 1) }, none)
    else if (menu.selectedRow : Int) > (menu.firstRowOnScreen : Int) + MAX_ROWS_ON_SCREEN - 1 then
      let menu := captureStartRow menu
      ({ menu with firstRowOnScreen := u8 ((menu.numRows : Int) - MAX_ROWS_ON_SCREEN) }, none)
    else (menu, none)
  | .SELECT | .DOWN =>
    let menu :=
      if (menu.selectedRow : Int) = (menu.numRows : Int) - 1 then { menu with selectedRow := 0 }
      else { menu with selectedRow := u8 ((menu.selectedRow : Int) + 1) }
    if (menu.selectedRow : Int) > (menu.firstRowOnScreen : Int) + MAX_ROWS_ON_SCREEN - 1 then
      let menu := captureStartRow menu
      ({ menu with firstRowOnScreen := u8 ((menu.firstRowOnScreen : Int) + 1) }, none)
    else if menu.selectedRow < menu.firstRowOnScreen then
      let menu := captureStartRow menu
      ({ menu with firstRowOnScreen := 0 }, none)
    else (menu, none)
  | .START | .BTN_A =>
    -- Call the callback function for the given row
    (cb menu.cbFunc (menu.rows.get? menu.selectedRow) menu,
      some (menu.cbFunc, menu.rows.get? menu.selectedRow))
  | .LEFT | .RIGHT | .BTN_B | .other _ => (menu, none)

/-- The constants `BORDER_WIDTH`, `BORDER_GAP`, `TEXT_Y_GAP`, `ANIM_ACCEL`,
`ANIM_MAXSPEED` defined inside `drawMeleeMenu`. -/
def BORDER_WIDTH : Int := 7
def BORDER_GAP : Int := 24
def TEXT_Y_GAP : Int := 2
def ANIM_ACCEL : Int := 1
def ANIM_MAXSPEED : Int := 16

/-- One call of `drawMeleeMenuText` made by `drawMeleeMenu`: the row index, the
label read from `rows[row]`, the y position and the `isSelected` flag. -/
structure rowDraw_t where
  row : Nat
  text : Option (Option label_t)
  yPos : Int
  isSelected : Bool
  deriving DecidableEq, Repr

/-- The loop `for(uint8_t row = startRow; row < menu->numRows && row < endRow; row++)`
of `drawMeleeMenu`, with `fuel` iterations allowed. -/
def drawRowsLoop (menu : meleeMenu_t) (endRow : Nat) (rowGap : Int) :
    Nat → Nat → Int → List rowDraw_t
  | 0, _, _ => []
  | fuel + 1, row, yIdx =>
    if row < menu.numRows ∧ row < endRow then
      { row := row, text := menu.rows.get? row, yPos := yIdx - menu.animateOffset,
        isSelected := decide (row = menu.selectedRow) } ::
        drawRowsLoop menu endRow rowGap fuel (u8 ((row : Int) + 1)) (yIdx + rowGap)
    else []

/-- Lines 332-350 of `drawMeleeMenu`: adjust the entries displayed on screen
to include the selected row. -/
def drawAdjustViewport (MAX_ROWS_ON_SCREEN : Nat) (menu : meleeMenu_t) : meleeMenu_t :=
  if menu.selectedRow < menu.firstRowOnScreen then
    let menu := captureStartRow menu
    -- Equivalent to shifting the view up until the selected row is on-screen
    { menu with firstRowOnScreen := menu.selectedRow }
  else if (menu.selectedRow : Int) > (menu.firstRowOnScreen : Int) + MAX_ROWS_ON_SCREEN - 1 then
    let menu := captureStartRow menu
    -- Equivalent to shifting the view down until the selected row is on-screen
    { menu with firstRowOnScreen := u8 ((menu.selectedRow : Int) - MAX_ROWS_ON_SCREEN + 1) }
  else menu

/-- Lines 364-369 of `drawMeleeMenu`: start animating. -/
def drawStartAnimation (menu : meleeMenu_t) : meleeMenu_t :=
  if !menu.animating ∧ menu.animateStartRow ≠ menu.firstRowOnScreen then
    { menu with animating := true, animateSpeed := 0, animateOffset := 0 }
  else menu

/-- Lines 395-450 of `drawMeleeMenu`: one tick of the animation and the loop
that draws the entries.  The result is the menu and the rows handed to
`drawMeleeMenuText`, in order. -/
def drawEntries (MAX_ROWS_ON_SCREEN : Nat) (menu : meleeMenu_t) :
    meleeMenu_t × List rowDraw_t :=
  let yIdx0 : Int := BORDER_GAP + 1 + menu.fontH + 2 * TEXT_Y_GAP + 2 * BORDER_WIDTH + 1
  let rowGap : Int := menu.fontH + 2 * TEXT_Y_GAP + 3
  let startRow : Nat := menu.firstRowOnScreen
  let endRow : Nat := u8 ((menu.firstRowOnScreen : Int) + MAX_ROWS_ON_SCREEN)
  if menu.animating then
    -- By "going down" I mean increasing Y
    let goingDown : Bool := decide (menu.animateStartRow < menu.firstRowOnScreen)
    let startRow := if !goingDown then (if startRow > 0 then startRow - 1 else startRow) else startRow
    let endRow := if goingDown then u8 ((endRow : Int) + 1) else endRow
    let yIdx := if !goingDown then yIdx0 - rowGap else yIdx0 + rowGap
    let speed := menu.animateSpeed + ANIM_ACCEL * (if goingDown then 1 else -1)
    let speed :=
      if speed > ANIM_MAXSPEED then ANIM_MAXSPEED
      else if speed < -ANIM_MAXSPEED then -ANIM_MAXSPEED
      else speed
    let menu := { menu with animateSpeed := speed, animateOffset := menu.animateOffset + speed }
    if (goingDown ∧ menu.animateOffset > rowGap) ∨ (!goingDown ∧ menu.animateOffset < -rowGap) then
      -- We have reached our destination (or gone past it)
      let menu := { menu with animateStartRow := menu.firstRowOnScreen, animateOffset := 0,
                              animateSpeed := 0, animating := false }
      (menu, drawRowsLoop menu (u8 ((menu.firstRowOnScreen : Int) + MAX_ROWS_ON_SCREEN)) rowGap
               256 menu.firstRowOnScreen yIdx0)
    else (menu, drawRowsLoop menu endRow rowGap 256 startRow yIdx)
  else (menu, drawRowsLoop menu endRow rowGap 256 startRow yIdx0)

/-- The function `drawMeleeMenu`, as far as the menu is concerned: the new menu
state and the rows handed to `drawMeleeMenuText`, in order.  (The pixels it
draws are not modelled.) -/
def drawMeleeMenu (MAX_ROWS_ON_SCREEN : Nat) (menu : meleeMenu_t) :
    meleeMenu_t × List rowDraw_t :=
  drawEntries MAX_ROWS_ON_SCREEN (drawStartAnimation (drawAdjustViewport MAX_ROWS_ON_SCREEN menu))

/-- An event of the menu's life between two resets. -/
inductive menuEvt_t where
  | button (btn : buttonBit_t)
  | draw
  deriving DecidableEq, Repr

/-- Handle one event: a button press or a `drawMeleeMenu` call. -/
def menuStep (MAX_ROWS_ON_SCREEN : Nat) (cb : menuCbEnv) (menu : meleeMenu_t) :
    menuEvt_t → meleeMenu_t
  | .button btn => (meleeMenuButton MAX_ROWS_ON_SCREEN cb menu btn).1
  | .draw => (drawMeleeMenu MAX_ROWS_ON_SCREEN menu).1

/-- Handle a sequence of events, oldest first. -/
def menuRun (MAX_ROWS_ON_SCREEN : Nat) (cb : menuCbEnv) (menu : meleeMenu_t)
    (evts : List menuEvt_t) : meleeMenu_t :=
  evts.foldl (menuStep MAX_ROWS_ON_SCREEN cb) menu

/-- Press the same button `n` times. -/
def pressTimes (MAX_ROWS_ON_SCREEN : Nat) (cb : menuCbEnv) (btn : buttonBit_t) :
    Nat → meleeMenu_t → meleeMenu_t
  | 0, menu => menu
  | n + 1, menu =>
    pressTimes MAX_ROWS_ON_SCREEN cb btn n (meleeMenuButton MAX_ROWS_ON_SCREEN cb menu btn).1

/-- Call `addRowToMeleeMenu` once per label, each with its allocator outcome;
the result is the menu and the values returned, in call order. -/
def addRows (MAX_ROWS MAX_ROWS_ON_SCREEN : Nat) :
    meleeMenu_t → List (label_t × Option (Nat → Option label_t)) → meleeMenu_t × List Int
  | menu, [] => (menu, [])
  | menu, (label, alloc) :: rest =>
    let r := addRowToMeleeMenu MAX_ROWS MAX_ROWS_ON_SCREEN menu label alloc
    let q := addRows MAX_ROWS MAX_ROWS_ON_SCREEN r.1 rest
    (q.1, r.2 :: q.2)

/-- The viewport invariant: the selected row is an existing row inside the
window of `MAX_ROWS_ON_SCREEN` rows that starts at `firstRowOnScreen`. -/
def viewportInv (MAX_ROWS_ON_SCREEN : Nat) (m : meleeMenu_t) : Prop :=
  m.firstRowOnScreen ≤ m.selectedRow ∧
    m.selectedRow < m.firstRowOnScreen + MAX_ROWS_ON_SCREEN ∧
    m.selectedRow < m.numRows ∧ m.numRows ≤ 255

/-- The module's invariant on the row storage: the rows in use fit in the
allocation recorded, which fits in the array, and the allocation recorded is a
multiple of the growth step. -/
def rowsInv (MAX_ROWS_ON_SCREEN : Nat) (m : meleeMenu_t) : Prop :=
  m.numRows ≤ m.numRowsAllocated ∧ m.numRowsAllocated ≤ m.rows.length ∧
    MAX_ROWS_ON_SCREEN ∣ m.numRowsAllocated

/-- A freshly initialised menu, for examples. -/
def freshMenu : meleeMenu_t := initMeleeMenu 5 "Swadge Bros" 20 "fighterMainMenuCb"

/-- Five rows added to `freshMenu`: the initial allocation is full. -/
def fullMenu : meleeMenu_t :=
  (addRows 255 5 freshMenu
    [("Multiplayer", none), ("HR Contest", none), ("Records", none), ("Exit", none),
     ("Fifth", none)]).1

/-! ### The fighter session (fighter_menu.c) -/

/-- The enum `fighterScreen_t`. -/
inductive fighterScreen_t where
  | FIGHTER_MENU | FIGHTER_CONNECTING | FIGHTER_WAITING | FIGHTER_GAME
  | FIGHTER_HR_RESULT | FIGHTER_MP_RESULT | FIGHTER_RECORDS
  deriving DecidableEq, Repr

/-- The enum `fighterMessageType_t`. -/
inductive fighterMessageType_t where
  | CHAR_SEL_MSG | STAGE_SEL_MSG | BUTTON_INPUT_MSG | SCENE_COMPOSED_MSG | MP_GAME_OVER_MSG
  deriving DecidableEq, Repr

/-- Modelled from the spec: the type of `p2p.cnc.playOrder` comes from
p2pConnection.h, which is not among the sources; the spec gives the role as
not-yet-determined, going-first or going-second. -/
inductive playOrder_t where
  | NOT_SET | GOING_SECOND | GOING_FIRST
  deriving DecidableEq, Repr

/-- The two game types passed to `fighterStartGame` in fighter_menu.c. -/
inductive fightingGameType_t where
  | MULTIPLAYER | HR_CONTEST
  deriving DecidableEq, Repr

/-- A value of the enum `fightingCharacter_t`, as an integer. -/
abbrev fightingCharacter_t := Nat

/-- A value of the enum `fightingStage_t`, as an integer. -/
abbrev fightingStage_t := Nat

/-- The struct `fighterMpGameResult_t`: `uint8_t msgType`, `uint32_t roundTimeMs`,
the two characters, `int16_t` damages and `int8_t` KOs. -/
structure fighterMpGameResult_t where
  msgType : Nat
  roundTimeMs : Nat
  self : fightingCharacter_t
  other : fightingCharacter_t
  selfDmg : Int
  otherDmg : Int
  selfKOs : Int
  otherKOs : Int
  deriving DecidableEq, Repr

/-- What is handed to `p2pSendMsg`: an array of bytes, or the bytes of a
`fighterMpGameResult_t` (the cast `(const uint8_t*)&res`). -/
inductive sentPayload_t where
  | bytes (b : List Nat)
  | result (res : fighterMpGameResult_t)
  deriving DecidableEq, Repr

/-- A call from fighter_menu.c into the game (mode_fighter.c), the result and
records screens, the p2p library or the Swadge core, with its arguments. -/
inductive fighterCall_t where
  | fighterStartGame (type : fightingGameType_t) (characters : fightingCharacter_t × fightingCharacter_t)
      (stage : fightingStage_t) (isPlayerOne : Bool)
  | fighterExitGame
  | p2pSendMsg (payload : sentPayload_t) (shouldAck : Bool)
  | fighterRxButtonInput (btnState : Nat)
  | fighterRxScene (len : Nat)
  | initFighterMpResult (roundTimeMs : Nat) (self : fightingCharacter_t) (selfKOs : Int)
      (selfDmg : Int) (other : fightingCharacter_t) (otherKOs : Int) (otherDmg : Int)
  | p2pDeinit
  | p2pInitialize
  | p2pStartConnection
  | initFighterRecords
  | switchToSwadgeMode
  deriving DecidableEq, Repr

/-- The session `fighterMenu_t` (the global `fm`): the fields the handlers
change, and the calls made into the game so far, oldest first. -/
structure fighterMenu_t where
  menu : meleeMenu_t
  screen : fighterScreen_t
  playOrder : playOrder_t
  characters : fightingCharacter_t × fightingCharacter_t
  stage : fightingStage_t
  lastSentMsg : fighterMessageType_t
  txTimeStart : Int
  calls : List fighterCall_t
  deriving DecidableEq, Repr

/-- The function `fighterCheckGameBegin`. -/
def fighterCheckGameBegin (NO_CHARACTER : fightingCharacter_t) (NO_STAGE : fightingStage_t)
    (fm : fighterMenu_t) : fighterMenu_t :=
  if fm.screen ≠ .FIGHTER_GAME ∧
      fm.characters.1 ≠ NO_CHARACTER ∧
      fm.characters.2 ≠ NO_CHARACTER ∧
      fm.stage ≠ NO_STAGE then
    -- Characters and stage set, start the game!
    let fm := { fm with calls := fm.calls ++
      [fighterCall_t.fighterStartGame fightingGameType_t.MULTIPLAYER fm.characters fm.stage
        (decide (playOrder_t.GOING_FIRST = fm.playOrder))] }
    { fm with screen := fighterScreen_t.FIGHTER_GAME }
  else fm

/-- The constants of meleeMenu.h and mode_fighter.h that fighter_menu.c uses.
These headers are not among the sources, so the values are parameters. -/
structure fighterCfg_t where
  MAX_ROWS : Nat
  MAX_ROWS_ON_SCREEN : Nat
  KING_DONUT : fightingCharacter_t
  SUNNY : fightingCharacter_t
  BIG_FUNKUS : fightingCharacter_t
  SANDBAG : fightingCharacter_t
  NO_CHARACTER : fightingCharacter_t
  BATTLEFIELD : fightingStage_t
  FINAL_DESTINATION : fightingStage_t
  HR_STADIUM : fightingStage_t
  NO_STAGE : fightingStage_t

/-- The string constants of fighter_menu.c (lines 108-130). -/
def str_swadgeBros : label_t := "Swadge Bros"
def str_multiplayer : label_t := "Multiplayer"
def str_hrContest : label_t := "HR Contest"
def str_records : label_t := "Records"
def str_exit : label_t := "Exit"
def str_charKD : label_t := "King Donut"
def str_charSN : label_t := "Sunny"
def str_charBF : label_t := "Big Funkus"
def str_back : label_t := "Back"
def str_stgBF : label_t := "Battlefield"
def str_stgFD : label_t := "Final Destination"

/-- The integer value of a `fighterMessageType_t` (the enum starts at 0). -/
def fighterMessageType_t.toNat : fighterMessageType_t → Nat
  | .CHAR_SEL_MSG => 0
  | .STAGE_SEL_MSG => 1
  | .BUTTON_INPUT_MSG => 2
  | .SCENE_COMPOSED_MSG => 3
  | .MP_GAME_OVER_MSG => 4

/-- The connection events named in `fighterP2pConCbFn` (the enum
`connectionEvt_t` of p2pConnection.h), and any other value. -/
inductive connectionEvt_t where
  | CON_STARTED | RX_GAME_START_ACK | RX_GAME_START_MSG | CON_ESTABLISHED | CON_LOST
  | other (v : Nat)
  deriving DecidableEq, Repr

/-- The statuses named in `fighterP2pMsgTxCbFn` (the enum `messageStatus_t` of
p2pConnection.h), and any other value. -/
inductive messageStatus_t where
  | MSG_ACKED | MSG_FAILED
  | other (v : Nat)
  deriving DecidableEq, Repr

/-- The outcome of one `realloc` inside `addRowToMeleeMenu`: `none` for NULL,
`some junk` for success with indeterminate new slots. -/
abbrev alloc_t := Option (Nat → Option label_t)

/-- The assignment `fm->characters[charIdx] = c`. -/
def setCharacter (characters : fightingCharacter_t × fightingCharacter_t) (charIdx : Nat)
    (c : fightingCharacter_t) : fightingCharacter_t × fightingCharacter_t :=
  if charIdx = 0 then (c, characters.2) else (characters.1, c)

/-- The read `fm->characters[charIdx]`. -/
def getCharacter (characters : fightingCharacter_t × fightingCharacter_t) (charIdx : Nat) :
    fightingCharacter_t :=
  if charIdx = 0 then characters.1 else characters.2

/-- The function `setFighterMainMenu`.  `allocs` holds the outcome of the
`realloc` of each `addRowToMeleeMenu` call, should it need one. -/
def setFighterMainMenu (cfg : fighterCfg_t) (allocs : List alloc_t) (fm : fighterMenu_t) :
    fighterMenu_t :=
  let menu := resetMeleeMenu fm.menu str_swadgeBros "fighterMainMenuCb"
  let menu := (addRows cfg.MAX_ROWS cfg.MAX_ROWS_ON_SCREEN menu
    [(str_multiplayer, allocs.getD 0 none), (str_hrContest, allocs.getD 1 none),
     (str_records, allocs.getD 2 none), (str_exit, allocs.getD 3 none)]).1
  { fm with menu := menu, screen := fighterScreen_t.FIGHTER_MENU }

/-- The function `setFighterHrMenu`. -/
def setFighterHrMenu (cfg : fighterCfg_t) (allocs : List alloc_t) (fm : fighterMenu_t) :
    fighterMenu_t :=
  let menu := resetMeleeMenu fm.menu str_hrContest "fighterHrMenuCb"
  let menu := (addRows cfg.MAX_ROWS cfg.MAX_ROWS_ON_SCREEN menu
    [(str_charKD, allocs.getD 0 none), (str_charSN, allocs.getD 1 none),
     (str_charBF, allocs.getD 2 none), (str_back, allocs.getD 3 none)]).1
  { fm with menu := menu, screen := fighterScreen_t.FIGHTER_MENU }

/-- The function `setFighterMultiplayerCharSelMenu`. -/
def setFighterMultiplayerCharSelMenu (cfg : fighterCfg_t) (allocs : List alloc_t)
    (fm : fighterMenu_t) : fighterMenu_t :=
  let menu := resetMeleeMenu fm.menu str_multiplayer "fighterMultiplayerCharMenuCb"
  let menu := (addRows cfg.MAX_ROWS cfg.MAX_ROWS_ON_SCREEN menu
    [(str_charKD, allocs.getD 0 none), (str_charSN, allocs.getD 1 none),
     (str_charBF, allocs.getD 2 none)]).1
  { fm with menu := menu, screen := fighterScreen_t.FIGHTER_MENU }

/-- The function `setFighterMultiplayerStageSelMenu`. -/
def setFighterMultiplayerStageSelMenu (cfg : fighterCfg_t) (allocs : List alloc_t)
    (fm : fighterMenu_t) : fighterMenu_t :=
  let menu := resetMeleeMenu fm.menu str_multiplayer "fighterMultiplayerStageMenuCb"
  let menu := (addRows cfg.MAX_ROWS cfg.MAX_ROWS_ON_SCREEN menu
    [(str_stgBF, allocs.getD 0 none), (str_stgFD, allocs.getD 1 none)]).1
  { fm with menu := menu, screen := fighterScreen_t.FIGHTER_MENU }

/-- The function `fighterMainMenuCb`.  The p2p library owns `fm->p2p`; what
`p2pDeinit` and `p2pInitialize` do to `playOrder` is not modelled. -/
def fighterMainMenuCb (cfg : fighterCfg_t) (allocs : List alloc_t) (fm : fighterMenu_t)
    (opt : label_t) : fighterMenu_t :=
  if opt = str_multiplayer then
    -- Clear state
    let fm := { fm with characters := (cfg.NO_CHARACTER, cfg.NO_CHARACTER) }
    let fm := { fm with stage := cfg.NO_STAGE }
    -- Show the screen for connecting
    let fm := { fm with screen := fighterScreen_t.FIGHTER_CONNECTING }
    { fm with calls := fm.calls ++ [fighterCall_t.p2pDeinit, fighterCall_t.p2pInitialize,
        fighterCall_t.p2pStartConnection] }
  else if opt = str_hrContest then
    setFighterHrMenu cfg allocs fm
  else if opt = str_records then
    let fm := { fm with calls := fm.calls ++ [fighterCall_t.initFighterRecords] }
    { fm with screen := fighterScreen_t.FIGHTER_RECORDS }
  else if opt = str_exit then
    { fm with calls := fm.calls ++ [fighterCall_t.switchToSwadgeMode] }
  else fm

/-- The function `fighterHrMenuCb`. -/
def fighterHrMenuCb (cfg : fighterCfg_t) (allocs : List alloc_t) (fm : fighterMenu_t)
    (opt : label_t) : fighterMenu_t :=
  -- These are the same for HR Contest
  let fm := { fm with stage := cfg.HR_STADIUM }
  let fm := { fm with characters := setCharacter fm.characters 1 cfg.SANDBAG }
  let start (fm : fighterMenu_t) : fighterMenu_t :=
    let fm := { fm with calls := fm.calls ++
      [fighterCall_t.fighterStartGame fightingGameType_t.HR_CONTEST fm.characters fm.stage true] }
    { fm with screen := fighterScreen_t.FIGHTER_GAME }
  if opt = str_charKD then
    start { fm with characters := setCharacter fm.characters 0 cfg.KING_DONUT }
  else if opt = str_charSN then
    start { fm with characters := setCharacter fm.characters 0 cfg.SUNNY }
  else if opt = str_charBF then
    start { fm with characters := setCharacter fm.characters 0 cfg.BIG_FUNKUS }
  else if opt = str_back then
    setFighterMainMenu cfg allocs fm
  else fm

/-- The function `fighterMultiplayerCharMenuCb`; `now` is the value of
`esp_timer_get_time()`. -/
def fighterMultiplayerCharMenuCb (cfg : fighterCfg_t) (allocs : List alloc_t) (now : Int)
    (fm : fighterMenu_t) (opt : label_t) : fighterMenu_t :=
  let charIdx : Nat := if playOrder_t.GOING_FIRST = fm.playOrder then 0 else 1
  let send (fm : fighterMenu_t) : fighterMenu_t :=
    -- Send character to the other swadge
    let payload : List Nat :=
      [fighterMessageType_t.CHAR_SEL_MSG.toNat, getCharacter fm.characters charIdx % 256]
    let fm := { fm with calls := fm.calls ++
      [fighterCall_t.p2pSendMsg (sentPayload_t.bytes payload) true] }
    let fm := { fm with txTimeStart := now }
    let fm := { fm with lastSentMsg := fighterMessageType_t.CHAR_SEL_MSG }
    if playOrder_t.GOING_FIRST = fm.playOrder then
      -- Player going first picks the stage
      setFighterMultiplayerStageSelMenu cfg allocs fm
    else
      -- Otherwise wait for the stage to be picked
      { fm with screen := fighterScreen_t.FIGHTER_WAITING }
  if opt = str_charKD then
    send { fm with characters := setCharacter fm.characters charIdx cfg.KING_DONUT }
  else if opt = str_charSN then
    send { fm with characters := setCharacter fm.characters charIdx cfg.SUNNY }
  else if opt = str_charBF then
    send { fm with characters := setCharacter fm.characters charIdx cfg.BIG_FUNKUS }
  else fm

/-- The function `fighterMultiplayerStageMenuCb`; `now` is the value of
`esp_timer_get_time()`. -/
def fighterMultiplayerStageMenuCb (cfg : fighterCfg_t) (now : Int) (fm : fighterMenu_t)
    (opt : label_t) : fighterMenu_t :=
  let send (fm : fighterMenu_t) : fighterMenu_t :=
    -- Send stage to other swadge
    let payload : List Nat := [fighterMessageType_t.STAGE_SEL_MSG.toNat, fm.stage % 256]
    let fm := { fm with calls := fm.calls ++
      [fighterCall_t.p2pSendMsg (sentPayload_t.bytes payload) true] }
    let fm := { fm with txTimeStart := now }
    let fm := { fm with lastSentMsg := fighterMessageType_t.STAGE_SEL_MSG }
    -- Wait for the other swadge to pick a character
    { fm with screen := fighterScreen_t.FIGHTER_WAITING }
  if str_stgBF = opt then
    send { fm with stage := cfg.BATTLEFIELD }
  else if str_stgFD = opt then
    send { fm with stage := cfg.FINAL_DESTINATION }
  else fm

/-- The function `fighterP2pConCbFn`. -/
def fighterP2pConCbFn (cfg : fighterCfg_t) (allocs : List alloc_t) (fm : fighterMenu_t)
    (evt : connectionEvt_t) : fighterMenu_t :=
  match evt with
  | .CON_STARTED | .RX_GAME_START_ACK | .RX_GAME_START_MSG => fm
  | .CON_ESTABLISHED =>
    -- Connection established, show character select screen
    setFighterMultiplayerCharSelMenu cfg allocs fm
  | .CON_LOST =>
    -- Reset to top level melee menu
    let fm := { fm with calls := fm.calls ++ [fighterCall_t.fighterExitGame] }
    setFighterMainMenu cfg allocs fm
  | .other _ => fm

/-- The function `fighterP2pMsgRxCbFn`.  `payload i` is the byte `payload[i]`;
`asResult payload` is the struct seen through the cast
`(const fighterMpGameResult_t*)payload`, whose layout belongs to the platform
and is a parameter. -/
def fighterP2pMsgRxCbFn (cfg : fighterCfg_t)
    (asResult : (Nat → Nat) → fighterMpGameResult_t) (fm : fighterMenu_t)
    (payload : Nat → Nat) (len : Nat) : fighterMenu_t :=
  match fm.screen with
  | .FIGHTER_MENU | .FIGHTER_CONNECTING | .FIGHTER_WAITING =>
    -- Check what was received
    if payload 0 = fighterMessageType_t.CHAR_SEL_MSG.toNat then
      -- Receive a character selection, so save it
      let charIdx : Nat := if playOrder_t.GOING_FIRST = fm.playOrder then 1 else 0
      let fm := { fm with characters := setCharacter fm.characters charIdx (payload 1) }
      fighterCheckGameBegin cfg.NO_CHARACTER cfg.NO_STAGE fm
    else if payload 0 = fighterMessageType_t.STAGE_SEL_MSG.toNat then
      -- Receive a stage selection, so save it
      let fm := { fm with stage := payload 1 }
      fighterCheckGameBegin cfg.NO_CHARACTER cfg.NO_STAGE fm
    else fm
  | .FIGHTER_GAME =>
    if fighterMessageType_t.BUTTON_INPUT_MSG.toNat = payload 0 then
      -- Receive button inputs, so save them
      { fm with calls := fm.calls ++ [fighterCall_t.fighterRxButtonInput (payload 1)] }
    else if fighterMessageType_t.SCENE_COMPOSED_MSG.toNat = payload 0 then
      -- Receive a scene, so draw it
      { fm with calls := fm.calls ++ [fighterCall_t.fighterRxScene len] }
    else if fighterMessageType_t.MP_GAME_OVER_MSG.toNat = payload 0 then
      -- Show the result
      let res := asResult payload
      let fm := { fm with calls := fm.calls ++
        [fighterCall_t.initFighterMpResult res.roundTimeMs
          res.other res.otherKOs res.otherDmg
          res.self res.selfKOs res.selfDmg] }
      let fm := { fm with screen := fighterScreen_t.FIGHTER_MP_RESULT }
      -- Deinit the game
      { fm with calls := fm.calls ++ [fighterCall_t.fighterExitGame] }
    else fm
  | .FIGHTER_HR_RESULT | .FIGHTER_MP_RESULT | .FIGHTER_RECORDS =>
    -- These screens don't receive packets
    fm

/-- The function `fighterP2pMsgTxCbFn`. -/
def fighterP2pMsgTxCbFn (cfg : fighterCfg_t) (allocs : List alloc_t) (fm : fighterMenu_t)
    (status : messageStatus_t) : fighterMenu_t :=
  match status with
  | .MSG_ACKED =>
    -- After character or stage selection, check if the game can begin
    if fm.lastSentMsg = fighterMessageType_t.CHAR_SEL_MSG ∨
        fm.lastSentMsg = fighterMessageType_t.STAGE_SEL_MSG then
      fighterCheckGameBegin cfg.NO_CHARACTER cfg.NO_STAGE fm
    else fm
  | .MSG_FAILED => setFighterMainMenu cfg allocs fm
  | .other _ => fm

/-- The function `fighterShowMpResult`. -/
def fighterShowMpResult (fm : fighterMenu_t) (roundTimeMs : Nat)
    (self : fightingCharacter_t) (selfKOs : Int) (selfDmg : Int)
    (other : fightingCharacter_t) (otherKOs : Int) (otherDmg : Int) : fighterMenu_t :=
  -- Send result to other swadge with an acknowledged packet
  let res : fighterMpGameResult_t :=
    { msgType := fighterMessageType_t.MP_GAME_OVER_MSG.toNat
      roundTimeMs := roundTimeMs
      self := self
      selfKOs := selfKOs
      selfDmg := selfDmg
      other := other
      otherKOs := otherKOs
      otherDmg := otherDmg }
  let fm := { fm with calls := fm.calls ++
    [fighterCall_t.p2pSendMsg (sentPayload_t.result res) true] }
  let fm := { fm with calls := fm.calls ++
    [fighterCall_t.initFighterMpResult roundTimeMs self selfKOs selfDmg other otherKOs otherDmg] }
  { fm with screen := fighterScreen_t.FIGHTER_MP_RESULT }

/-- The call `menu->cbFunc(opt)` in a fighter session: the menu's callback is
one of the four callbacks of fighter_menu.c. -/
def fighterMenuCb (cfg : fighterCfg_t) (allocs : List alloc_t) (now : Int)
    (fm : fighterMenu_t) (opt : label_t) : fighterMenu_t :=
  if fm.menu.cbFunc = "fighterMainMenuCb" then fighterMainMenuCb cfg allocs fm opt
  else if fm.menu.cbFunc = "fighterHrMenuCb" then fighterHrMenuCb cfg allocs fm opt
  else if fm.menu.cbFunc = "fighterMultiplayerCharMenuCb" then
    fighterMultiplayerCharMenuCb cfg allocs now fm opt
  else if fm.menu.cbFunc = "fighterMultiplayerStageMenuCb" then
    fighterMultiplayerStageMenuCb cfg now fm opt
  else fm

/-- The callbacks of fighter_menu.c as `meleeMenuButton` runs them in the
session `fm`: `f` is the function `menu->cbFunc` points to, `opt` the slot
`rows[selectedRow]` handed to it, and the result is the menu the call leaves.
The callbacks compare `opt` with their string constants, so a NULL slot (and
a slot outside the array) matches none of them and the menu stays as it is. -/
def fighterCbEnv (cfg : fighterCfg_t) (allocs : List alloc_t) (now : Int)
    (fm : fighterMenu_t) : menuCbEnv :=
  fun f opt menu =>
    match opt with
    | some (some opt) =>
      let fm := { fm with menu := menu }
      if f = "fighterMainMenuCb" then (fighterMainMenuCb cfg allocs fm opt).menu
      else if f = "fighterHrMenuCb" then (fighterHrMenuCb cfg allocs fm opt).menu
      else if f = "fighterMultiplayerCharMenuCb" then
        (fighterMultiplayerCharMenuCb cfg allocs now fm opt).menu
      else if f = "fighterMultiplayerStageMenuCb" then
        (fighterMultiplayerStageMenuCb cfg now fm opt).menu
      else menu
    | _ => menu

/-- An event delivered to the fighter session: a connection event, a received
packet, a transmission status, or the menu confirming the row labelled `opt`
(`fighterButtonCb` passes buttons to the menu only on the screen FIGHTER_MENU). -/
inductive fighterEvt_t where
  | conCb (evt : connectionEvt_t) (allocs : List alloc_t)
  | msgRx (payload : Nat → Nat) (len : Nat)
  | msgTx (status : messageStatus_t) (allocs : List alloc_t)
  | menuCb (opt : label_t) (now : Int) (allocs : List alloc_t)

/-- Handle one event. -/
def fighterStep (cfg : fighterCfg_t) (asResult : (Nat → Nat) → fighterMpGameResult_t)
    (fm : fighterMenu_t) : fighterEvt_t → fighterMenu_t
  | .conCb evt allocs => fighterP2pConCbFn cfg allocs fm evt
  | .msgRx payload len => fighterP2pMsgRxCbFn cfg asResult fm payload len
  | .msgTx status allocs => fighterP2pMsgTxCbFn cfg allocs fm status
  | .menuCb opt now allocs =>
    if fm.screen = fighterScreen_t.FIGHTER_MENU then fighterMenuCb cfg allocs now fm opt else fm

/-- Handle a sequence of events, oldest first. -/
def fighterRun (cfg : fighterCfg_t) (asResult : (Nat → Nat) → fighterMpGameResult_t)
    (fm : fighterMenu_t) (evts : List fighterEvt_t) : fighterMenu_t :=
  evts.foldl (fighterStep cfg asResult) fm

/-- The constants used in examples. -/
def exampleCfg : fighterCfg_t :=
  { MAX_ROWS := 255, MAX_ROWS_ON_SCREEN := 5,
    KING_DONUT := 0, SUNNY := 1, BIG_FUNKUS := 2, SANDBAG := 3, NO_CHARACTER := 4,
    BATTLEFIELD := 0, FINAL_DESTINATION := 1, HR_STADIUM := 2, NO_STAGE := 3 }

/-- A payload of two bytes, for examples (the bytes after them are 0). -/
def payload2 (b0 b1 : Nat) : Nat → Nat := fun i => if i = 0 then b0 else if i = 1 then b1 else 0

/-- A struct layout used in examples: one payload cell per field. -/
def exampleAsResult (payload : Nat → Nat) : fighterMpGameResult_t :=
  { msgType := payload 0, roundTimeMs := payload 1, self := payload 2, other := payload 3,
    selfDmg := payload 4, otherDmg := payload 5, selfKOs := payload 6, otherKOs := payload 7 }

/-- A menu and session used in examples. -/
def exampleMenu : meleeMenu_t :=
  (addRows 255 5 (initMeleeMenu 5 "Multiplayer" 20 "fighterMultiplayerCharMenuCb")
    [("King Donut", none), ("Sunny", none), ("Big Funkus", none)]).1

/-- A session waiting for the last selection, with both characters and the stage stored. -/
def exampleSession : fighterMenu_t :=
  { menu := exampleMenu, screen := .FIGHTER_WAITING, playOrder := .GOING_FIRST,
    characters := (0, 2), stage := 1, lastSentMsg := .STAGE_SEL_MSG, txTimeStart := 0,
    calls := [] }

/-- The session on its main menu, as `setFighterMainMenu` leaves it. -/
def mainMenuSession : fighterMenu_t := setFighterMainMenu exampleCfg [] exampleSession

/-- Four allocations that succeed, for examples. -/
def okAllocs : List alloc_t :=
  [some (fun _ => none), some (fun _ => none), some (fun _ => none), some (fun _ => none)]

/-- The callbacks of fighter_menu.c in `mainMenuSession`, for examples. -/
def exampleCbEnv : menuCbEnv := fighterCbEnv exampleCfg okAllocs 0 mainMenuSession

/-- The main menu with its second row, "HR Contest", selected: one press of DOWN. -/
def hrSelectedMenu : meleeMenu_t :=
  (meleeMenuButton 5 exampleCbEnv mainMenuSession.menu .DOWN).1

/-- The begin condition of `fighterCheckGameBegin` without its screen test:
both character slots and the stage are set. -/
def beginReady (cfg : fighterCfg_t) (fm : fighterMenu_t) : Prop :=
  fm.characters.1 ≠ cfg.NO_CHARACTER ∧ fm.characters.2 ≠ cfg.NO_CHARACTER ∧
    fm.stage ≠ cfg.NO_STAGE

/-- The event is a received packet or a transmission status. -/
def fighterEvt_t.isMsg : fighterEvt_t → Prop
  | .msgRx _ _ => True
  | .msgTx _ _ => True
  | _ => False

/-- A going-first session that has sent its character and its stage and waits
for the peer's character. -/
def waitingSession : fighterMenu_t :=
  { menu := exampleMenu, screen := .FIGHTER_WAITING, playOrder := .GOING_FIRST,
    characters := (0, 4), stage := 1, lastSentMsg := .STAGE_SEL_MSG, txTimeStart := 0,
    calls := [] }

/-- A session on the connecting screen with no character and no stage stored,
as `fighterMainMenuCb` leaves it when Multiplayer is chosen. -/
def connectingSession (order : playOrder_t) : fighterMenu_t :=
  { menu := exampleMenu, screen := .FIGHTER_CONNECTING, playOrder := order,
    characters := (exampleCfg.NO_CHARACTER, exampleCfg.NO_CHARACTER),
    stage := exampleCfg.NO_STAGE, lastSentMsg := .CHAR_SEL_MSG, txTimeStart := 0,
    calls := [] }

/-- A session in a running match. -/
def gameSession : fighterMenu_t :=
  { exampleSession with
    screen := .FIGHTER_GAME
    calls := [fighterCall_t.fighterStartGame .MULTIPLAYER (0, 2) 1 true] }

/-! ### The negotiation of a multiplayer match -/

/-- The call is a `fighterStartGame`. -/
def fighterCall_t.isStart : fighterCall_t → Bool
  | .fighterStartGame _ _ _ _ => true
  | _ => false

/-- The part of the session that decides how the negotiation goes on: the
screen, the menu's callback, the role, the stored selections, the type of the
last message sent, and the `fighterStartGame` calls made so far. -/
structure negView_t where
  screen : fighterScreen_t
  cbFunc : meleeMenuCb
  playOrder : playOrder_t
  characters : fightingCharacter_t × fightingCharacter_t
  stage : fightingStage_t
  lastSentMsg : fighterMessageType_t
  starts : List fighterCall_t
  deriving DecidableEq, Repr

/-- The view of a session. -/
def negView (fm : fighterMenu_t) : negView_t :=
  { screen := fm.screen, cbFunc := fm.menu.cbFunc, playOrder := fm.playOrder,
    characters := fm.characters, stage := fm.stage, lastSentMsg := fm.lastSentMsg,
    starts := fm.calls.filter fighterCall_t.isStart }

/-- The events of a negotiation: the local character selection, the local
stage selection, the peer's character-select message, the peer's stage-select
message, and the acknowledgement of a local send. -/
inductive negTok_t where
  | Lc | Ls | Rc | Rs | K
  deriving DecidableEq, Repr

/-- The values selected in a negotiation: the local character, the peer's
character, and the stage. -/
structure negSel_t where
  own : fightingCharacter_t
  peer : fightingCharacter_t
  stage : fightingStage_t

/-- What the handlers are given in a negotiation: the labels of the menu rows
confirmed locally, the payloads received from the peer, and the remaining
arguments. -/
structure negPar_t where
  lc : label_t
  ls : label_t
  pc : Nat → Nat
  ps : Nat → Nat
  len : Nat
  now : Int
  allocs : List alloc_t

/-- The session event of a negotiation event. -/
def negEvt (par : negPar_t) : negTok_t → fighterEvt_t
  | .Lc => .menuCb par.lc par.now par.allocs
  | .Ls => .menuCb par.ls par.now par.allocs
  | .Rc => .msgRx par.pc par.len
  | .Rs => .msgRx par.ps par.len
  | .K => .msgTx .MSG_ACKED par.allocs

/-- The handlers' arguments carry the selected values: the local labels name
the selected character and stage, and the peer's payloads are a CHAR_SEL_MSG
and a STAGE_SEL_MSG with the selected values in their second byte. -/
def negTokOk (cfg : fighterCfg_t) (par : negPar_t) (sel : negSel_t) : negTok_t → Prop
  | .Lc => (par.lc = str_charKD ∧ sel.own = cfg.KING_DONUT) ∨
      (par.lc = str_charSN ∧ sel.own = cfg.SUNNY) ∨
      (par.lc = str_charBF ∧ sel.own = cfg.BIG_FUNKUS)
  | .Ls => (par.ls = str_stgBF ∧ sel.stage = cfg.BATTLEFIELD) ∨
      (par.ls = str_stgFD ∧ sel.stage = cfg.FINAL_DESTINATION)
  | .Rc => par.pc 0 = fighterMessageType_t.CHAR_SEL_MSG.toNat ∧ par.pc 1 = sel.peer
  | .Rs => par.ps 0 = fighterMessageType_t.STAGE_SEL_MSG.toNat ∧ par.ps 1 = sel.stage
  | .K => True

/-- The effect of `fighterCheckGameBegin` on the view. -/
def viewCheck (cfg : fighterCfg_t) (v : negView_t) : negView_t :=
  if v.screen ≠ .FIGHTER_GAME ∧ v.characters.1 ≠ cfg.NO_CHARACTER ∧
      v.characters.2 ≠ cfg.NO_CHARACTER ∧ v.stage ≠ cfg.NO_STAGE then
    { v with
      screen := .FIGHTER_GAME
      starts := v.starts ++ [fighterCall_t.fighterStartGame .MULTIPLAYER v.characters v.stage
        (decide (playOrder_t.GOING_FIRST = v.playOrder))] }
  else v

/-- The effect of a negotiation event on the view, where the view determines
it (`none` where it does not: a selection confirmed on a menu of another
callback). -/
def viewStep (cfg : fighterCfg_t) (sel : negSel_t) (v : negView_t) :
    negTok_t → Option negView_t
  | .Lc =>
    if v.screen = .FIGHTER_MENU then
      if v.cbFunc = "fighterMultiplayerCharMenuCb" then
        let v := { v with
          characters := setCharacter v.characters
            (if playOrder_t.GOING_FIRST = v.playOrder then 0 else 1) sel.own
          lastSentMsg := .CHAR_SEL_MSG }
        if playOrder_t.GOING_FIRST = v.playOrder then
          some { v with cbFunc := "fighterMultiplayerStageMenuCb", screen := .FIGHTER_MENU }
        else some { v with screen := .FIGHTER_WAITING }
      else none
    else some v
  | .Ls =>
    if v.screen = .FIGHTER_MENU then
      if v.cbFunc = "fighterMultiplayerStageMenuCb" then
        some { v with stage := sel.stage, lastSentMsg := .STAGE_SEL_MSG,
                      screen := .FIGHTER_WAITING }
      else none
    else some v
  | .Rc =>
    if v.screen = .FIGHTER_MENU ∨ v.screen = .FIGHTER_CONNECTING ∨
        v.screen = .FIGHTER_WAITING then
      some (viewCheck cfg { v with
        characters := setCharacter v.characters
          (if playOrder_t.GOING_FIRST = v.playOrder then 1 else 0) sel.peer })
    else some v
  | .Rs =>
    if v.screen = .FIGHTER_MENU ∨ v.screen = .FIGHTER_CONNECTING ∨
        v.screen = .FIGHTER_WAITING then
      some (viewCheck cfg { v with stage := sel.stage })
    else some v
  | .K =>
    if v.lastSentMsg = .CHAR_SEL_MSG ∨ v.lastSentMsg = .STAGE_SEL_MSG then
      some (viewCheck cfg v)
    else some v

/-- The effect of a sequence of negotiation events on the view. -/
def viewRun (cfg : fighterCfg_t) (sel : negSel_t) : negView_t → List negTok_t → Option negView_t
  | v, [] => some v
  | v, t :: ts => (viewStep cfg sel v t).bind (fun w => viewRun cfg sel w ts)

/-- The events of a going-first negotiation: both local selections, the peer's
character-select, and one acknowledgement for each local send. -/
def negToksFirst : List negTok_t := [.Lc, .Ls, .Rc, .K, .K]

/-- The events of a going-second negotiation: the local character selection,
the peer's two messages, and the acknowledgement of the local send. -/
def negToksSecond : List negTok_t := [.Lc, .Rc, .Rs, .K]

/-- Every acknowledgement follows a send of its own: `n` is the number of sends
not acknowledged yet. -/
def acksCovered : Nat → List negTok_t → Bool
  | _, [] => true
  | n, .K :: ts => decide (0 < n) && acksCovered (n - 1) ts
  | n, .Lc :: ts => acksCovered (n + 1) ts
  | n, .Ls :: ts => acksCovered (n + 1) ts
  | n, _ :: ts => acksCovered n ts

/-- An order the screens allow: the stage menu comes up only after the local
character selection, and an acknowledgement comes only after its send. -/
def validOrder (toks : List negTok_t) : Prop :=
  acksCovered 0 toks = true ∧ toks.indexOf negTok_t.Lc ≤ toks.indexOf negTok_t.Ls

instance (toks : List negTok_t) : Decidable (validOrder toks) := by
  unfold validOrder; infer_instance

/-- Both characters and the stage have been selected or received. -/
def negComplete (toks : List negTok_t) : Prop :=
  negTok_t.Lc ∈ toks ∧ negTok_t.Rc ∈ toks ∧ (negTok_t.Ls ∈ toks ∨ negTok_t.Rs ∈ toks)

instance (toks : List negTok_t) : Decidable (negComplete toks) := by
  unfold negComplete; infer_instance

/-- The session after the connection is established and the negotiation events
`toks` are handled, oldest first. -/
def negRun (cfg : fighterCfg_t) (asResult : (Nat → Nat) → fighterMpGameResult_t)
    (allocs : List alloc_t) (par : negPar_t) (fm : fighterMenu_t) (toks : List negTok_t) :
    fighterMenu_t :=
  fighterRun cfg asResult (fighterP2pConCbFn cfg allocs fm .CON_ESTABLISHED)
    (toks.map (negEvt par))

/-- The view when the connection is established with nothing selected. -/
def negViewStart (cfg : fighterCfg_t) (order : playOrder_t) (lastSent : fighterMessageType_t)
    (starts : List fighterCall_t) : negView_t :=
  { screen := .FIGHTER_MENU, cbFunc := "fighterMultiplayerCharMenuCb", playOrder := order,
    characters := (cfg.NO_CHARACTER, cfg.NO_CHARACTER), stage := cfg.NO_STAGE,
    lastSentMsg := lastSent, starts := starts }

/-- The lists obtained by inserting `a` at one position of a list. -/
def insertAll (a : negTok_t) : List negTok_t → List (List negTok_t)
  | [] => [[a]]
  | b :: l => (a :: b :: l) :: (insertAll a l).map (fun t => b :: t)

/-- All orders of a list of events. -/
def allOrders : List negTok_t → List (List negTok_t)
  | [] => [[]]
  | a :: l => (allOrders l).flatMap (insertAll a)

/-- The valid orders of a going-first negotiation. -/
def negOrdersFirst : List (List negTok_t) :=
  [[.Lc, .K, .Ls, .Rc, .K], [.Lc, .Ls, .K, .Rc, .K], [.Lc, .Ls, .Rc, .K, .K],
   [.Lc, .K, .Rc, .Ls, .K], [.Lc, .Rc, .K, .Ls, .K], [.Lc, .Rc, .Ls, .K, .K],
   [.Rc, .Lc, .K, .Ls, .K], [.Rc, .Lc, .Ls, .K, .K], [.Lc, .K, .Ls, .K, .Rc],
   [.Lc, .Ls, .K, .K, .Rc]]

/-- The valid orders of a going-second negotiation. -/
def negOrdersSecond : List (List negTok_t) :=
  [[.Lc, .Rc, .Rs, .K], [.Rc, .Lc, .Rs, .K], [.Rs, .Rc, .Lc, .K], [.Rc, .Rs, .Lc, .K],
   [.Rs, .Lc, .Rc, .K], [.Lc, .Rs, .Rc, .K], [.Lc, .K, .Rc, .Rs], [.Lc, .Rc, .K, .Rs],
   [.Rc, .Lc, .K, .Rs], [.Lc, .K, .Rs, .Rc], [.Lc, .Rs, .K, .Rc], [.Rs, .Lc, .K, .Rc]]

/-- The arguments and selections used in examples: King Donut and Battlefield
picked locally, Big Funkus and Battlefield received. -/
def exampleNegPar : negPar_t :=
  { lc := "King Donut", ls := "Battlefield", pc := payload2 0 2, ps := payload2 1 0,
    len := 2, now := 7, allocs := [] }

/-- The values selected in the examples. -/
def exampleNegSel : negSel_t := { own := 0, peer := 2, stage := 0 }

/-! ### The melee menu: animation and drawing -/

/-- The local `goingDown` of `drawMeleeMenu` (line 401). -/
def animGoingDown (menu : meleeMenu_t) : Bool :=
  decide (menu.animateStartRow < menu.firstRowOnScreen)

/-- The local `rowGap` of `drawMeleeMenu` (line 359). -/
def animRowGap (menu : meleeMenu_t) : Int := menu.fontH + 2 * TEXT_Y_GAP + 3

/-- The value `animateSpeed` takes in a tick of the animation (lines 414-423). -/
def animNextSpeed (menu : meleeMenu_t) : Int :=
  let speed := menu.animateSpeed + ANIM_ACCEL * (if animGoingDown menu then 1 else -1)
  if speed > ANIM_MAXSPEED then ANIM_MAXSPEED
  else if speed < -ANIM_MAXSPEED then -ANIM_MAXSPEED
  else speed

/-- The test of line 427 on the offset `off`: the destination is passed. -/
def animArrived (menu : meleeMenu_t) (off : Int) : Prop :=
  (animGoingDown menu = true ∧ off > animRowGap menu) ∨
    (animGoingDown menu = false ∧ off < -animRowGap menu)

instance (menu : meleeMenu_t) (off : Int) : Decidable (animArrived menu off) := by
  unfold animArrived; infer_instance

/-- The selection lies inside the viewport. -/
def inWindow (MAX_ROWS_ON_SCREEN : Nat) (m : meleeMenu_t) : Prop :=
  m.firstRowOnScreen ≤ m.selectedRow ∧ m.selectedRow < m.firstRowOnScreen + MAX_ROWS_ON_SCREEN

instance (M : Nat) (m : meleeMenu_t) : Decidable (inWindow M m) := by
  unfold inWindow; infer_instance

/-- A menu with seven rows and a font of height 21, so that a row is 28 pixels high. -/
def sevenRowMenu : meleeMenu_t :=
  (addRows 255 5 (initMeleeMenu 5 "Jukebox" 21 "jukeboxCb")
    [("a", none), ("b", none), ("c", none), ("d", none), ("e", none),
     ("f", some (fun _ => none)), ("g", none)]).1

/-- A menu driven to the top of its index range: UP on the empty menu, 255
rows added, UP again, and eight draws, after which the scroll has settled.
(No button that runs a callback is pressed.) -/
def wrappedMenu : meleeMenu_t :=
  menuRun 5 exampleCbEnv
    (addRows 255 5 (menuRun 5 exampleCbEnv freshMenu [.button .UP])
      (List.replicate 255 ("row", some (fun _ => none)))).1
    [.button .UP, .draw, .draw, .draw, .draw, .draw, .draw, .draw, .draw]

/-- The fields that drive scrolling and animation. -/
def scrollState (m : meleeMenu_t) : Nat × Nat × Nat × Bool × Int × Int × Nat :=
  (m.firstRowOnScreen, m.selectedRow, m.animateStartRow, m.animating, m.animateSpeed,
    m.animateOffset, m.fontH)

/-- An idle menu scrolled down by one row: five presses of DOWN on
`sevenRowMenu`, then draws until the scroll has settled.  (No button that runs
a callback is pressed.) -/
def scrolledMenu : meleeMenu_t :=
  menuRun 5 exampleCbEnv sevenRowMenu
    [.button .DOWN, .button .DOWN, .button .DOWN, .button .DOWN, .button .DOWN,
     .draw, .draw, .draw, .draw, .draw, .draw, .draw, .draw]

/-! ### The melee menu: reachable states -/

/-- An operation on a menu through its interface: a button press, a
`drawMeleeMenu` call, a `resetMeleeMenu` call, or an `addRowToMeleeMenu` call
with the outcome of its `realloc`. -/
inductive menuOp_t where
  | button (btn : buttonBit_t)
  | draw
  | reset (title : label_t) (cbFunc : meleeMenuCb)
  | addRow (label : label_t) (alloc : Option (Nat → Option label_t))

/-- Apply one operation. -/
def menuOpStep (MAX_ROWS MAX_ROWS_ON_SCREEN : Nat) (cb : menuCbEnv) (menu : meleeMenu_t) :
    menuOp_t → meleeMenu_t
  | .button btn => (meleeMenuButton MAX_ROWS_ON_SCREEN cb menu btn).1
  | .draw => (drawMeleeMenu MAX_ROWS_ON_SCREEN menu).1
  | .reset title cbFunc => resetMeleeMenu menu title cbFunc
  | .addRow label alloc => (addRowToMeleeMenu MAX_ROWS MAX_ROWS_ON_SCREEN menu label alloc).1

/-- Apply a sequence of operations, oldest first. -/
def menuOpRun (MAX_ROWS MAX_ROWS_ON_SCREEN : Nat) (cb : menuCbEnv) (menu : meleeMenu_t)
    (ops : List menuOp_t) : meleeMenu_t :=
  ops.foldl (menuOpStep MAX_ROWS MAX_ROWS_ON_SCREEN cb) menu

/-- The invariant of the animation state: the speed is within the maximum, a
menu that is not animating has speed and offset 0, and the selection is a
`uint8_t` value. -/
def animInv (m : meleeMenu_t) : Prop :=
  -ANIM_MAXSPEED ≤ m.animateSpeed ∧ m.animateSpeed ≤ ANIM_MAXSPEED ∧
    (m.animating = false → m.animateSpeed = 0 ∧ m.animateOffset = 0) ∧
    m.selectedRow ≤ 255

/-- The idle state of the animation. -/
def animIdle (m : meleeMenu_t) : Prop :=
  m.animating = false ∧ m.animateOffset = 0 ∧ m.animateSpeed = 0 ∧
    m.animateStartRow = m.firstRowOnScreen

/-- The menu after a tick of the animation that does not arrive (lines 414-426). -/
def animTicked (m : meleeMenu_t) : meleeMenu_t :=
  { m with
    animateSpeed := animNextSpeed m
    animateOffset := m.animateOffset + animNextSpeed m }

/-- The menu after the tick in which the animation arrives (lines 429-433). -/
def animSettled (m : meleeMenu_t) : meleeMenu_t :=
  { m with
    animateStartRow := m.firstRowOnScreen
    animateOffset := 0
    animateSpeed := 0
    animating := false }

/-- Operations that fill a menu with seven rows, scroll it down by one row and
draw it twice, for examples. -/
def exampleOps : List menuOp_t :=
  [.addRow "a" none, .addRow "b" none, .addRow "c" none, .addRow "d" none, .addRow "e" none,
   .addRow "f" (some (fun _ => none)), .addRow "g" none,
   .button .DOWN, .button .DOWN, .button .DOWN, .button .DOWN, .button .DOWN, .draw, .draw]

/-- Operations on the fighter main menu that run a callback on the way: fill
the menu, select "HR Contest" and confirm it (`fighterMainMenuCb` rebuilds the
menu with the four rows of the home-run contest), add three more rows, scroll
down by one row and draw twice, for examples. -/
def confirmOps : List menuOp_t :=
  [.addRow "Multiplayer" none, .addRow "HR Contest" none, .addRow "Records" none,
   .addRow "Exit" none, .button .DOWN, .button .START,
   .addRow "e" none, .addRow "f" (some (fun _ => none)), .addRow "g" none,
   .button .DOWN, .button .DOWN, .button .DOWN, .button .DOWN, .button .DOWN, .draw, .draw]

/-! ### The fighter session: payload reads -/

/-- The read `payload[i]`, recorded: the byte read, and the indices read so far
extended by `i`. -/
def readPayload (payload : Nat → Nat) (i : Nat) (log : List Nat) : Nat × List Nat :=
  (payload i, log ++ [i])

/-- The function `fighterP2pMsgRxCbFn` with its payload reads recorded: the
statements of lines 705-763 once more, every `payload[i]` going through
`readPayload`.  The second component lists the indices read, in program
order.  `resultIdx` holds the indices of the bytes read through the cast to
`fighterMpGameResult_t*`, whose layout belongs to the platform; the bytes that
`fighterRxScene` reads from the pointer and length it is given are not
listed. -/
def fighterP2pMsgRxCbFnLogged (cfg : fighterCfg_t)
    (asResult : (Nat → Nat) → fighterMpGameResult_t) (resultIdx : List Nat)
    (fm : fighterMenu_t) (payload : Nat → Nat) (len : Nat) : fighterMenu_t × List Nat :=
  match fm.screen with
  | .FIGHTER_MENU | .FIGHTER_CONNECTING | .FIGHTER_WAITING =>
    -- Check what was received
    let r := readPayload payload 0 []
    if r.1 = fighterMessageType_t.CHAR_SEL_MSG.toNat then
      -- Receive a character selection, so save it
      let charIdx : Nat := if playOrder_t.GOING_FIRST = fm.playOrder then 1 else 0
      let r := readPayload payload 1 r.2
      let fm := { fm with characters := setCharacter fm.characters charIdx r.1 }
      (fighterCheckGameBegin cfg.NO_CHARACTER cfg.NO_STAGE fm, r.2)
    else
      let r := readPayload payload 0 r.2
      if r.1 = fighterMessageType_t.STAGE_SEL_MSG.toNat then
        -- Receive a stage selection, so save it
        let r := readPayload payload 1 r.2
        let fm := { fm with stage := r.1 }
        (fighterCheckGameBegin cfg.NO_CHARACTER cfg.NO_STAGE fm, r.2)
      else (fm, r.2)
  | .FIGHTER_GAME =>
    let r := readPayload payload 0 []
    if fighterMessageType_t.BUTTON_INPUT_MSG.toNat = r.1 then
      -- Receive button inputs, so save them
      let r := readPayload payload 1 r.2
      ({ fm with calls := fm.calls ++ [fighterCall_t.fighterRxButtonInput r.1] }, r.2)
    else
      let r := readPayload payload 0 r.2
      if fighterMessageType_t.SCENE_COMPOSED_MSG.toNat = r.1 then
        -- Receive a scene, so draw it
        ({ fm with calls := fm.calls ++ [fighterCall_t.fighterRxScene len] }, r.2)
      else
        let r := readPayload payload 0 r.2
        if fighterMessageType_t.MP_GAME_OVER_MSG.toNat = r.1 then
          -- Show the result
          let res := asResult payload
          let log := r.2 ++ resultIdx
          let fm := { fm with calls := fm.calls ++
            [fighterCall_t.initFighterMpResult res.roundTimeMs
              res.other res.otherKOs res.otherDmg
              res.self res.selfKOs res.selfDmg] }
          let fm := { fm with screen := fighterScreen_t.FIGHTER_MP_RESULT }
          -- Deinit the game
          ({ fm with calls := fm.calls ++ [fighterCall_t.fighterExitGame] }, log)
        else (fm, r.2)
  | .FIGHTER_HR_RESULT | .FIGHTER_MP_RESULT | .FIGHTER_RECORDS =>
    -- These screens don't receive packets
    (fm, [])

/-- A payload of eight bytes that starts with MP_GAME_OVER_MSG, for examples. -/
def resultPayload : Nat → Nat := fun i => if i = 0 then 4 else if i < 8 then i else 0

/-! ## Part 2. Properties -/

/-! ### The begin condition -/

/-- C1. `fighterCheckGameBegin` starts the match - one call of `fighterStartGame`
in MULTIPLAYER mode with the stored characters, the stored stage and the flag
`GOING_FIRST == playOrder`, and the screen set to FIGHTER_GAME, nothing else
touched - if and only if the screen is not FIGHTER_GAME, both character slots
differ from NO_CHARACTER and the stage differs from NO_STAGE; it leaves the
whole session unchanged if and only if that condition fails.  So an unset
stage prevents the start whatever the characters are, and a running match is
not started again. -/
theorem fighterCheckGameBegin_starts_iff (NO_CHARACTER : fightingCharacter_t)
    (NO_STAGE : fightingStage_t) (fm : fighterMenu_t) :
    (fighterCheckGameBegin NO_CHARACTER NO_STAGE fm =
        { fm with
          screen := .FIGHTER_GAME
          calls := fm.calls ++ [.fighterStartGame .MULTIPLAYER (fm.characters.1, fm.characters.2)
            fm.stage (decide (fm.playOrder = .GOING_FIRST))] }
      ↔ (fm.screen ≠ .FIGHTER_GAME ∧ fm.characters.1 ≠ NO_CHARACTER ∧
          fm.characters.2 ≠ NO_CHARACTER ∧ fm.stage ≠ NO_STAGE)) ∧
    (fighterCheckGameBegin NO_CHARACTER NO_STAGE fm = fm
      ↔ ¬ (fm.screen ≠ .FIGHTER_GAME ∧ fm.characters.1 ≠ NO_CHARACTER ∧
          fm.characters.2 ≠ NO_CHARACTER ∧ fm.stage ≠ NO_STAGE)) ∧
    (fighterCheckGameBegin NO_CHARACTER NO_STAGE { fm with stage := NO_STAGE } =
        { fm with stage := NO_STAGE }) ∧
    (fighterCheckGameBegin NO_CHARACTER NO_STAGE { fm with screen := .FIGHTER_GAME } =
        { fm with screen := .FIGHTER_GAME }) := by
  have hne : ∀ (l : List fighterCall_t) (c : fighterCall_t), l ++ [c] ≠ l := by
    intro l c h
    have := congrArg List.length h
    simp at this
  have hflag : decide (playOrder_t.GOING_FIRST = fm.playOrder) =
      decide (fm.playOrder = playOrder_t.GOING_FIRST) := by
    cases fm.playOrder <;> rfl
  by_cases hc : fm.screen ≠ .FIGHTER_GAME ∧ fm.characters.1 ≠ NO_CHARACTER ∧
      fm.characters.2 ≠ NO_CHARACTER ∧ fm.stage ≠ NO_STAGE
  · have hrun : fighterCheckGameBegin NO_CHARACTER NO_STAGE fm =
        { fm with
          screen := .FIGHTER_GAME
          calls := fm.calls ++ [.fighterStartGame .MULTIPLAYER (fm.characters.1, fm.characters.2)
            fm.stage (decide (fm.playOrder = .GOING_FIRST))] } := by
      simp only [fighterCheckGameBegin, if_pos hc, hflag]
    refine ⟨?_, ?_, ?_, ?_⟩
    · exact ⟨fun _ => hc, fun _ => hrun⟩
    · refine ⟨fun h => ?_, fun h => absurd hc h⟩
      rw [hrun] at h
      exact absurd (congrArg fighterMenu_t.calls h) (hne _ _)
    · simp [fighterCheckGameBegin]
    · simp [fighterCheckGameBegin]
  · have hrun : fighterCheckGameBegin NO_CHARACTER NO_STAGE fm = fm := by
      simp only [fighterCheckGameBegin, if_neg hc]
    refine ⟨?_, ?_, ?_, ?_⟩
    · refine ⟨fun h => ?_, fun h => absurd h hc⟩
      rw [hrun] at h
      exact absurd (congrArg fighterMenu_t.calls h).symm (hne _ _)
    · exact ⟨fun _ => hc, fun _ => hrun⟩
    · simp [fighterCheckGameBegin]
    · simp [fighterCheckGameBegin]

/-! ### The scanline fill: the pixel law -/

theorem countStep_disp (bc : paletteColor_t) (y x : Int) (s : fill_t) :
    (countStep bc y x s).disp = s.disp := by
  unfold countStep
  dsimp only
  split_ifs <;> rfl

theorem countLoop_disp (bc : paletteColor_t) (y : Int) (n : Nat) :
    ∀ (x : Int) (s : fill_t), (countLoop bc y n x s).disp = s.disp := by
  induction n with
  | zero => intro x s; rfl
  | succ n ih => intro x s; rw [countLoop, ih, countStep_disp]

theorem countStep_flags (bc : paletteColor_t) (y x : Int) (s : fill_t) :
    ((countStep bc y x s).isInside, (countStep bc y x s).insideHysteresis) =
      flagsStep (decide (bc = s.disp.px x y)) (s.isInside, s.insideHysteresis) := by
  unfold countStep flagsStep GET_PIXEL
  dsimp only
  by_cases hb : bc = s.disp.px x y <;> cases hh : s.insideHysteresis <;>
    cases hi : s.isInside <;> simp [hb, hh, hi]

theorem countLoop_flags (bc : paletteColor_t) (y : Int) (n : Nat) :
    ∀ (x : Int) (s : fill_t),
      ((countLoop bc y n x s).isInside, (countLoop bc y n x s).insideHysteresis) =
        flagsAt s.disp bc y n x (s.isInside, s.insideHysteresis) := by
  induction n with
  | zero => intro x s; rfl
  | succ n ih =>
    intro x s
    rw [countLoop, ih, countStep_disp, countStep_flags, flagsAt]

theorem countStep_parity (bc : paletteColor_t) (y x : Int) (s : fill_t)
    (h : s.transitionCount % 2 = 1 ↔ s.isInside = true) :
    (countStep bc y x s).transitionCount % 2 = 1 ↔ (countStep bc y x s).isInside = true := by
  have hmod : ∀ k : Nat, (k + 1) % 65536 % 2 = (k + 1) % 2 := fun k => by omega
  unfold countStep
  dsimp only
  cases hi : s.isInside <;> rw [hi] at h <;>
    split_ifs <;> simp only [Bool.not_true, Bool.not_false, hi, hmod] <;>
    first | exact h | (simp at h ⊢; omega)

theorem countLoop_parity (bc : paletteColor_t) (y : Int) (n : Nat) :
    ∀ (x : Int) (s : fill_t), (s.transitionCount % 2 = 1 ↔ s.isInside = true) →
      ((countLoop bc y n x s).transitionCount % 2 = 1 ↔ (countLoop bc y n x s).isInside = true) := by
  induction n with
  | zero => intro x s h; exact h
  | succ n ih => intro x s h; rw [countLoop]; exact ih _ _ (countStep_parity bc y x s h)

/-- From a fresh row state the count is even exactly when the scan ends outside. -/
theorem countLoop_even_iff (bc : paletteColor_t) (y : Int) (n : Nat) (x : Int) (s : fill_t)
    (h0 : s.transitionCount = 0) (hi : s.isInside = false) (hh : s.insideHysteresis = false) :
    (countLoop bc y n x s).transitionCount % 2 = 0 ↔
      (flagsAt s.disp bc y n x (false, false)).1 = false := by
  have hp := countLoop_parity bc y n x s (by simp [h0, hi])
  have hf := congrArg Prod.fst (countLoop_flags bc y n x s)
  rw [hi, hh] at hf
  simp only at hf
  rw [← hf]
  cases hc : (countLoop bc y n x s).isInside
  · simp [hc] at hp ⊢; omega
  · simp [hc] at hp ⊢; omega

theorem flagsAt_congr (d1 d2 : display_t) (bc : paletteColor_t) (y : Int) (n : Nat) :
    ∀ (x : Int) (f : Bool × Bool),
      (∀ p, x ≤ p → p < x + n → d1.px p y = d2.px p y) →
      flagsAt d1 bc y n x f = flagsAt d2 bc y n x f := by
  induction n with
  | zero => intro x f _; rfl
  | succ n ih =>
    intro x f h
    rw [flagsAt, flagsAt, h x (le_refl x) (by push_cast; omega)]
    exact ih (x + 1) _ (fun p hp1 hp2 => h p (by omega) (by push_cast; omega))

theorem flagsAt_add (d : display_t) (bc : paletteColor_t) (y : Int) (m : Nat) :
    ∀ (n : Nat) (x : Int) (f : Bool × Bool),
      flagsAt d bc y (n + m) x f = flagsAt d bc y m (x + n) (flagsAt d bc y n x f) := by
  intro n
  induction n with
  | zero => intro x f; simp [flagsAt]
  | succ n ih =>
    intro x f
    rw [show n + 1 + m = (n + m) + 1 by omega, flagsAt, ih, flagsAt]
    congr 1
    push_cast
    ring

theorem paintStep_w (bc fc : paletteColor_t) (y x : Int) (s : fill_t) :
    (paintStep bc fc y x s).disp.w = s.disp.w := by
  unfold paintStep TURBO_SET_PIXEL_BOUNDS
  dsimp only
  split_ifs <;> rfl

theorem paintStep_h (bc fc : paletteColor_t) (y x : Int) (s : fill_t) :
    (paintStep bc fc y x s).disp.h = s.disp.h := by
  unfold paintStep TURBO_SET_PIXEL_BOUNDS
  dsimp only
  split_ifs <;> rfl

theorem paintStep_flags (bc fc : paletteColor_t) (y x : Int) (s : fill_t) :
    ((paintStep bc fc y x s).isInside, (paintStep bc fc y x s).insideHysteresis) =
      flagsStep (decide (bc = s.disp.px x y)) (s.isInside, s.insideHysteresis) := by
  unfold paintStep flagsStep GET_PIXEL
  dsimp only
  by_cases hb : bc = s.disp.px x y <;> cases hh : s.insideHysteresis <;>
    cases hi : s.isInside <;> simp [hb, hh, hi]

theorem paintStep_px (bc fc : paletteColor_t) (y x : Int) (s : fill_t) (a b : Int) :
    (paintStep bc fc y x s).disp.px a b =
      if a = x ∧ b = y ∧ 0 ≤ x ∧ x < s.disp.w ∧ 0 ≤ y ∧ y < s.disp.h ∧
          s.disp.px x y ≠ bc ∧ s.isInside = true then fc
      else s.disp.px a b := by
  unfold paintStep TURBO_SET_PIXEL_BOUNDS GET_PIXEL
  dsimp only
  by_cases hb : bc = s.disp.px x y
  · have hneg : ¬ (a = x ∧ b = y ∧ 0 ≤ x ∧ x < s.disp.w ∧ 0 ≤ y ∧ y < s.disp.h ∧
          s.disp.px x y ≠ bc ∧ s.isInside = true) := fun hc => hc.2.2.2.2.2.2.1 hb.symm
    rw [if_pos hb, if_neg hneg]
    split_ifs <;> rfl
  · have hb2 : s.disp.px x y ≠ bc := fun h => hb h.symm
    cases hi : s.isInside
    · simp [hb, hi]
    · by_cases hin : 0 ≤ x ∧ x < s.disp.w ∧ 0 ≤ y ∧ y < s.disp.h
      · simp only [hb, hi, if_true, if_false, if_pos hin]
        by_cases hab : a = x ∧ b = y
        · obtain ⟨rfl, rfl⟩ := hab
          simp [hb2, hin]
        · rw [if_neg hab, if_neg]
          intro hc
          exact hab ⟨hc.1, hc.2.1⟩
      · simp only [hb, hi, if_true, if_false, if_neg hin]
        rw [if_neg]
        intro hc
        exact hin ⟨hc.2.2.1, hc.2.2.2.1, hc.2.2.2.2.1, hc.2.2.2.2.2.1⟩

theorem paintLoop_w (bc fc : paletteColor_t) (y : Int) (n : Nat) :
    ∀ (x : Int) (s : fill_t), (paintLoop bc fc y n x s).disp.w = s.disp.w := by
  induction n with
  | zero => intro x s; rfl
  | succ n ih => intro x s; rw [paintLoop, ih, paintStep_w]

theorem paintLoop_h (bc fc : paletteColor_t) (y : Int) (n : Nat) :
    ∀ (x : Int) (s : fill_t), (paintLoop bc fc y n x s).disp.h = s.disp.h := by
  induction n with
  | zero => intro x s; rfl
  | succ n ih => intro x s; rw [paintLoop, ih, paintStep_h]

/-- What the paint loop leaves at each position, in terms of the canvas it started from. -/
theorem paintLoop_px (bc fc : paletteColor_t) (y : Int) (n : Nat) :
    ∀ (x : Int) (s : fill_t) (a b : Int),
      (paintLoop bc fc y n x s).disp.px a b =
        if b = y ∧ x ≤ a ∧ a < x + n ∧ 0 ≤ a ∧ a < s.disp.w ∧ 0 ≤ y ∧ y < s.disp.h ∧
            s.disp.px a y ≠ bc ∧
            (flagsAt s.disp bc y (a - x).toNat x (s.isInside, s.insideHysteresis)).1 = true
        then fc else s.disp.px a b := by
  induction n with
  | zero =>
    intro x s a b
    rw [paintLoop, if_neg]
    intro hc
    have h1 := hc.2.1
    have h2 := hc.2.2.1
    simp at h2
    omega
  | succ n ih =>
    intro x s a b
    rw [paintLoop, ih, paintStep_w, paintStep_h, paintStep_flags]
    by_cases hax : a = x
    · subst hax
      have hneg : ¬ (b = y ∧ a + 1 ≤ a ∧ a < a + 1 + (n : Int) ∧ 0 ≤ a ∧ a < s.disp.w ∧ 0 ≤ y ∧
          y < s.disp.h ∧ (paintStep bc fc y a s).disp.px a y ≠ bc ∧
          (flagsAt (paintStep bc fc y a s).disp bc y (a - (a + 1)).toNat (a + 1)
            (flagsStep (decide (bc = s.disp.px a y)) (s.isInside, s.insideHysteresis))).1 = true) :=
        fun hc => by have := hc.2.1; omega
      rw [if_neg hneg, paintStep_px]
      have h0 : (a - a).toNat = 0 := by simp
      rw [h0, flagsAt]
      apply if_congr _ rfl rfl
      constructor
      · rintro ⟨_, hb, h1, h2, h3, h4, h5, h6⟩
        exact ⟨hb, le_refl _, by push_cast; omega, h1, h2, h3, h4, h5, h6⟩
      · rintro ⟨hb, _, _, h1, h2, h3, h4, h5, h6⟩
        exact ⟨rfl, hb, h1, h2, h3, h4, h5, h6⟩
    · have hpx : ∀ c, (paintStep bc fc y x s).disp.px a c = s.disp.px a c := by
        intro c
        rw [paintStep_px, if_neg]
        intro hc
        exact hax hc.1
      rw [hpx, hpx]
      apply if_congr _ rfl rfl
      by_cases hlt : a < x
      · constructor
        · intro hc; have := hc.2.1; omega
        · intro hc; have := hc.2.1; omega
      · have hgt : x < a := by omega
        have hn : (a - x).toNat = (a - (x + 1)).toNat + 1 := by omega
        have hfl : flagsAt (paintStep bc fc y x s).disp bc y (a - (x + 1)).toNat (x + 1)
              (flagsStep (decide (bc = s.disp.px x y)) (s.isInside, s.insideHysteresis)) =
            flagsAt s.disp bc y (a - x).toNat x (s.isInside, s.insideHysteresis) := by
          rw [hn, flagsAt]
          apply flagsAt_congr
          intro p hp1 _
          rw [paintStep_px, if_neg]
          intro hc
          have := hc.1
          omega
        rw [hfl]
        constructor
        · rintro ⟨hb, h1, h2, h3⟩
          exact ⟨hb, by omega, by push_cast; omega, h3⟩
        · rintro ⟨hb, h1, h2, h3⟩
          exact ⟨hb, by omega, by push_cast at h2; omega, h3⟩

theorem paintedPx_congr (d1 d2 : display_t) (bc : paletteColor_t) (x0 x1 a b : Int)
    (hw : d1.w = d2.w) (hh : d1.h = d2.h) (hrow : ∀ p, d1.px p b = d2.px p b) :
    paintedPx d1 bc x0 x1 a b ↔ paintedPx d2 bc x0 x1 a b := by
  unfold paintedPx
  rw [hw, hh, hrow a, flagsAt_congr d1 d2 bc b _ x0 _ (fun p _ _ => hrow p),
    flagsAt_congr d1 d2 bc b _ x0 _ (fun p _ _ => hrow p)]

theorem rowBody_w (bc fc : paletteColor_t) (x0 x1 y : Int) (s : fill_t) :
    (rowBody bc fc x0 x1 y s).disp.w = s.disp.w := by
  unfold rowBody
  dsimp only
  split_ifs
  · rw [paintLoop_w]; dsimp only; rw [countLoop_disp]
  · rw [countLoop_disp]

theorem rowBody_h (bc fc : paletteColor_t) (x0 x1 y : Int) (s : fill_t) :
    (rowBody bc fc x0 x1 y s).disp.h = s.disp.h := by
  unfold rowBody
  dsimp only
  split_ifs
  · rw [paintLoop_h]; dsimp only; rw [countLoop_disp]
  · rw [countLoop_disp]

theorem rowBody_px (bc fc : paletteColor_t) (x0 x1 y : Int) (s : fill_t) (a b : Int) :
    (rowBody bc fc x0 x1 y s).disp.px a b =
      if b = y ∧ paintedPx s.disp bc x0 x1 a b then fc else s.disp.px a b := by
  have hev := countLoop_even_iff bc y (x1 - x0).toNat x0
    { s with isInside := false, insideHysteresis := false, transitionCount := 0 } rfl rfl rfl
  dsimp only at hev
  unfold rowBody
  dsimp only
  split_ifs with h1 h2 h2
  · rw [paintLoop_px] at *
    dsimp only at *
    rw [countLoop_disp] at *
    dsimp only at *
    rw [if_pos]
    obtain ⟨rfl, hp⟩ := h2
    unfold paintedPx at hp
    obtain ⟨p1, p2, p3, p4, p5, p6, p7, p8, p9⟩ := hp
    exact ⟨rfl, p1, by omega, p3, p4, p5, p6, p8, p9⟩
  · rw [paintLoop_px]
    dsimp only
    rw [countLoop_disp]
    dsimp only
    rw [if_neg]
    rintro ⟨rfl, p1, p2, p3, p4, p5, p6, p8, p9⟩
    exact h2 ⟨rfl, p1, by omega, p3, p4, p5, p6, hev.1 h1, p8, p9⟩
  · exfalso
    obtain ⟨rfl, hp⟩ := h2
    exact h1 (hev.2 hp.2.2.2.2.2.2.1)
  · rw [countLoop_disp]

theorem rowLoop_w (bc fc : paletteColor_t) (x0 x1 : Int) (n : Nat) :
    ∀ (y : Int) (s : fill_t), (rowLoop bc fc x0 x1 n y s).disp.w = s.disp.w := by
  induction n with
  | zero => intro y s; rfl
  | succ n ih => intro y s; rw [rowLoop, ih, rowBody_w]

theorem rowLoop_h (bc fc : paletteColor_t) (x0 x1 : Int) (n : Nat) :
    ∀ (y : Int) (s : fill_t), (rowLoop bc fc x0 x1 n y s).disp.h = s.disp.h := by
  induction n with
  | zero => intro y s; rfl
  | succ n ih => intro y s; rw [rowLoop, ih, rowBody_h]

theorem rowLoop_px (bc fc : paletteColor_t) (x0 x1 : Int) (n : Nat) :
    ∀ (y : Int) (s : fill_t) (a b : Int),
      (rowLoop bc fc x0 x1 n y s).disp.px a b =
        if y ≤ b ∧ b < y + n ∧ paintedPx s.disp bc x0 x1 a b then fc else s.disp.px a b := by
  induction n with
  | zero =>
    intro y s a b
    rw [rowLoop, if_neg]
    intro hc
    have h1 := hc.1
    have h2 := hc.2.1
    simp at h2
    omega
  | succ n ih =>
    intro y s a b
    rw [rowLoop, ih]
    by_cases hby : b = y
    · subst hby
      rw [if_neg (fun hc => by have := hc.1; omega), rowBody_px]
      apply if_congr _ rfl rfl
      constructor
      · rintro ⟨_, hp⟩
        exact ⟨le_refl _, by push_cast; omega, hp⟩
      · rintro ⟨_, _, hp⟩
        exact ⟨rfl, hp⟩
    · have hrow : ∀ p, (rowBody bc fc x0 x1 y s).disp.px p b = s.disp.px p b := by
        intro p
        rw [rowBody_px, if_neg (fun hc => hby hc.1)]
      rw [hrow a]
      apply if_congr _ rfl rfl
      rw [paintedPx_congr _ s.disp bc x0 x1 a b (rowBody_w ..) (rowBody_h ..) hrow]
      constructor
      · rintro ⟨h1, h2, hp⟩
        exact ⟨by omega, by push_cast; omega, hp⟩
      · rintro ⟨h1, h2, hp⟩
        exact ⟨by omega, by push_cast at h2; omega, hp⟩

/-- The pixel law of `oddEvenFillFix`: a position ends with `fillColor` when it
lies in a row of the clamped rectangle and is painted there, and keeps its
colour otherwise. -/
theorem oddEvenFillFix_px (disp : display_t) (x0 y0 x1 y1 : Int) (bc fc : paletteColor_t)
    (a b : Int) :
    (oddEvenFillFix disp x0 y0 x1 y1 bc fc).px a b =
      if clampLo y0 ≤ b ∧ b < clampHi y1 disp.h ∧
          paintedPx disp bc (clampLo x0) (clampHi x1 disp.w) a b then fc
      else disp.px a b := by
  unfold oddEvenFillFix oddEvenFillFixRun
  dsimp only
  rw [rowLoop_px]
  dsimp only
  apply if_congr _ rfl rfl
  constructor
  · rintro ⟨h1, h2, hp⟩
    exact ⟨h1, by omega, hp⟩
  · rintro ⟨h1, h2, hp⟩
    exact ⟨h1, by omega, hp⟩

theorem oddEvenFillFix_w (disp : display_t) (x0 y0 x1 y1 : Int) (bc fc : paletteColor_t) :
    (oddEvenFillFix disp x0 y0 x1 y1 bc fc).w = disp.w := by
  unfold oddEvenFillFix oddEvenFillFixRun
  dsimp only
  rw [rowLoop_w]

theorem oddEvenFillFix_h (disp : display_t) (x0 y0 x1 y1 : Int) (bc fc : paletteColor_t) :
    (oddEvenFillFix disp x0 y0 x1 y1 bc fc).h = disp.h := by
  unfold oddEvenFillFix oddEvenFillFixRun
  dsimp only
  rw [rowLoop_h]

/-! ### The scanline fill: parity rule, idempotence, frame and clamping -/

theorem flagsAt_congr_mask (d1 d2 : display_t) (bc : paletteColor_t) (y : Int) (n : Nat) :
    ∀ (x : Int) (f : Bool × Bool),
      (∀ p, x ≤ p → p < x + n → (d1.px p y = bc ↔ d2.px p y = bc)) →
      flagsAt d1 bc y n x f = flagsAt d2 bc y n x f := by
  induction n with
  | zero => intro x f _; rfl
  | succ n ih =>
    intro x f h
    have h0 := h x (le_refl x) (by push_cast; omega)
    have hd : decide (bc = d1.px x y) = decide (bc = d2.px x y) := by
      rw [decide_eq_decide]
      exact ⟨fun e => (h0.1 e.symm).symm, fun e => (h0.2 e.symm).symm⟩
    rw [flagsAt, flagsAt, hd]
    exact ih (x + 1) _ (fun p hp1 hp2 => h p (by omega) (by push_cast; omega))

theorem paintedPx_congr_mask (d1 d2 : display_t) (bc : paletteColor_t) (x0 x1 a b : Int)
    (hw : d1.w = d2.w) (hh : d1.h = d2.h)
    (hrow : ∀ p, d1.px p b = bc ↔ d2.px p b = bc) :
    paintedPx d1 bc x0 x1 a b ↔ paintedPx d2 bc x0 x1 a b := by
  unfold paintedPx
  rw [hw, hh, flagsAt_congr_mask d1 d2 bc b _ x0 _ (fun p _ _ => hrow p),
    flagsAt_congr_mask d1 d2 bc b _ x0 _ (fun p _ _ => hrow p)]
  have hna : d1.px a b ≠ bc ↔ d2.px a b ≠ bc := not_congr (hrow a)
  rw [hna]

theorem rowTransitionCount_even_iff (disp : display_t) (x0 x1 y : Int) (bc : paletteColor_t) :
    rowTransitionCount disp x0 x1 y bc % 2 = 0 ↔
      (flagsAt disp bc y (clampHi x1 disp.w - clampLo x0).toNat (clampLo x0) (false, false)).1
        = false :=
  countLoop_even_iff bc y _ _ _ rfl rfl rfl

/-- C2 (as stated) fails: a row with two transitions, an even count, is painted. -/
theorem oddEvenFillFix_even_row_painted :
    rowTransitionCount (canvasOf 3 1 [[1, 0, 1]]) 0 3 0 1 % 2 = 0 ∧
      (oddEvenFillFix (canvasOf 3 1 [[1, 0, 1]]) 0 0 3 1 1 2).px 1 0 ≠
        (canvasOf 3 1 [[1, 0, 1]]).px 1 0 := by
  decide

/-- C2 (amended). A pixel changes only in a row of the clamped rectangle whose
transition count is even; a row whose transition count is odd is left as it was. -/
theorem oddEvenFillFix_changes_only_even_rows (disp : display_t) (x0 y0 x1 y1 : Int)
    (bc fc : paletteColor_t) (a b : Int)
    (h : (oddEvenFillFix disp x0 y0 x1 y1 bc fc).px a b ≠ disp.px a b) :
    (clampLo y0 ≤ b ∧ b < clampHi y1 disp.h) ∧ rowTransitionCount disp x0 x1 b bc % 2 = 0 := by
  rw [oddEvenFillFix_px] at h
  split_ifs at h with hc
  · exact ⟨⟨hc.1, hc.2.1⟩, (rowTransitionCount_even_iff ..).2 hc.2.2.2.2.2.2.2.2.1⟩
  · exact absurd rfl h

theorem oddEvenFillFix_changes_only_even_rows_witness :
    (oddEvenFillFix (canvasOf 3 1 [[1, 0, 1]]) 0 0 3 1 1 2).px 1 0 ≠
        (canvasOf 3 1 [[1, 0, 1]]).px 1 0 ∧
      ((clampLo 0 ≤ (0 : Int) ∧ (0 : Int) < clampHi 1 (canvasOf 3 1 [[1, 0, 1]]).h) ∧
        rowTransitionCount (canvasOf 3 1 [[1, 0, 1]]) 0 3 0 1 % 2 = 0) :=
  ⟨by decide, oddEvenFillFix_changes_only_even_rows (canvasOf 3 1 [[1, 0, 1]]) 0 0 3 1 1 2 1 0
    (by decide)⟩

theorem display_ext (d1 d2 : display_t) (hw : d1.w = d2.w) (hh : d1.h = d2.h)
    (hpx : ∀ a b, d1.px a b = d2.px a b) : d1 = d2 := by
  cases d1; cases d2
  simp only [display_t.mk.injEq]
  exact ⟨hw, hh, funext fun a => funext fun b => hpx a b⟩

/-- C4 (as stated) fails when the fill colour is the boundary colour: the first
call turns four runs into two, and the second call then fills the gap. -/
theorem oddEvenFillFix_not_idempotent :
    oddEvenFillFix (oddEvenFillFix (canvasOf 8 1 [[1, 0, 1, 0, 0, 1, 0, 1]]) 0 0 8 1 1 1)
        0 0 8 1 1 1 ≠
      oddEvenFillFix (canvasOf 8 1 [[1, 0, 1, 0, 0, 1, 0, 1]]) 0 0 8 1 1 1 := by
  intro h
  have h3 := congrArg (fun d => d.px 3 0) h
  revert h3
  decide

/-- C4 (amended). With a fill colour different from the boundary colour, filling
twice with the same arguments gives the same canvas as filling once. -/
theorem oddEvenFillFix_idempotent (disp : display_t) (x0 y0 x1 y1 : Int)
    (bc fc : paletteColor_t) (hne : fc ≠ bc) :
    oddEvenFillFix (oddEvenFillFix disp x0 y0 x1 y1 bc fc) x0 y0 x1 y1 bc fc =
      oddEvenFillFix disp x0 y0 x1 y1 bc fc := by
  have hmask : ∀ p q, (oddEvenFillFix disp x0 y0 x1 y1 bc fc).px p q = bc ↔ disp.px p q = bc := by
    intro p q
    rw [oddEvenFillFix_px]
    split_ifs with hc
    · exact ⟨fun e => absurd e hne, fun e => absurd e hc.2.2.2.2.2.2.2.2.2.1⟩
    · exact Iff.rfl
  apply display_ext
  · rw [oddEvenFillFix_w]
  · rw [oddEvenFillFix_h]
  · intro a b
    rw [oddEvenFillFix_px, oddEvenFillFix_w, oddEvenFillFix_h]
    have hp := paintedPx_congr_mask (oddEvenFillFix disp x0 y0 x1 y1 bc fc) disp bc
      (clampLo x0) (clampHi x1 disp.w) a b (oddEvenFillFix_w ..) (oddEvenFillFix_h ..)
      (fun p => hmask p b)
    by_cases hc : clampLo y0 ≤ b ∧ b < clampHi y1 disp.h ∧
        paintedPx disp bc (clampLo x0) (clampHi x1 disp.w) a b
    · rw [if_pos ⟨hc.1, hc.2.1, hp.2 hc.2.2⟩, oddEvenFillFix_px, if_pos hc]
    · rw [if_neg (fun h => hc ⟨h.1, h.2.1, hp.1 h.2.2⟩)]

theorem oddEvenFillFix_idempotent_witness :
    (2 : paletteColor_t) ≠ 1 ∧
      oddEvenFillFix (oddEvenFillFix (canvasOf 8 1 [[1, 0, 1, 0, 0, 1, 0, 1]]) 0 0 8 1 1 2)
          0 0 8 1 1 2 =
        oddEvenFillFix (canvasOf 8 1 [[1, 0, 1, 0, 0, 1, 0, 1]]) 0 0 8 1 1 2 :=
  ⟨by decide, oddEvenFillFix_idempotent (canvasOf 8 1 [[1, 0, 1, 0, 0, 1, 0, 1]]) 0 0 8 1 1 2
    (by decide)⟩

/-- C5. A pixel that has the boundary colour before the call still has it
afterwards, and a pixel whose colour the call changes ends with the fill colour. -/
theorem oddEvenFillFix_boundary_kept_changes_fill (disp : display_t) (x0 y0 x1 y1 : Int)
    (bc fc : paletteColor_t) (a b : Int) :
    (disp.px a b = bc → (oddEvenFillFix disp x0 y0 x1 y1 bc fc).px a b = bc) ∧
      ((oddEvenFillFix disp x0 y0 x1 y1 bc fc).px a b ≠ disp.px a b →
        (oddEvenFillFix disp x0 y0 x1 y1 bc fc).px a b = fc) := by
  rw [oddEvenFillFix_px]
  split_ifs with hc
  · exact ⟨fun e => absurd e hc.2.2.2.2.2.2.2.2.2.1, fun _ => rfl⟩
  · exact ⟨fun e => e, fun e => absurd rfl e⟩

theorem oddEvenFillFix_boundary_kept_changes_fill_witness :
    ((canvasOf 3 1 [[1, 0, 1]]).px 0 0 = 1 ∧
        (oddEvenFillFix (canvasOf 3 1 [[1, 0, 1]]) 0 0 3 1 1 2).px 0 0 = 1) ∧
      ((oddEvenFillFix (canvasOf 3 1 [[1, 0, 1]]) 0 0 3 1 1 2).px 1 0 ≠
          (canvasOf 3 1 [[1, 0, 1]]).px 1 0 ∧
        (oddEvenFillFix (canvasOf 3 1 [[1, 0, 1]]) 0 0 3 1 1 2).px 1 0 = 2) :=
  ⟨⟨by decide,
      (oddEvenFillFix_boundary_kept_changes_fill (canvasOf 3 1 [[1, 0, 1]]) 0 0 3 1 1 2 0 0).1
        (by decide)⟩,
    ⟨by decide,
      (oddEvenFillFix_boundary_kept_changes_fill (canvasOf 3 1 [[1, 0, 1]]) 0 0 3 1 1 2 1 0).2
        (by decide)⟩⟩

theorem countStep_accessed (bc : paletteColor_t) (y x : Int) (s : fill_t) :
    (countStep bc y x s).accessed = (x, y) :: s.accessed := by
  unfold countStep
  dsimp only
  split_ifs <;> rfl

theorem countLoop_accessed (bc : paletteColor_t) (y : Int) (n : Nat) :
    ∀ (x : Int) (s : fill_t) (p : Int × Int), p ∈ (countLoop bc y n x s).accessed →
      p ∈ s.accessed ∨ (p.2 = y ∧ x ≤ p.1 ∧ p.1 < x + n) := by
  induction n with
  | zero => intro x s p hp; exact Or.inl hp
  | succ n ih =>
    intro x s p hp
    rw [countLoop] at hp
    rcases ih _ _ p hp with h | ⟨h1, h2, h3⟩
    · rw [countStep_accessed, List.mem_cons] at h
      rcases h with rfl | h
      · exact Or.inr ⟨rfl, le_refl _, by push_cast; omega⟩
      · exact Or.inl h
    · exact Or.inr ⟨h1, by omega, by push_cast; omega⟩

theorem paintStep_accessed (bc fc : paletteColor_t) (y x : Int) (s : fill_t) (p : Int × Int)
    (hp : p ∈ (paintStep bc fc y x s).accessed) : p ∈ s.accessed ∨ p = (x, y) := by
  unfold paintStep at hp
  dsimp only at hp
  split_ifs at hp <;> simp only [List.mem_cons] at hp <;> tauto

theorem paintLoop_accessed (bc fc : paletteColor_t) (y : Int) (n : Nat) :
    ∀ (x : Int) (s : fill_t) (p : Int × Int), p ∈ (paintLoop bc fc y n x s).accessed →
      p ∈ s.accessed ∨ (p.2 = y ∧ x ≤ p.1 ∧ p.1 < x + n) := by
  induction n with
  | zero => intro x s p hp; exact Or.inl hp
  | succ n ih =>
    intro x s p hp
    rw [paintLoop] at hp
    rcases ih _ _ p hp with h | ⟨h1, h2, h3⟩
    · rcases paintStep_accessed bc fc y x s p h with h | rfl
      · exact Or.inl h
      · exact Or.inr ⟨rfl, le_refl _, by push_cast; omega⟩
    · exact Or.inr ⟨h1, by omega, by push_cast; omega⟩

theorem rowBody_accessed (bc fc : paletteColor_t) (x0 x1 y : Int) (s : fill_t) (p : Int × Int)
    (hp : p ∈ (rowBody bc fc x0 x1 y s).accessed) :
    p ∈ s.accessed ∨ (p.2 = y ∧ x0 ≤ p.1 ∧ p.1 < x1) := by
  unfold rowBody at hp
  dsimp only at hp
  have hcount := countLoop_accessed bc y (x1 - x0).toNat x0
    { s with isInside := false, insideHysteresis := false, transitionCount := 0 } p
  dsimp only at hcount
  split_ifs at hp
  · rcases paintLoop_accessed bc fc y _ _ _ p hp with h | ⟨h1, h2, h3⟩
    · rcases hcount h with h | ⟨h1, h2, h3⟩
      · exact Or.inl h
      · exact Or.inr ⟨h1, h2, by omega⟩
    · exact Or.inr ⟨h1, h2, by omega⟩
  · rcases hcount hp with h | ⟨h1, h2, h3⟩
    · exact Or.inl h
    · exact Or.inr ⟨h1, h2, by omega⟩

theorem rowLoop_accessed (bc fc : paletteColor_t) (x0 x1 : Int) (n : Nat) :
    ∀ (y : Int) (s : fill_t) (p : Int × Int), p ∈ (rowLoop bc fc x0 x1 n y s).accessed →
      p ∈ s.accessed ∨ ((y ≤ p.2 ∧ p.2 < y + n) ∧ x0 ≤ p.1 ∧ p.1 < x1) := by
  induction n with
  | zero => intro y s p hp; exact Or.inl hp
  | succ n ih =>
    intro y s p hp
    rw [rowLoop] at hp
    rcases ih _ _ p hp with h | ⟨⟨h1, h2⟩, h3⟩
    · rcases rowBody_accessed bc fc x0 x1 y s p h with h | ⟨h1, h2⟩
      · exact Or.inl h
      · exact Or.inr ⟨⟨by omega, by push_cast; omega⟩, h2⟩
    · exact Or.inr ⟨⟨by omega, by push_cast; omega⟩, h3⟩

theorem clampLo_nonneg (v : Int) : 0 ≤ clampLo v := by
  unfold clampLo
  split_ifs <;> omega

theorem clampLo_ge (v : Int) : v ≤ clampLo v := by
  unfold clampLo
  split_ifs <;> omega

theorem clampHi_le (v : Int) (limit : Nat) : clampHi v limit ≤ limit := by
  unfold clampHi
  split_ifs <;> omega

theorem clampHi_le_self (v : Int) (limit : Nat) : clampHi v limit ≤ v := by
  unfold clampHi
  split_ifs <;> omega

/-- Clamping both ends first does not change which on-canvas indices are in range. -/
theorem clamp_range_iff (v0 v1 : Int) (limit : Nat) (b : Int) (h0 : 0 ≤ b) (h1 : b < limit) :
    (clampLo (CLAMP v0 0 limit) ≤ b ∧ b < clampHi (CLAMP v1 0 limit) limit) ↔
      (clampLo v0 ≤ b ∧ b < clampHi v1 limit) := by
  unfold clampLo clampHi CLAMP
  split_ifs <;> omega

/-- When the clamped range holds an on-canvas index, clamping both ends first
gives the same range. -/
theorem clamp_range_eq (v0 v1 : Int) (limit : Nat) (a : Int) (h0 : 0 ≤ a) (h1 : a < limit)
    (h : (clampLo (CLAMP v0 0 limit) ≤ a ∧ a < clampHi (CLAMP v1 0 limit) limit) ∨
      (clampLo v0 ≤ a ∧ a < clampHi v1 limit)) :
    clampLo (CLAMP v0 0 limit) = clampLo v0 ∧
      clampHi (CLAMP v1 0 limit) limit = clampHi v1 limit := by
  unfold clampLo clampHi CLAMP at *
  split_ifs at * <;> omega

/-- C6. A call with any rectangle gives the same canvas as the call with the
rectangle clamped to `[0, w] x [0, h]`, changes no pixel outside
`[x0, x1) x [y0, y1)`, and hands only positions on the canvas to `GET_PIXEL`
and `TURBO_SET_PIXEL_BOUNDS`. -/
theorem oddEvenFillFix_clamped (disp : display_t) (x0 y0 x1 y1 : Int)
    (bc fc : paletteColor_t) :
    oddEvenFillFix disp x0 y0 x1 y1 bc fc =
        oddEvenFillFix disp (CLAMP x0 0 disp.w) (CLAMP y0 0 disp.h)
          (CLAMP x1 0 disp.w) (CLAMP y1 0 disp.h) bc fc ∧
      (∀ a b : Int, ¬ (x0 ≤ a ∧ a < x1 ∧ y0 ≤ b ∧ b < y1) →
        (oddEvenFillFix disp x0 y0 x1 y1 bc fc).px a b = disp.px a b) ∧
      (∀ p ∈ (oddEvenFillFixRun disp x0 y0 x1 y1 bc fc).accessed,
        0 ≤ p.1 ∧ p.1 < disp.w ∧ 0 ≤ p.2 ∧ p.2 < disp.h) := by
  have ex0 := clampLo_ge x0
  have ex1 := clampHi_le_self x1 disp.w
  have ey0 := clampLo_ge y0
  have ey1 := clampHi_le_self y1 disp.h
  refine ⟨?_, ?_, ?_⟩
  · apply display_ext
    · rw [oddEvenFillFix_w, oddEvenFillFix_w]
    · rw [oddEvenFillFix_h, oddEvenFillFix_h]
    · intro a b
      rw [oddEvenFillFix_px, oddEvenFillFix_px]
      by_cases hx : clampLo (CLAMP x0 0 disp.w) = clampLo x0 ∧
          clampHi (CLAMP x1 0 disp.w) disp.w = clampHi x1 disp.w
      · rw [hx.1, hx.2]
        apply if_congr _ rfl rfl
        constructor
        · rintro ⟨h1, h2, hp⟩
          have hr := (clamp_range_iff y0 y1 disp.h b hp.2.2.2.2.1 hp.2.2.2.2.2.1).2 ⟨h1, h2⟩
          exact ⟨hr.1, hr.2, hp⟩
        · rintro ⟨h1, h2, hp⟩
          have hr := (clamp_range_iff y0 y1 disp.h b hp.2.2.2.2.1 hp.2.2.2.2.2.1).1 ⟨h1, h2⟩
          exact ⟨hr.1, hr.2, hp⟩
      · rw [if_neg, if_neg]
        · rintro ⟨_, _, hp⟩
          obtain ⟨p1, p2, p3, p4, _⟩ := hp
          exact hx (clamp_range_eq x0 x1 disp.w a p3 p4 (Or.inl ⟨p1, p2⟩))
        · rintro ⟨_, _, hp⟩
          obtain ⟨p1, p2, p3, p4, _⟩ := hp
          exact hx (clamp_range_eq x0 x1 disp.w a p3 p4 (Or.inr ⟨p1, p2⟩))
  · intro a b hout
    rw [oddEvenFillFix_px, if_neg]
    rintro ⟨h1, h2, hp⟩
    obtain ⟨p1, p2, _⟩ := hp
    exact hout ⟨by omega, by omega, by omega, by omega⟩
  · intro p hp
    have fx0 := clampLo_nonneg x0
    have fx1 := clampHi_le x1 disp.w
    have fy0 := clampLo_nonneg y0
    have fy1 := clampHi_le y1 disp.h
    unfold oddEvenFillFixRun at hp
    dsimp only at hp
    rcases rowLoop_accessed _ _ _ _ _ _ _ p hp with h | ⟨⟨h1, h2⟩, h3, h4⟩
    · simp at h
    · exact ⟨by omega, by omega, by omega, by omega⟩

theorem oddEvenFillFix_clamped_witness :
    ¬ ((-5 : Int) ≤ 100 ∧ (100 : Int) < 80 ∧ (-5 : Int) ≤ 0 ∧ (0 : Int) < 10) ∧
      (oddEvenFillFix (canvasOf 3 1 [[1, 0, 1]]) (-5) (-5) 80 10 1 2).px 100 0 =
        (canvasOf 3 1 [[1, 0, 1]]).px 100 0 ∧
      ((1, 0) ∈ (oddEvenFillFixRun (canvasOf 3 1 [[1, 0, 1]]) (-5) (-5) 80 10 1 2).accessed) ∧
      ((0 : Int) ≤ 1 ∧ (1 : Int) < (canvasOf 3 1 [[1, 0, 1]]).w ∧
        (0 : Int) ≤ 0 ∧ (0 : Int) < (canvasOf 3 1 [[1, 0, 1]]).h) :=
  ⟨by decide,
    (oddEvenFillFix_clamped (canvasOf 3 1 [[1, 0, 1]]) (-5) (-5) 80 10 1 2).2.1 100 0 (by decide),
    by decide,
    (oddEvenFillFix_clamped (canvasOf 3 1 [[1, 0, 1]]) (-5) (-5) 80 10 1 2).2.2 (1, 0)
      (by decide)⟩

/-! ### The scanline fill: rows given by their runs -/

theorem flagsAt_split (d : display_t) (bc : paletteColor_t) (y u v p : Int) (f : Bool × Bool)
    (huv : u ≤ v) (hvp : v ≤ p) :
    flagsAt d bc y (p - u).toNat u f =
      flagsAt d bc y (p - v).toNat v (flagsAt d bc y (v - u).toNat u f) := by
  have hn : (p - u).toNat = (v - u).toNat + (p - v).toNat := by omega
  have hv : u + ((v - u).toNat : Int) = v := by omega
  rw [hn, flagsAt_add, hv]

theorem flagsAt_clear (d : display_t) (bc : paletteColor_t) (y : Int) (n : Nat) :
    ∀ (x : Int) (i h : Bool), (∀ q, x ≤ q → q < x + n → d.px q y ≠ bc) →
      flagsAt d bc y n x (i, h) = (i, if n = 0 then h else false) := by
  induction n with
  | zero => intro x i h _; rfl
  | succ n ih =>
    intro x i h hq
    have h0 : ¬ bc = d.px x y := fun e => hq x (le_refl x) (by push_cast; omega) e.symm
    rw [flagsAt, flagsStep, decide_eq_false h0]
    simp only [Bool.false_eq_true, if_false]
    rw [ih (x + 1) i false (fun q h1 h2 => hq q (by omega) (by push_cast; omega))]
    simp

theorem flagsAt_boundary (d : display_t) (bc : paletteColor_t) (y : Int) (n : Nat) :
    ∀ (x : Int) (i h : Bool), (∀ q, x ≤ q → q < x + n + 1 → d.px q y = bc) →
      flagsAt d bc y (n + 1) x (i, h) = (if h then i else !i, true) := by
  induction n with
  | zero =>
    intro x i h hq
    have h0 : bc = d.px x y := (hq x (le_refl x) (by omega)).symm
    rw [flagsAt, flagsStep, decide_eq_true h0, flagsAt]
    cases h <;> simp
  | succ n ih =>
    intro x i h hq
    have h0 : bc = d.px x y := (hq x (le_refl x) (by omega)).symm
    rw [flagsAt, flagsStep, decide_eq_true h0]
    simp only [if_true]
    cases h
    · simp only [Bool.not_false, if_true]
      rw [ih (x + 1) (!i) true (fun q h1 h2 => hq q (by omega) (by push_cast; omega))]
      simp
    · simp only [Bool.not_true, Bool.false_eq_true, if_false]
      rw [ih (x + 1) i true (fun q h1 h2 => hq q (by omega) (by push_cast; omega))]
      simp

/-- A stretch `[u, v)` without boundary pixels keeps `isInside` and clears the hysteresis. -/
theorem flagsAt_clear_seg (d : display_t) (bc : paletteColor_t) (y u v : Int) (i : Bool)
    (huv : u ≤ v) (hq : ∀ q, u ≤ q → q < v → d.px q y ≠ bc) :
    flagsAt d bc y (v - u).toNat u (i, false) = (i, false) := by
  rw [flagsAt_clear d bc y _ u i false (fun q h1 h2 => hq q h1 (by omega))]
  simp

/-- A non-empty stretch `[u, v)` of boundary pixels entered with the hysteresis
clear flips `isInside` once. -/
theorem flagsAt_boundary_seg (d : display_t) (bc : paletteColor_t) (y u v : Int) (i : Bool)
    (huv : u < v) (hq : ∀ q, u ≤ q → q < v → d.px q y = bc) :
    flagsAt d bc y (v - u).toNat u (i, false) = (!i, true) := by
  have hn : (v - u).toNat = (v - u - 1).toNat + 1 := by omega
  rw [hn, flagsAt_boundary d bc y _ u i false (fun q h1 h2 => hq q h1 (by omega))]
  simp

theorem startsBefore_nil (p : Int) : startsBefore p [] = 0 := rfl

theorem startsBefore_cons (p : Int) (r : Int × Int) (rest : List (Int × Int)) :
    startsBefore p (r :: rest) = (if r.1 < p then 1 else 0) + startsBefore p rest := by
  unfold startsBefore
  rw [List.filter_cons]
  split_ifs with h1 h2 h2
  · simp; omega
  · simp at h1; omega
  · simp at h1; omega
  · simp

theorem startsBefore_of_le (hi : Int) (runs : List (Int × Int)) :
    ∀ (lo p : Int), runsChain hi lo runs → p ≤ lo → startsBefore p runs = 0 := by
  induction runs with
  | nil => intro lo p _ _; rfl
  | cons r rest ih =>
    intro lo p hc hp
    obtain ⟨h1, h2, h3, h4⟩ := hc
    rw [startsBefore_cons, ih (r.2 + 2) p h4 (by omega), if_neg (by omega)]

theorem startsBefore_of_ge (hi : Int) (runs : List (Int × Int)) :
    ∀ (lo : Int), runsChain hi lo runs → startsBefore hi runs = runs.length := by
  induction runs with
  | nil => intro lo _; rfl
  | cons r rest ih =>
    intro lo hc
    obtain ⟨h1, h2, h3, h4⟩ := hc
    rw [startsBefore_cons, ih (r.2 + 2) h4, if_pos (by omega), List.length_cons]
    omega

theorem not_inRuns_of_lt (hi : Int) (runs : List (Int × Int)) :
    ∀ (lo p : Int), runsChain hi lo runs → p < lo → ¬ inRuns p runs := by
  induction runs with
  | nil => intro lo p _ _ h; obtain ⟨r, hr, _⟩ := h; simp at hr
  | cons r rest ih =>
    intro lo p hc hp h
    obtain ⟨h1, h2, h3, h4⟩ := hc
    obtain ⟨r', hr', h5, h6⟩ := h
    rcases List.mem_cons.1 hr' with rfl | hmem
    · omega
    · exact ih (r.2 + 2) p h4 (by omega) ⟨r', hmem, h5, h6⟩

/-- Scanning a row whose boundary pixels form the runs `runs`: `isInside` before
position `p` has flipped once for every run that starts before `p`. -/
theorem flagsAt_runs (d : display_t) (bc : paletteColor_t) (y hi : Int)
    (runs : List (Int × Int)) :
    ∀ (lo : Int) (i : Bool), runsChain hi lo runs →
      (∀ p, lo ≤ p → p < hi → (d.px p y = bc ↔ inRuns p runs)) →
      ∀ p, lo ≤ p → p ≤ hi →
        (flagsAt d bc y (p - lo).toNat lo (i, false)).1 =
          (i != decide (startsBefore p runs % 2 = 1)) := by
  induction runs with
  | nil =>
    intro lo i _ hmask p hp1 hp2
    rw [flagsAt_clear_seg d bc y lo p i hp1
      (fun q h1 h2 => fun e => by
        obtain ⟨r, hr, _⟩ := (hmask q h1 (by omega)).1 e
        simp at hr)]
    simp [startsBefore]
  | cons r rest ih =>
    intro lo i hc hmask p hp1 hp2
    obtain ⟨h1, h2, h3, h4⟩ := hc
    have hclear1 : ∀ q, lo ≤ q → q < r.1 → d.px q y ≠ bc := by
      intro q hq1 hq2 e
      obtain ⟨r', hr', h5, h6⟩ := (hmask q hq1 (by omega)).1 e
      rcases List.mem_cons.1 hr' with rfl | hmem
      · omega
      · exact not_inRuns_of_lt hi rest (r.2 + 2) q h4 (by omega) ⟨r', hmem, h5, h6⟩
    have hbnd : ∀ q, r.1 ≤ q → q < r.2 + 1 → d.px q y = bc := by
      intro q hq1 hq2
      exact (hmask q (by omega) (by omega)).2 ⟨r, List.mem_cons_self _ _, hq1, by omega⟩
    rw [startsBefore_cons]
    by_cases hpa : p ≤ r.1
    · rw [flagsAt_clear_seg d bc y lo p i hp1 (fun q q1 q2 => hclear1 q q1 (by omega)),
        startsBefore_of_le hi rest (r.2 + 2) p h4 (by omega), if_neg (by omega)]
      simp
    · by_cases hpb : p ≤ r.2 + 1
      · rw [flagsAt_split d bc y lo r.1 p _ h1 (by omega),
          flagsAt_clear_seg d bc y lo r.1 i h1 hclear1,
          flagsAt_boundary_seg d bc y r.1 p i (by omega) (fun q q1 q2 => hbnd q q1 (by omega)),
          startsBefore_of_le hi rest (r.2 + 2) p h4 (by omega), if_pos (by omega)]
        simp
      · have hgap : d.px (r.2 + 1) y ≠ bc := by
          intro e
          obtain ⟨r', hr', h5, h6⟩ := (hmask (r.2 + 1) (by omega) (by omega)).1 e
          rcases List.mem_cons.1 hr' with rfl | hmem
          · omega
          · exact not_inRuns_of_lt hi rest (r.2 + 2) (r.2 + 1) h4 (by omega) ⟨r', hmem, h5, h6⟩
        have hstep : flagsAt d bc y (r.2 + 2 - (r.2 + 1)).toNat (r.2 + 1) (!i, true) =
            (!i, false) := by
          have h1' : (r.2 + 2 - (r.2 + 1)).toNat = 1 := by omega
          have h0 : ¬ bc = d.px (r.2 + 1) y := fun e => hgap e.symm
          rw [h1', flagsAt, flagsAt, flagsStep, decide_eq_false h0]
          simp
        have hmask' : ∀ q, r.2 + 2 ≤ q → q < hi → (d.px q y = bc ↔ inRuns q rest) := by
          intro q hq1 hq2
          rw [hmask q (by omega) hq2]
          constructor
          · rintro ⟨r', hr', h5, h6⟩
            rcases List.mem_cons.1 hr' with rfl | hmem
            · omega
            · exact ⟨r', hmem, h5, h6⟩
          · rintro ⟨r', hr', h5, h6⟩
            exact ⟨r', List.mem_cons_of_mem _ hr', h5, h6⟩
        rw [flagsAt_split d bc y lo r.1 p _ h1 (by omega),
          flagsAt_clear_seg d bc y lo r.1 i h1 hclear1,
          flagsAt_split d bc y r.1 (r.2 + 1) p _ (by omega) (by omega),
          flagsAt_boundary_seg d bc y r.1 (r.2 + 1) i (by omega) hbnd,
          flagsAt_split d bc y (r.2 + 1) (r.2 + 2) p _ (by omega) (by omega),
          hstep, ih (r.2 + 2) (!i) h4 hmask' p (by omega) hp2, if_pos (by omega)]
        cases i <;> by_cases hs : startsBefore p rest % 2 = 1 <;> simp [hs] <;> omega

/-- The pixel law on a row of the clamped rectangle whose boundary pixels form
the runs `runs`: the row is painted when the number of runs is even, and then
exactly the non-boundary pixels with an odd number of run starts to their left. -/
theorem oddEvenFillFix_px_runs (disp : display_t) (x0 y0 x1 y1 : Int) (bc fc : paletteColor_t)
    (y : Int) (runs : List (Int × Int))
    (hy : clampLo y0 ≤ y ∧ y < clampHi y1 disp.h)
    (hr : rowRuns disp bc y (clampLo x0) (clampHi x1 disp.w) runs) (p : Int) :
    (oddEvenFillFix disp x0 y0 x1 y1 bc fc).px p y =
      if clampLo x0 ≤ p ∧ p < clampHi x1 disp.w ∧ runs.length % 2 = 0 ∧
          disp.px p y ≠ bc ∧ startsBefore p runs % 2 = 1 then fc
      else disp.px p y := by
  have fx0 := clampLo_nonneg x0
  have fx1 := clampHi_le x1 disp.w
  have fy0 := clampLo_nonneg y0
  have fy1 := clampHi_le y1 disp.h
  rw [oddEvenFillFix_px]
  apply if_congr _ rfl rfl
  by_cases hin : clampLo x0 ≤ p ∧ p < clampHi x1 disp.w
  · have hend := flagsAt_runs disp bc y _ runs _ false hr.1 hr.2 (clampHi x1 disp.w)
      (by omega) (le_refl _)
    have hat := flagsAt_runs disp bc y _ runs _ false hr.1 hr.2 p hin.1 (by omega)
    rw [startsBefore_of_ge _ runs _ hr.1] at hend
    unfold paintedPx
    rw [hend, hat]
    simp only [Bool.false_bne, decide_eq_false_iff_not, decide_eq_true_eq]
    constructor
    · rintro ⟨_, _, h1, h2, _, _, _, _, h3, h4, h5⟩
      exact ⟨h1, h2, by omega, h4, h5⟩
    · rintro ⟨h1, h2, h3, h4, h5⟩
      exact ⟨hy.1, hy.2, h1, h2, by omega, by omega, by omega, by omega, by omega, h4, h5⟩
  · constructor
    · rintro ⟨_, _, h1, h2, _⟩
      exact absurd ⟨h1, h2⟩ hin
    · rintro ⟨h1, h2, _⟩
      exact absurd ⟨h1, h2⟩ hin

/-- C3. On a row of the rectangle whose boundary pixels form exactly two runs
`[a1, b1]` and `[a2, b2]`, every pixel strictly between the runs ends with the
fill colour and every pixel outside the span of the runs is unchanged; with
exactly four runs the pixels between runs 1 and 2 and between runs 3 and 4 end
with the fill colour, and the pixels between runs 2 and 3 (and outside the
span) are unchanged. -/
theorem oddEvenFillFix_two_and_four_runs (disp : display_t) (x0 y0 x1 y1 : Int)
    (bc fc : paletteColor_t) (y : Int) (hy : clampLo y0 ≤ y ∧ y < clampHi y1 disp.h) :
    (∀ a1 b1 a2 b2 : Int,
      rowRuns disp bc y (clampLo x0) (clampHi x1 disp.w) [(a1, b1), (a2, b2)] →
        (∀ p, b1 < p → p < a2 → (oddEvenFillFix disp x0 y0 x1 y1 bc fc).px p y = fc) ∧
        (∀ p, p < a1 ∨ b2 < p →
          (oddEvenFillFix disp x0 y0 x1 y1 bc fc).px p y = disp.px p y)) ∧
    (∀ a1 b1 a2 b2 a3 b3 a4 b4 : Int,
      rowRuns disp bc y (clampLo x0) (clampHi x1 disp.w)
          [(a1, b1), (a2, b2), (a3, b3), (a4, b4)] →
        (∀ p, (b1 < p ∧ p < a2) ∨ (b3 < p ∧ p < a4) →
          (oddEvenFillFix disp x0 y0 x1 y1 bc fc).px p y = fc) ∧
        (∀ p, (b2 < p ∧ p < a3) ∨ p < a1 ∨ b4 < p →
          (oddEvenFillFix disp x0 y0 x1 y1 bc fc).px p y = disp.px p y)) := by
  constructor
  · intro a1 b1 a2 b2 hr
    have hlaw := oddEvenFillFix_px_runs disp x0 y0 x1 y1 bc fc y _ hy hr
    obtain ⟨⟨c1, c2, c3, c4, c5, c6, _⟩, hmask⟩ := hr
    simp only at c1 c2 c3 c4 c5 c6
    constructor
    · intro p hp1 hp2
      rw [hlaw, if_pos]
      refine ⟨by omega, by omega, by simp, ?_, ?_⟩
      · intro e
        obtain ⟨r, hr, h5, h6⟩ := (hmask p (by omega) (by omega)).1 e
        simp only [List.mem_cons, List.mem_singleton, List.not_mem_nil, or_false] at hr
        rcases hr with rfl | rfl <;> simp only at h5 h6 <;> omega
      · have e1 : a1 < p := by omega
        have e2 : ¬ a2 < p := by omega
        simp [startsBefore_cons, startsBefore_nil, e1, e2]
    · intro p hp
      rw [hlaw, if_neg]
      rintro ⟨h1, h2, _, _, h3⟩
      rcases hp with hp | hp
      · have e1 : ¬ a1 < p := by omega
        have e2 : ¬ a2 < p := by omega
        simp [startsBefore_cons, startsBefore_nil, e1, e2] at h3
      · have e1 : a1 < p := by omega
        have e2 : a2 < p := by omega
        simp [startsBefore_cons, startsBefore_nil, e1, e2] at h3
  · intro a1 b1 a2 b2 a3 b3 a4 b4 hr
    have hlaw := oddEvenFillFix_px_runs disp x0 y0 x1 y1 bc fc y _ hy hr
    obtain ⟨⟨c1, c2, c3, c4, c5, c6, c7, c8, c9, c10, c11, c12, _⟩, hmask⟩ := hr
    simp only at c1 c2 c3 c4 c5 c6 c7 c8 c9 c10 c11 c12
    constructor
    · intro p hp
      rw [hlaw, if_pos]
      refine ⟨by omega, by omega, by simp, ?_, ?_⟩
      · intro e
        obtain ⟨r, hr, h5, h6⟩ := (hmask p (by omega) (by omega)).1 e
        simp only [List.mem_cons, List.mem_singleton, List.not_mem_nil, or_false] at hr
        rcases hr with rfl | rfl | rfl | rfl <;> simp only at h5 h6 <;> omega
      · rcases hp with hp | hp
        · have e1 : a1 < p := by omega
          have e2 : ¬ a2 < p := by omega
          have e3 : ¬ a3 < p := by omega
          have e4 : ¬ a4 < p := by omega
          simp [startsBefore_cons, startsBefore_nil, e1, e2, e3, e4]
        · have e1 : a1 < p := by omega
          have e2 : a2 < p := by omega
          have e3 : a3 < p := by omega
          have e4 : ¬ a4 < p := by omega
          simp [startsBefore_cons, startsBefore_nil, e1, e2, e3, e4]
    · intro p hp
      rw [hlaw, if_neg]
      rintro ⟨h1, h2, _, _, h3⟩
      rcases hp with hp | hp | hp
      · have e1 : a1 < p := by omega
        have e2 : a2 < p := by omega
        have e3 : ¬ a3 < p := by omega
        have e4 : ¬ a4 < p := by omega
        simp [startsBefore_cons, startsBefore_nil, e1, e2, e3, e4] at h3
      · have e1 : ¬ a1 < p := by omega
        have e2 : ¬ a2 < p := by omega
        have e3 : ¬ a3 < p := by omega
        have e4 : ¬ a4 < p := by omega
        simp [startsBefore_cons, startsBefore_nil, e1, e2, e3, e4] at h3
      · have e1 : a1 < p := by omega
        have e2 : a2 < p := by omega
        have e3 : a3 < p := by omega
        have e4 : a4 < p := by omega
        simp [startsBefore_cons, startsBefore_nil, e1, e2, e3, e4] at h3

theorem exampleRow2_runs :
    rowRuns (canvasOf 5 1 [[1, 0, 0, 1, 0]]) 1 0 (clampLo 0)
      (clampHi 5 (canvasOf 5 1 [[1, 0, 0, 1, 0]]).w) [(0, 0), (3, 3)] := by
  refine ⟨by simp [runsChain, clampLo, clampHi, canvasOf], ?_⟩
  intro p h1 h2
  have h1' : 0 ≤ p := h1
  have h2' : p < 5 := h2
  interval_cases p <;> simp [canvasOf, inRuns]

theorem exampleRow4_runs :
    rowRuns (canvasOf 8 1 [[1, 0, 1, 0, 0, 1, 0, 1]]) 1 0 (clampLo 0)
      (clampHi 8 (canvasOf 8 1 [[1, 0, 1, 0, 0, 1, 0, 1]]).w)
      [(0, 0), (2, 2), (5, 5), (7, 7)] := by
  refine ⟨by simp [runsChain, clampLo, clampHi, canvasOf], ?_⟩
  intro p h1 h2
  have h1' : 0 ≤ p := h1
  have h2' : p < 8 := h2
  interval_cases p <;> simp [canvasOf, inRuns]

theorem oddEvenFillFix_two_and_four_runs_witness :
    ((clampLo 0 ≤ (0 : Int) ∧ (0 : Int) < clampHi 1 (canvasOf 5 1 [[1, 0, 0, 1, 0]]).h) ∧
      rowRuns (canvasOf 5 1 [[1, 0, 0, 1, 0]]) 1 0 (clampLo 0)
        (clampHi 5 (canvasOf 5 1 [[1, 0, 0, 1, 0]]).w) [(0, 0), (3, 3)] ∧
      (oddEvenFillFix (canvasOf 5 1 [[1, 0, 0, 1, 0]]) 0 0 5 1 1 2).px 2 0 = 2 ∧
      (oddEvenFillFix (canvasOf 5 1 [[1, 0, 0, 1, 0]]) 0 0 5 1 1 2).px 4 0 =
        (canvasOf 5 1 [[1, 0, 0, 1, 0]]).px 4 0) ∧
    ((clampLo 0 ≤ (0 : Int) ∧
        (0 : Int) < clampHi 1 (canvasOf 8 1 [[1, 0, 1, 0, 0, 1, 0, 1]]).h) ∧
      rowRuns (canvasOf 8 1 [[1, 0, 1, 0, 0, 1, 0, 1]]) 1 0 (clampLo 0)
        (clampHi 8 (canvasOf 8 1 [[1, 0, 1, 0, 0, 1, 0, 1]]).w)
        [(0, 0), (2, 2), (5, 5), (7, 7)] ∧
      (oddEvenFillFix (canvasOf 8 1 [[1, 0, 1, 0, 0, 1, 0, 1]]) 0 0 8 1 1 2).px 6 0 = 2 ∧
      (oddEvenFillFix (canvasOf 8 1 [[1, 0, 1, 0, 0, 1, 0, 1]]) 0 0 8 1 1 2).px 3 0 =
        (canvasOf 8 1 [[1, 0, 1, 0, 0, 1, 0, 1]]).px 3 0) :=
  ⟨⟨by decide, exampleRow2_runs,
      ((oddEvenFillFix_two_and_four_runs (canvasOf 5 1 [[1, 0, 0, 1, 0]]) 0 0 5 1 1 2 0
        (by decide)).1 0 0 3 3 exampleRow2_runs).1 2 (by decide) (by decide),
      ((oddEvenFillFix_two_and_four_runs (canvasOf 5 1 [[1, 0, 0, 1, 0]]) 0 0 5 1 1 2 0
        (by decide)).1 0 0 3 3 exampleRow2_runs).2 4 (by decide)⟩,
    ⟨by decide, exampleRow4_runs,
      ((oddEvenFillFix_two_and_four_runs (canvasOf 8 1 [[1, 0, 1, 0, 0, 1, 0, 1]]) 0 0 8 1 1 2 0
        (by decide)).2 0 0 2 2 5 5 7 7 exampleRow4_runs).1 6 (by decide),
      ((oddEvenFillFix_two_and_four_runs (canvasOf 8 1 [[1, 0, 1, 0, 0, 1, 0, 1]]) 0 0 8 1 1 2 0
        (by decide)).2 0 0 2 2 5 5 7 7 exampleRow4_runs).2 3 (by decide)⟩⟩

/-! ### The melee menu: selection, viewport and rows -/

theorem u8_of_lt (n : Nat) (h : n < 256) : u8 (n : Int) = n := by
  unfold u8; omega

theorem u8_lt (v : Int) : u8 v < 256 := by
  unfold u8; omega

theorem u8_pred_of_le (n : Nat) (h1 : 1 ≤ n) (h2 : n ≤ 256) : u8 ((n : Int) - 1) = n - 1 := by
  unfold u8; omega

theorem u8_succ_of_lt (n : Nat) (h : n < 255) : u8 ((n : Int) + 1) = n + 1 := by
  unfold u8; omega

theorem captureStartRow_selectedRow (m : meleeMenu_t) :
    (captureStartRow m).selectedRow = m.selectedRow := by
  unfold captureStartRow; split_ifs <;> rfl

theorem captureStartRow_numRows (m : meleeMenu_t) :
    (captureStartRow m).numRows = m.numRows := by
  unfold captureStartRow; split_ifs <;> rfl

theorem captureStartRow_firstRowOnScreen (m : meleeMenu_t) :
    (captureStartRow m).firstRowOnScreen = m.firstRowOnScreen := by
  unfold captureStartRow; split_ifs <;> rfl

theorem meleeMenuButton_numRows (M : Nat) (cb : menuCbEnv) (m : meleeMenu_t)
    (btn : buttonBit_t) (hs : btn ≠ .START) (ha : btn ≠ .BTN_A) :
    (meleeMenuButton M cb m btn).1.numRows = m.numRows := by
  unfold meleeMenuButton
  cases btn <;> first
    | exact absurd rfl hs
    | exact absurd rfl ha
    | (dsimp only <;> split_ifs <;> simp [captureStartRow_numRows])

/-- A confirm button leaves the menu that the callback leaves. -/
theorem meleeMenuButton_confirm_menu (M : Nat) (cb : menuCbEnv) (m : meleeMenu_t)
    (btn : buttonBit_t) (h : btn = .START ∨ btn = .BTN_A) :
    (meleeMenuButton M cb m btn).1 = cb m.cbFunc (m.rows.get? m.selectedRow) m := by
  rcases h with rfl | rfl <;> rfl

theorem meleeMenuButton_UP_selectedRow (M : Nat) (cb : menuCbEnv) (m : meleeMenu_t) :
    (meleeMenuButton M cb m .UP).1.selectedRow =
      if 0 = m.selectedRow then u8 ((m.numRows : Int) - 1)
      else u8 ((m.selectedRow : Int) - 1) := by
  unfold meleeMenuButton
  dsimp only
  split_ifs <;> simp [captureStartRow_selectedRow, *]

theorem meleeMenuButton_DOWN_selectedRow (M : Nat) (cb : menuCbEnv) (m : meleeMenu_t) :
    (meleeMenuButton M cb m .DOWN).1.selectedRow =
      if (m.selectedRow : Int) = (m.numRows : Int) - 1 then 0
      else u8 ((m.selectedRow : Int) + 1) := by
  unfold meleeMenuButton
  dsimp only
  split_ifs <;> simp [captureStartRow_selectedRow, *]

theorem pressTimes_numRows (M : Nat) (cb : menuCbEnv) (btn : buttonBit_t)
    (hs : btn ≠ .START) (ha : btn ≠ .BTN_A) (n : Nat) :
    ∀ m : meleeMenu_t, (pressTimes M cb btn n m).numRows = m.numRows := by
  induction n with
  | zero => intro m; rfl
  | succ n ih => intro m; rw [pressTimes, ih, meleeMenuButton_numRows _ _ _ _ hs ha]

/-- Below the top row, `k` presses of UP move the selection up by `k`. -/
theorem pressTimes_UP_sub (M : Nat) (cb : menuCbEnv) (k : Nat) :
    ∀ m : meleeMenu_t, k ≤ m.selectedRow → m.selectedRow ≤ 256 →
      (pressTimes M cb .UP k m).selectedRow = m.selectedRow - k := by
  induction k with
  | zero => intro m _ _; rfl
  | succ k ih =>
    intro m hk h256
    have hstep : (meleeMenuButton M cb m .UP).1.selectedRow = m.selectedRow - 1 := by
      rw [meleeMenuButton_UP_selectedRow, if_neg (by omega)]
      unfold u8
      omega
    rw [pressTimes, ih _ (by omega) (by omega), hstep]
    omega

/-- Above the bottom row, `k` presses of DOWN move the selection down by `k`. -/
theorem pressTimes_DOWN_add (M : Nat) (cb : menuCbEnv) (k : Nat) :
    ∀ m : meleeMenu_t, m.selectedRow + k + 1 ≤ m.numRows → m.numRows ≤ 256 →
      (pressTimes M cb .DOWN k m).selectedRow = m.selectedRow + k := by
  induction k with
  | zero => intro m _ _; rfl
  | succ k ih =>
    intro m hk h256
    have hstep : (meleeMenuButton M cb m .DOWN).1.selectedRow = m.selectedRow + 1 := by
      rw [meleeMenuButton_DOWN_selectedRow, if_neg (by omega)]
      unfold u8
      omega
    have hnum := meleeMenuButton_numRows M cb m .DOWN (by decide) (by decide)
    rw [pressTimes, ih _ (by rw [hnum, hstep]; omega)
      (by rw [hnum]; exact h256), hstep]
    omega

theorem pressTimes_succ_last (M : Nat) (cb : menuCbEnv) (btn : buttonBit_t) (n : Nat) :
    ∀ m : meleeMenu_t,
      pressTimes M cb btn (n + 1) m = (meleeMenuButton M cb (pressTimes M cb btn n m) btn).1 := by
  induction n with
  | zero => intro m; rfl
  | succ n ih => intro m; rw [pressTimes, ih, pressTimes]

/-- C7. Menu wraparound: in a menu with `N = numRows ≥ 1` rows and row 0
selected, `N` presses of UP bring the selection back to row 0 and so do `N`
presses of DOWN; one UP from row 0 selects row `N - 1`, and one DOWN from row
`N - 1` selects row 0. -/
theorem meleeMenuButton_wraparound (MAX_ROWS_ON_SCREEN : Nat) (cb : menuCbEnv)
    (menu : meleeMenu_t)
    (hN : 1 ≤ menu.numRows) (hmax : menu.numRows ≤ 255) (hsel : menu.selectedRow = 0) :
    (pressTimes MAX_ROWS_ON_SCREEN cb .UP menu.numRows menu).selectedRow = 0 ∧
      (pressTimes MAX_ROWS_ON_SCREEN cb .DOWN menu.numRows menu).selectedRow = 0 ∧
      (meleeMenuButton MAX_ROWS_ON_SCREEN cb menu .UP).1.selectedRow = menu.numRows - 1 ∧
      (meleeMenuButton MAX_ROWS_ON_SCREEN cb
        { menu with selectedRow := menu.numRows - 1 } .DOWN).1.selectedRow = 0 := by
  have hup : (meleeMenuButton MAX_ROWS_ON_SCREEN cb menu .UP).1.selectedRow = menu.numRows - 1 := by
    rw [meleeMenuButton_UP_selectedRow, if_pos hsel.symm]
    unfold u8
    omega
  refine ⟨?_, ?_, hup, ?_⟩
  · obtain ⟨n, hn⟩ : ∃ n, menu.numRows = n + 1 := ⟨menu.numRows - 1, by omega⟩
    rw [hn, pressTimes, pressTimes_UP_sub _ _ n _ (by rw [hup]; omega) (by rw [hup]; omega), hup]
    omega
  · obtain ⟨n, hn⟩ : ∃ n, menu.numRows = n + 1 := ⟨menu.numRows - 1, by omega⟩
    have hlast : (pressTimes MAX_ROWS_ON_SCREEN cb .DOWN n menu).selectedRow = n := by
      rw [pressTimes_DOWN_add _ _ n menu (by omega) (by omega), hsel]
      omega
    conv_lhs => rw [hn]
    rw [pressTimes_succ_last, meleeMenuButton_DOWN_selectedRow, if_pos]
    rw [hlast, pressTimes_numRows _ _ _ (by decide) (by decide), hn]
    push_cast
    omega
  · rw [meleeMenuButton_DOWN_selectedRow, if_pos]
    dsimp only
    omega

theorem meleeMenuButton_wraparound_witness :
    1 ≤ exampleMenu.numRows ∧ exampleMenu.numRows ≤ 255 ∧ exampleMenu.selectedRow = 0 ∧
      (pressTimes 5 exampleCbEnv .UP exampleMenu.numRows exampleMenu).selectedRow = 0 ∧
      (pressTimes 5 exampleCbEnv .DOWN exampleMenu.numRows exampleMenu).selectedRow = 0 ∧
      (meleeMenuButton 5 exampleCbEnv exampleMenu .UP).1.selectedRow = exampleMenu.numRows - 1 ∧
      (meleeMenuButton 5 exampleCbEnv
        { exampleMenu with selectedRow := exampleMenu.numRows - 1 } .DOWN).1.selectedRow = 0 :=
  ⟨by decide, by decide, by decide,
    meleeMenuButton_wraparound 5 exampleCbEnv exampleMenu (by decide) (by decide) (by decide)⟩

theorem meleeMenuButton_UP_firstRowOnScreen (M : Nat) (cb : menuCbEnv) (m : meleeMenu_t) :
    (meleeMenuButton M cb m .UP).1.firstRowOnScreen =
      if (meleeMenuButton M cb m .UP).1.selectedRow < m.firstRowOnScreen then
        u8 ((m.firstRowOnScreen : Int) - 1)
      else if ((meleeMenuButton M cb m .UP).1.selectedRow : Int) >
          (m.firstRowOnScreen : Int) + M - 1 then
        u8 ((m.numRows : Int) - M)
      else m.firstRowOnScreen := by
  rw [meleeMenuButton_UP_selectedRow]
  unfold meleeMenuButton
  dsimp only
  split_ifs <;>
    simp only [captureStartRow_firstRowOnScreen, captureStartRow_numRows]

theorem meleeMenuButton_DOWN_firstRowOnScreen (M : Nat) (cb : menuCbEnv) (m : meleeMenu_t) :
    (meleeMenuButton M cb m .DOWN).1.firstRowOnScreen =
      if ((meleeMenuButton M cb m .DOWN).1.selectedRow : Int) >
          (m.firstRowOnScreen : Int) + M - 1 then
        u8 ((m.firstRowOnScreen : Int) + 1)
      else if (meleeMenuButton M cb m .DOWN).1.selectedRow < m.firstRowOnScreen then 0
      else m.firstRowOnScreen := by
  rw [meleeMenuButton_DOWN_selectedRow]
  unfold meleeMenuButton
  dsimp only
  split_ifs <;>
    simp only [captureStartRow_firstRowOnScreen, captureStartRow_numRows]

theorem meleeMenuButton_viewportInv (M : Nat) (hM : 0 < M) (cb : menuCbEnv) (m : meleeMenu_t)
    (h : viewportInv M m) (btn : buttonBit_t)
    (hcb : btn = .START ∨ btn = .BTN_A →
      viewportInv M (cb m.cbFunc (m.rows.get? m.selectedRow) m)) :
    viewportInv M (meleeMenuButton M cb m btn).1 := by
  obtain ⟨h1, h2, h3, h4⟩ := h
  have hup : viewportInv M (meleeMenuButton M cb m .UP).1 := by
    have hs := meleeMenuButton_UP_selectedRow M cb m
    have hf := meleeMenuButton_UP_firstRowOnScreen M cb m
    have hn := meleeMenuButton_numRows M cb m .UP (by decide) (by decide)
    unfold viewportInv
    rw [hn]
    by_cases h0 : 0 = m.selectedRow
    · rw [if_pos h0, u8_pred_of_le _ (by omega) (by omega)] at hs
      rw [hs] at hf ⊢
      split_ifs at hf with c1 c2
      · omega
      · have e : u8 ((m.numRows : Int) - M) = m.numRows - M := by unfold u8; omega
        rw [hf, e]
        omega
      · rw [hf]
        omega
    · rw [if_neg h0, u8_pred_of_le _ (by omega) (by omega)] at hs
      rw [hs] at hf ⊢
      split_ifs at hf with c1 c2
      · rw [hf, u8_pred_of_le _ (by omega) (by omega)]
        omega
      · omega
      · rw [hf]
        omega
  have hdown : viewportInv M (meleeMenuButton M cb m .DOWN).1 := by
    have hs := meleeMenuButton_DOWN_selectedRow M cb m
    have hf := meleeMenuButton_DOWN_firstRowOnScreen M cb m
    have hn := meleeMenuButton_numRows M cb m .DOWN (by decide) (by decide)
    unfold viewportInv
    rw [hn]
    by_cases h0 : (m.selectedRow : Int) = (m.numRows : Int) - 1
    · rw [if_pos h0] at hs
      rw [hs] at hf ⊢
      split_ifs at hf with c1 c2
      · omega
      · rw [hf]
        omega
      · rw [hf]
        omega
    · rw [if_neg h0, u8_succ_of_lt _ (by omega)] at hs
      rw [hs] at hf ⊢
      split_ifs at hf with c1 c2
      · rw [hf, u8_succ_of_lt _ (by omega)]
        omega
      · omega
      · rw [hf]
        omega
  cases btn with
  | UP => exact hup
  | DOWN => exact hdown
  | SELECT => exact hdown
  | LEFT => exact ⟨h1, h2, h3, h4⟩
  | RIGHT => exact ⟨h1, h2, h3, h4⟩
  | BTN_A => exact hcb (Or.inr rfl)
  | BTN_B => exact ⟨h1, h2, h3, h4⟩
  | START => exact hcb (Or.inl rfl)
  | other v => exact ⟨h1, h2, h3, h4⟩

theorem drawAdjustViewport_of_inv (M : Nat) (m : meleeMenu_t) (h : viewportInv M m) :
    drawAdjustViewport M m = m := by
  obtain ⟨h1, h2, _, _⟩ := h
  unfold drawAdjustViewport
  rw [if_neg (by omega), if_neg (by omega)]

theorem drawStartAnimation_fields (m : meleeMenu_t) :
    (drawStartAnimation m).firstRowOnScreen = m.firstRowOnScreen ∧
      (drawStartAnimation m).selectedRow = m.selectedRow ∧
      (drawStartAnimation m).numRows = m.numRows := by
  unfold drawStartAnimation
  split_ifs <;> exact ⟨rfl, rfl, rfl⟩

theorem drawEntries_fields (M : Nat) (m : meleeMenu_t) :
    (drawEntries M m).1.firstRowOnScreen = m.firstRowOnScreen ∧
      (drawEntries M m).1.selectedRow = m.selectedRow ∧
      (drawEntries M m).1.numRows = m.numRows := by
  unfold drawEntries
  dsimp only
  split_ifs <;> exact ⟨rfl, rfl, rfl⟩

theorem drawMeleeMenu_viewportInv (M : Nat) (m : meleeMenu_t) (h : viewportInv M m) :
    viewportInv M (drawMeleeMenu M m).1 := by
  unfold drawMeleeMenu
  rw [drawAdjustViewport_of_inv M m h]
  obtain ⟨a1, a2, a3⟩ := drawStartAnimation_fields m
  obtain ⟨b1, b2, b3⟩ := drawEntries_fields M (drawStartAnimation m)
  unfold viewportInv at h ⊢
  rw [b1, b2, b3, a1, a2, a3]
  exact h

theorem menuRun_viewportInv (M : Nat) (hM : 0 < M) (cb : menuCbEnv) (evts : List menuEvt_t)
    (hcb : menuEvt_t.button .START ∈ evts ∨ menuEvt_t.button .BTN_A ∈ evts →
      ∀ (f : meleeMenuCb) (opt : Option (Option label_t)) (m : meleeMenu_t),
        viewportInv M m → viewportInv M (cb f opt m)) :
    ∀ m : meleeMenu_t, viewportInv M m → viewportInv M (menuRun M cb m evts) := by
  induction evts with
  | nil => intro m h; exact h
  | cons e rest ih =>
    intro m h
    unfold menuRun
    rw [List.foldl_cons]
    apply ih
    · intro hmem
      exact hcb (hmem.imp (List.mem_cons_of_mem _) (List.mem_cons_of_mem _))
    · cases e with
      | button btn =>
        refine meleeMenuButton_viewportInv M hM cb m h btn (fun hc => ?_)
        refine hcb ?_ _ _ m h
        rcases hc with rfl | rfl
        · exact Or.inl (List.mem_cons_self _ _)
        · exact Or.inr (List.mem_cons_self _ _)
      | draw => exact drawMeleeMenu_viewportInv M m h

theorem storeRow_fields (m : meleeMenu_t) (label : label_t) :
    (storeRow m label).1.selectedRow = m.selectedRow ∧
      (storeRow m label).1.firstRowOnScreen = m.firstRowOnScreen ∧
      (storeRow m label).1.numRows < 256 := by
  refine ⟨rfl, rfl, ?_⟩
  unfold storeRow
  dsimp only
  exact u8_lt _

theorem addRowToMeleeMenu_full (MAX_ROWS M : Nat) (m : meleeMenu_t) (label : label_t)
    (alloc : Option (Nat → Option label_t)) (h : ¬ m.numRows < MAX_ROWS) :
    addRowToMeleeMenu MAX_ROWS M m label alloc = (m, -1) := by
  unfold addRowToMeleeMenu
  rw [if_neg h]

theorem addRowToMeleeMenu_fits (MAX_ROWS M : Nat) (m : meleeMenu_t) (label : label_t)
    (alloc : Option (Nat → Option label_t)) (h : m.numRows < MAX_ROWS)
    (hfit : ¬ m.numRowsAllocated < m.numRows + 1) :
    addRowToMeleeMenu MAX_ROWS M m label alloc = storeRow m label := by
  unfold addRowToMeleeMenu
  rw [if_pos h, if_neg hfit]

theorem addRowToMeleeMenu_alloc_failed (MAX_ROWS M : Nat) (m : meleeMenu_t) (label : label_t)
    (h : m.numRows < MAX_ROWS) (hgrow : m.numRowsAllocated < m.numRows + 1) :
    addRowToMeleeMenu MAX_ROWS M m label none = (m, -1) := by
  unfold addRowToMeleeMenu
  rw [if_pos h, if_pos hgrow]
  rfl

theorem addRowToMeleeMenu_grown (MAX_ROWS M : Nat) (m : meleeMenu_t) (label : label_t)
    (junk : Nat → Option label_t) (h : m.numRows < MAX_ROWS)
    (hgrow : m.numRowsAllocated < m.numRows + 1) :
    addRowToMeleeMenu MAX_ROWS M m label (some junk) =
      if u8 M = 0 then
        ({ m with rows := reallocRows m.rows (m.numRowsAllocated + M) junk }, -1)
      else
        storeRow { m with rows := reallocRows m.rows (m.numRowsAllocated + M) junk,
                          numRowsAllocated := u8 ((m.numRowsAllocated : Int) + u8 M) } label := by
  unfold addRowToMeleeMenu
  rw [if_pos h, if_pos hgrow]
  rfl

theorem addRowToMeleeMenu_fields (MAX_ROWS M : Nat) (m : meleeMenu_t) (label : label_t)
    (alloc : Option (Nat → Option label_t)) :
    (addRowToMeleeMenu MAX_ROWS M m label alloc).1.selectedRow = m.selectedRow ∧
      (addRowToMeleeMenu MAX_ROWS M m label alloc).1.firstRowOnScreen = m.firstRowOnScreen ∧
      ((addRowToMeleeMenu MAX_ROWS M m label alloc).1.numRows = m.numRows ∨
        (addRowToMeleeMenu MAX_ROWS M m label alloc).1.numRows < 256) := by
  by_cases h : m.numRows < MAX_ROWS
  · by_cases hgrow : m.numRowsAllocated < m.numRows + 1
    · cases alloc with
      | none =>
        rw [addRowToMeleeMenu_alloc_failed MAX_ROWS M m label h hgrow]
        exact ⟨rfl, rfl, Or.inl rfl⟩
      | some junk =>
        rw [addRowToMeleeMenu_grown MAX_ROWS M m label junk h hgrow]
        split_ifs
        · exact ⟨rfl, rfl, Or.inl rfl⟩
        · exact ⟨rfl, rfl, Or.inr (storeRow_fields _ label).2.2⟩
    · rw [addRowToMeleeMenu_fits MAX_ROWS M m label alloc h hgrow]
      exact ⟨rfl, rfl, Or.inr (storeRow_fields m label).2.2⟩
  · rw [addRowToMeleeMenu_full MAX_ROWS M m label alloc h]
    exact ⟨rfl, rfl, Or.inl rfl⟩

theorem addRows_fields (MAX_ROWS M : Nat)
    (adds : List (label_t × Option (Nat → Option label_t))) :
    ∀ m : meleeMenu_t, m.numRows < 256 →
      (addRows MAX_ROWS M m adds).1.selectedRow = m.selectedRow ∧
        (addRows MAX_ROWS M m adds).1.firstRowOnScreen = m.firstRowOnScreen ∧
        (addRows MAX_ROWS M m adds).1.numRows < 256 := by
  induction adds with
  | nil => intro m h; exact ⟨rfl, rfl, h⟩
  | cons a rest ih =>
    intro m h
    obtain ⟨label, alloc⟩ := a
    obtain ⟨a1, a2, a3⟩ := addRowToMeleeMenu_fields MAX_ROWS M m label alloc
    have hlt : (addRowToMeleeMenu MAX_ROWS M m label alloc).1.numRows < 256 := by
      rcases a3 with e | e
      · rw [e]; exact h
      · exact e
    obtain ⟨b1, b2, b3⟩ := ih _ hlt
    unfold addRows
    dsimp only
    exact ⟨by rw [b1, a1], by rw [b2, a2], b3⟩

theorem addRowToMeleeMenu_numRows_of_alloc (MAX_ROWS M : Nat) (m : meleeMenu_t)
    (label : label_t) (alloc : Option (Nat → Option label_t)) (halloc : alloc ≠ none)
    (h : m.numRows < MAX_ROWS) (hmax : MAX_ROWS ≤ 255) (hM : u8 M ≠ 0) :
    (addRowToMeleeMenu MAX_ROWS M m label alloc).1.numRows = m.numRows + 1 := by
  by_cases hgrow : m.numRowsAllocated < m.numRows + 1
  · cases alloc with
    | none => exact absurd rfl halloc
    | some junk =>
      rw [addRowToMeleeMenu_grown MAX_ROWS M m label junk h hgrow, if_neg hM]
      unfold storeRow
      dsimp only
      exact u8_succ_of_lt _ (by omega)
  · rw [addRowToMeleeMenu_fits MAX_ROWS M m label alloc h hgrow]
    unfold storeRow
    dsimp only
    exact u8_succ_of_lt _ (by omega)

theorem addRows_numRows_of_alloc (MAX_ROWS M : Nat) (hmax : MAX_ROWS ≤ 255) (hM : u8 M ≠ 0)
    (adds : List (label_t × Option (Nat → Option label_t))) :
    ∀ m : meleeMenu_t, (∀ a ∈ adds, a.2 ≠ none) → m.numRows + adds.length ≤ MAX_ROWS →
      (addRows MAX_ROWS M m adds).1.numRows = m.numRows + adds.length := by
  induction adds with
  | nil => intro m _ _; rfl
  | cons a rest ih =>
    intro m hall hlen
    obtain ⟨label, alloc⟩ := a
    have h1 := addRowToMeleeMenu_numRows_of_alloc MAX_ROWS M m label alloc
      (hall _ (List.mem_cons_self _ _)) (by simp at hlen; omega) hmax hM
    have h2 := ih (addRowToMeleeMenu MAX_ROWS M m label alloc).1
      (fun a ha => hall a (List.mem_cons_of_mem _ ha)) (by rw [h1]; simp at hlen; omega)
    unfold addRows
    dsimp only
    rw [h2, h1]
    simp
    omega

/-- A menu reset and refilled with rows whose allocations succeed has its first
row selected, at the top of the viewport. -/
theorem rebuilt_menu (MAX_ROWS M : Nat) (hmax : MAX_ROWS ≤ 255) (hM : u8 M ≠ 0)
    (m : meleeMenu_t) (title : label_t) (c : meleeMenuCb)
    (adds : List (label_t × Option (Nat → Option label_t)))
    (hall : ∀ a ∈ adds, a.2 ≠ none) (hlen : adds.length ≤ MAX_ROWS) (h1 : 1 ≤ adds.length) :
    (addRows MAX_ROWS M (resetMeleeMenu m title c) adds).1.selectedRow = 0 ∧
      (addRows MAX_ROWS M (resetMeleeMenu m title c) adds).1.firstRowOnScreen = 0 ∧
      1 ≤ (addRows MAX_ROWS M (resetMeleeMenu m title c) adds).1.numRows ∧
      (addRows MAX_ROWS M (resetMeleeMenu m title c) adds).1.numRows ≤ 255 := by
  have hn := addRows_numRows_of_alloc MAX_ROWS M hmax hM adds (resetMeleeMenu m title c) hall
    (by show 0 + adds.length ≤ MAX_ROWS; omega)
  have hz : (resetMeleeMenu m title c).numRows = 0 := rfl
  obtain ⟨a1, a2, _⟩ := addRows_fields MAX_ROWS M adds (resetMeleeMenu m title c)
    (by rw [hz]; omega)
  rw [hz] at hn
  refine ⟨a1, a2, ?_, ?_⟩ <;> rw [hn] <;> omega

/-- What a callback of fighter_menu.c does to the menu when the allocations of
its rows succeed: it leaves the menu as it is, or leaves a refilled menu with
its first row selected at the top of the viewport. -/
theorem fighterCbEnv_cases (cfg : fighterCfg_t) (allocs : List alloc_t) (now : Int)
    (fm : fighterMenu_t) (hmax : cfg.MAX_ROWS ≤ 255) (h4 : 4 ≤ cfg.MAX_ROWS)
    (hM : u8 cfg.MAX_ROWS_ON_SCREEN ≠ 0) (hall : ∀ i, i < 4 → allocs.getD i none ≠ none)
    (f : meleeMenuCb) (opt : Option (Option label_t)) (m : meleeMenu_t) :
    fighterCbEnv cfg allocs now fm f opt m = m ∨
      ((fighterCbEnv cfg allocs now fm f opt m).selectedRow = 0 ∧
        (fighterCbEnv cfg allocs now fm f opt m).firstRowOnScreen = 0 ∧
        1 ≤ (fighterCbEnv cfg allocs now fm f opt m).numRows ∧
        (fighterCbEnv cfg allocs now fm f opt m).numRows ≤ 255) := by
  have hset : ∀ (title : label_t) (c : meleeMenuCb)
      (adds : List (label_t × Option (Nat → Option label_t))),
      (∀ a ∈ adds, a.2 ≠ none) → adds.length ≤ 4 → 1 ≤ adds.length →
      (addRows cfg.MAX_ROWS cfg.MAX_ROWS_ON_SCREEN (resetMeleeMenu m title c) adds).1.selectedRow
          = 0 ∧
        (addRows cfg.MAX_ROWS cfg.MAX_ROWS_ON_SCREEN
          (resetMeleeMenu m title c) adds).1.firstRowOnScreen = 0 ∧
        1 ≤ (addRows cfg.MAX_ROWS cfg.MAX_ROWS_ON_SCREEN
          (resetMeleeMenu m title c) adds).1.numRows ∧
        (addRows cfg.MAX_ROWS cfg.MAX_ROWS_ON_SCREEN
          (resetMeleeMenu m title c) adds).1.numRows ≤ 255 :=
    fun title c adds ha hl h1 =>
      rebuilt_menu _ _ hmax hM m title c adds ha (by omega) h1
  have h0 := hall 0 (by omega)
  have h1 := hall 1 (by omega)
  have h2 := hall 2 (by omega)
  have h3 := hall 3 (by omega)
  simp only [List.getD_eq_getElem?_getD] at h0 h1 h2 h3
  unfold fighterCbEnv
  rcases opt with _ | _ | opt
  · exact Or.inl rfl
  · exact Or.inl rfl
  · dsimp only
    unfold fighterMainMenuCb fighterHrMenuCb fighterMultiplayerCharMenuCb
      fighterMultiplayerStageMenuCb setFighterHrMenu setFighterMainMenu
      setFighterMultiplayerStageSelMenu
    dsimp only
    split_ifs <;> first
      | exact Or.inl rfl
      | exact Or.inr (hset _ _ _ (by simp [h0, h1, h2, h3]) (by simp) (by simp))

/-- The callbacks of fighter_menu.c leave the selection on a row of the menu
they leave, when the allocations of its rows succeed. -/
theorem fighterCbEnv_selectedRow_lt (cfg : fighterCfg_t) (allocs : List alloc_t) (now : Int)
    (fm : fighterMenu_t) (hmax : cfg.MAX_ROWS ≤ 255) (h4 : 4 ≤ cfg.MAX_ROWS)
    (hM : u8 cfg.MAX_ROWS_ON_SCREEN ≠ 0) (hall : ∀ i, i < 4 → allocs.getD i none ≠ none)
    (f : meleeMenuCb) (opt : Option (Option label_t)) (m : meleeMenu_t)
    (h : m.selectedRow < m.numRows) :
    (fighterCbEnv cfg allocs now fm f opt m).selectedRow <
      (fighterCbEnv cfg allocs now fm f opt m).numRows := by
  rcases fighterCbEnv_cases cfg allocs now fm hmax h4 hM hall f opt m with e | ⟨e1, _, e3, _⟩
  · rw [e]; exact h
  · rw [e1]; omega

/-- The callbacks of fighter_menu.c keep the viewport invariant, when the
allocations of its rows succeed. -/
theorem fighterCbEnv_viewportInv (cfg : fighterCfg_t) (allocs : List alloc_t) (now : Int)
    (fm : fighterMenu_t) (hmax : cfg.MAX_ROWS ≤ 255) (h4 : 4 ≤ cfg.MAX_ROWS)
    (hM : u8 cfg.MAX_ROWS_ON_SCREEN ≠ 0) (hall : ∀ i, i < 4 → allocs.getD i none ≠ none)
    (M : Nat) (hM0 : 0 < M)
    (f : meleeMenuCb) (opt : Option (Option label_t)) (m : meleeMenu_t)
    (h : viewportInv M m) : viewportInv M (fighterCbEnv cfg allocs now fm f opt m) := by
  rcases fighterCbEnv_cases cfg allocs now fm hmax h4 hM hall f opt m with e | ⟨e1, e2, e3, e4⟩
  · rw [e]; exact h
  · unfold viewportInv
    rw [e1, e2]
    omega

theorem okAllocs_some : ∀ i, i < 4 → okAllocs.getD i none ≠ none := by
  intro i hi
  interval_cases i <;> simp [okAllocs]

/-- C9. With `numRows ≥ 1` and `selectedRow < numRows`, every button leaves
`selectedRow < numRows`; so the selected row stays inside `[0, numRows)` under
every sequence of button events.  UP, DOWN, SELECT and the buttons that do
nothing need no assumption; START and BTN_A run the menu's callback, which is
code of the hosting mode and is assumed to leave the selection on a row of the
menu it leaves (the callbacks of fighter_menu.c refill the menu and select row
0).  The number of rows is kept when the callback keeps it. -/
theorem meleeMenuButton_selectedRow_lt (MAX_ROWS_ON_SCREEN : Nat) (cb : menuCbEnv)
    (menu : meleeMenu_t)
    (hN : 1 ≤ menu.numRows) (hsel : menu.selectedRow < menu.numRows)
    (hcb : ∀ (f : meleeMenuCb) (opt : Option (Option label_t)) (m : meleeMenu_t),
      m.selectedRow < m.numRows → (cb f opt m).selectedRow < (cb f opt m).numRows) :
    (∀ btn : buttonBit_t,
      (meleeMenuButton MAX_ROWS_ON_SCREEN cb menu btn).1.selectedRow <
        (meleeMenuButton MAX_ROWS_ON_SCREEN cb menu btn).1.numRows) ∧
    (∀ btns : List buttonBit_t,
      (menuRun MAX_ROWS_ON_SCREEN cb menu (btns.map menuEvt_t.button)).selectedRow <
        (menuRun MAX_ROWS_ON_SCREEN cb menu (btns.map menuEvt_t.button)).numRows ∧
      ((∀ (f : meleeMenuCb) (opt : Option (Option label_t)) (m : meleeMenu_t),
          (cb f opt m).numRows = m.numRows) →
        (menuRun MAX_ROWS_ON_SCREEN cb menu (btns.map menuEvt_t.button)).numRows =
          menu.numRows)) := by
  have hmove : ∀ (m : meleeMenu_t) (btn : buttonBit_t), btn ≠ .START → btn ≠ .BTN_A →
      m.selectedRow < m.numRows →
      (meleeMenuButton MAX_ROWS_ON_SCREEN cb m btn).1.selectedRow < m.numRows := by
    intro m btn hs ha h2
    cases btn with
    | UP =>
      rw [meleeMenuButton_UP_selectedRow]
      unfold u8
      split_ifs <;> omega
    | DOWN =>
      rw [meleeMenuButton_DOWN_selectedRow]
      unfold u8
      split_ifs <;> omega
    | SELECT =>
      have : (meleeMenuButton MAX_ROWS_ON_SCREEN cb m .SELECT) =
          (meleeMenuButton MAX_ROWS_ON_SCREEN cb m .DOWN) := rfl
      rw [this, meleeMenuButton_DOWN_selectedRow]
      unfold u8
      split_ifs <;> omega
    | LEFT => exact h2
    | RIGHT => exact h2
    | BTN_A => exact absurd rfl ha
    | BTN_B => exact h2
    | START => exact absurd rfl hs
    | other v => exact h2
  have hone : ∀ (m : meleeMenu_t), 1 ≤ m.numRows → m.selectedRow < m.numRows →
      ∀ btn : buttonBit_t, (meleeMenuButton MAX_ROWS_ON_SCREEN cb m btn).1.selectedRow <
        (meleeMenuButton MAX_ROWS_ON_SCREEN cb m btn).1.numRows := by
    intro m _ h2 btn
    by_cases hc : btn = .START ∨ btn = .BTN_A
    · rw [meleeMenuButton_confirm_menu MAX_ROWS_ON_SCREEN cb m btn hc]
      exact hcb _ _ m h2
    · have hs : btn ≠ .START := fun h => hc (Or.inl h)
      have ha : btn ≠ .BTN_A := fun h => hc (Or.inr h)
      rw [meleeMenuButton_numRows MAX_ROWS_ON_SCREEN cb m btn hs ha]
      exact hmove m btn hs ha h2
  refine ⟨hone menu hN hsel, ?_⟩
  intro btns
  induction btns using List.reverseRecOn with
  | nil => exact ⟨hsel, fun _ => rfl⟩
  | append_singleton bs b ih =>
    rw [List.map_append, List.map_singleton]
    unfold menuRun at ih ⊢
    rw [List.foldl_append, List.foldl_cons, List.foldl_nil]
    simp only [menuStep]
    refine ⟨hone _ (by omega) ih.1 b, fun hk => ?_⟩
    by_cases hc : b = .START ∨ b = .BTN_A
    · rw [meleeMenuButton_confirm_menu MAX_ROWS_ON_SCREEN cb _ b hc, hk, ih.2 hk]
    · rw [meleeMenuButton_numRows MAX_ROWS_ON_SCREEN cb _ b (fun h => hc (Or.inl h))
        (fun h => hc (Or.inr h)), ih.2 hk]

set_option maxRecDepth 100000 in
theorem meleeMenuButton_selectedRow_lt_witness :
    1 ≤ hrSelectedMenu.numRows ∧ hrSelectedMenu.selectedRow < hrSelectedMenu.numRows ∧
      (meleeMenuButton 5 exampleCbEnv hrSelectedMenu .START).1.selectedRow <
        (meleeMenuButton 5 exampleCbEnv hrSelectedMenu .START).1.numRows ∧
      (menuRun 5 exampleCbEnv hrSelectedMenu
        ([buttonBit_t.UP, buttonBit_t.DOWN, buttonBit_t.START, buttonBit_t.DOWN].map
          menuEvt_t.button)).selectedRow <
        (menuRun 5 exampleCbEnv hrSelectedMenu
          ([buttonBit_t.UP, buttonBit_t.DOWN, buttonBit_t.START, buttonBit_t.DOWN].map
            menuEvt_t.button)).numRows :=
  ⟨by decide, by decide,
    (meleeMenuButton_selectedRow_lt 5 exampleCbEnv hrSelectedMenu (by decide) (by decide)
      (fighterCbEnv_selectedRow_lt exampleCfg okAllocs 0 mainMenuSession (by decide) (by decide)
        (by decide) okAllocs_some)).1 .START,
    ((meleeMenuButton_selectedRow_lt 5 exampleCbEnv hrSelectedMenu (by decide) (by decide)
      (fighterCbEnv_selectedRow_lt exampleCfg okAllocs 0 mainMenuSession (by decide) (by decide)
        (by decide) okAllocs_some)).2
      [buttonBit_t.UP, buttonBit_t.DOWN, buttonBit_t.START, buttonBit_t.DOWN]).1⟩

/-- C8. Viewport containment: start from a freshly initialised or a reset menu,
add rows so that the menu has at least one, then handle any sequence of button
events and `drawMeleeMenu` calls; afterwards
`firstRowOnScreen ≤ selectedRow < firstRowOnScreen + MAX_ROWS_ON_SCREEN`.  For
sequences of UP, DOWN and the other buttons that run no callback this holds
whatever the callbacks do; when a START or BTN_A is among the events, the
callback it runs is assumed to leave the selection on a row inside the
viewport of the menu it leaves. -/
theorem viewport_containment (MAX_ROWS MAX_ROWS_ON_SCREEN : Nat)
    (hM : 0 < MAX_ROWS_ON_SCREEN) (cb : menuCbEnv) (start : meleeMenu_t)
    (hstart : (∃ title fontH cbFunc, start = initMeleeMenu MAX_ROWS_ON_SCREEN title fontH cbFunc) ∨
      (∃ menu title cbFunc, start = resetMeleeMenu menu title cbFunc))
    (adds : List (label_t × Option (Nat → Option label_t)))
    (hN : 1 ≤ (addRows MAX_ROWS MAX_ROWS_ON_SCREEN start adds).1.numRows)
    (evts : List menuEvt_t)
    (hcb : menuEvt_t.button .START ∈ evts ∨ menuEvt_t.button .BTN_A ∈ evts →
      ∀ (f : meleeMenuCb) (opt : Option (Option label_t)) (m : meleeMenu_t),
        viewportInv MAX_ROWS_ON_SCREEN m → viewportInv MAX_ROWS_ON_SCREEN (cb f opt m)) :
    (menuRun MAX_ROWS_ON_SCREEN cb (addRows MAX_ROWS MAX_ROWS_ON_SCREEN start adds).1
        evts).firstRowOnScreen ≤
      (menuRun MAX_ROWS_ON_SCREEN cb (addRows MAX_ROWS MAX_ROWS_ON_SCREEN start adds).1
        evts).selectedRow ∧
    (menuRun MAX_ROWS_ON_SCREEN cb (addRows MAX_ROWS MAX_ROWS_ON_SCREEN start adds).1
        evts).selectedRow <
      (menuRun MAX_ROWS_ON_SCREEN cb (addRows MAX_ROWS MAX_ROWS_ON_SCREEN start adds).1
        evts).firstRowOnScreen + MAX_ROWS_ON_SCREEN := by
  have h0 : start.selectedRow = 0 ∧ start.firstRowOnScreen = 0 ∧ start.numRows = 0 := by
    rcases hstart with ⟨t, f, c, rfl⟩ | ⟨m, t, c, rfl⟩
    · exact ⟨rfl, rfl, rfl⟩
    · exact ⟨rfl, rfl, rfl⟩
  obtain ⟨a1, a2, a3⟩ := addRows_fields MAX_ROWS MAX_ROWS_ON_SCREEN adds start (by omega)
  have hinv : viewportInv MAX_ROWS_ON_SCREEN
      (addRows MAX_ROWS MAX_ROWS_ON_SCREEN start adds).1 := by
    unfold viewportInv
    rw [a1, a2, h0.1, h0.2.1]
    omega
  have := menuRun_viewportInv MAX_ROWS_ON_SCREEN hM cb evts hcb _ hinv
  exact ⟨this.1, this.2.1⟩

set_option maxRecDepth 100000 in
theorem viewport_containment_witness :
    0 < 5 ∧
      1 ≤ (addRows 255 5 (initMeleeMenu 5 "Swadge Bros" 20 "fighterMainMenuCb")
        [("Multiplayer", none), ("HR Contest", none), ("Records", none), ("Exit", none),
         ("Fifth", none), ("Sixth", some (fun _ => none)), ("Seventh", none)]).1.numRows ∧
      (menuRun 5 exampleCbEnv (addRows 255 5 (initMeleeMenu 5 "Swadge Bros" 20 "fighterMainMenuCb")
        [("Multiplayer", none), ("HR Contest", none), ("Records", none), ("Exit", none),
         ("Fifth", none), ("Sixth", some (fun _ => none)), ("Seventh", none)]).1
        [.button .UP, .draw, .button .DOWN, .button .DOWN, .button .START, .draw]).firstRowOnScreen ≤
      (menuRun 5 exampleCbEnv (addRows 255 5 (initMeleeMenu 5 "Swadge Bros" 20 "fighterMainMenuCb")
        [("Multiplayer", none), ("HR Contest", none), ("Records", none), ("Exit", none),
         ("Fifth", none), ("Sixth", some (fun _ => none)), ("Seventh", none)]).1
        [.button .UP, .draw, .button .DOWN, .button .DOWN, .button .START, .draw]).selectedRow ∧
      (menuRun 5 exampleCbEnv (addRows 255 5 (initMeleeMenu 5 "Swadge Bros" 20 "fighterMainMenuCb")
        [("Multiplayer", none), ("HR Contest", none), ("Records", none), ("Exit", none),
         ("Fifth", none), ("Sixth", some (fun _ => none)), ("Seventh", none)]).1
        [.button .UP, .draw, .button .DOWN, .button .DOWN, .button .START, .draw]).selectedRow <
      (menuRun 5 exampleCbEnv (addRows 255 5 (initMeleeMenu 5 "Swadge Bros" 20 "fighterMainMenuCb")
        [("Multiplayer", none), ("HR Contest", none), ("Records", none), ("Exit", none),
         ("Fifth", none), ("Sixth", some (fun _ => none)), ("Seventh", none)]).1
        [.button .UP, .draw, .button .DOWN, .button .DOWN, .button .START, .draw]).firstRowOnScreen + 5 :=
  ⟨by decide, by decide,
    viewport_containment 255 5 (by decide) exampleCbEnv _ (Or.inl ⟨_, _, _, rfl⟩) _ (by decide) _
      (fun _ => fighterCbEnv_viewportInv exampleCfg okAllocs 0 mainMenuSession (by decide)
        (by decide) (by decide) okAllocs_some 5 (by decide))⟩

theorem reallocRows_length (rows : List (Option label_t)) (n : Nat)
    (junk : Nat → Option label_t) : (reallocRows rows n junk).length = n := by
  unfold reallocRows
  simp

theorem reallocRows_get? (rows : List (Option label_t)) (n : Nat)
    (junk : Nat → Option label_t) (i : Nat) (h1 : i < n) (h2 : i < rows.length) :
    (reallocRows rows n junk).get? i = rows.get? i := by
  unfold reallocRows
  simp [List.get?_eq_getElem?, List.getElem?_range, h1, h2]

theorem storeRow_spec (m : meleeMenu_t) (label : label_t) (h1 : m.numRows < m.rows.length)
    (h2 : m.numRows < 255) :
    (storeRow m label).2 = m.numRows ∧
      (storeRow m label).1.rows.get? m.numRows = some (some label) ∧
      (storeRow m label).1.numRows = m.numRows + 1 ∧
      (∀ i, i ≠ m.numRows → (storeRow m label).1.rows.get? i = m.rows.get? i) ∧
      (storeRow m label).1.rows.length = m.rows.length ∧
      (storeRow m label).1.numRowsAllocated = m.numRowsAllocated := by
  unfold storeRow
  dsimp only
  refine ⟨rfl, ?_, u8_succ_of_lt _ h2, ?_, ?_, rfl⟩
  · simp [List.get?_eq_getElem?, h1]
  · intro i hi
    simp [List.get?_eq_getElem?, List.getElem?_set, Ne.symm hi]
  · simp

/-- One successful `addRowToMeleeMenu`. -/
theorem addRowToMeleeMenu_spec (MAX_ROWS M : Nat) (hmax : MAX_ROWS ≤ 255) (m : meleeMenu_t)
    (label : label_t) (alloc : Option (Nat → Option label_t))
    (hwf1 : m.numRows ≤ m.numRowsAllocated) (hwf2 : m.numRowsAllocated ≤ m.rows.length)
    (hlt : m.numRows < MAX_ROWS)
    (hgrow : m.numRowsAllocated < m.numRows + 1 →
      (maybeGrowRowsArray m m.numRowsAllocated M alloc).2 ≠ 0) :
    (addRowToMeleeMenu MAX_ROWS M m label alloc).2 = m.numRows ∧
      (addRowToMeleeMenu MAX_ROWS M m label alloc).1.rows.get? m.numRows = some (some label) ∧
      (addRowToMeleeMenu MAX_ROWS M m label alloc).1.numRows = m.numRows + 1 ∧
      (∀ i, i < m.numRows →
        (addRowToMeleeMenu MAX_ROWS M m label alloc).1.rows.get? i = m.rows.get? i) := by
  by_cases hg : m.numRowsAllocated < m.numRows + 1
  · have hnz := hgrow hg
    cases alloc with
    | none => exact absurd rfl hnz
    | some junk =>
      have hu : u8 M ≠ 0 := hnz
      have hM : 0 < M := by
        rcases Nat.eq_zero_or_pos M with e | e
        · rw [e] at hu; exact absurd rfl hu
        · exact e
      rw [addRowToMeleeMenu_grown MAX_ROWS M m label junk hlt hg, if_neg hu]
      obtain ⟨s1, s2, s3, s4, _, _⟩ := storeRow_spec
        { m with rows := reallocRows m.rows (m.numRowsAllocated + M) junk,
                 numRowsAllocated := u8 ((m.numRowsAllocated : Int) + u8 M) } label
        (by dsimp only; rw [reallocRows_length]; omega) (by dsimp only; omega)
      dsimp only at s1 s2 s3 s4
      refine ⟨s1, s2, s3, ?_⟩
      intro i hi
      rw [s4 i (by omega), reallocRows_get? _ _ _ _ (by omega) (by omega)]
  · rw [addRowToMeleeMenu_fits MAX_ROWS M m label alloc hlt hg]
    obtain ⟨s1, s2, s3, s4, _, _⟩ := storeRow_spec m label (by omega) (by omega)
    exact ⟨s1, s2, s3, fun i hi => s4 i (by omega)⟩

theorem mul_step_le (M a b : Nat) (h : M * a < M * b) : M * a + M ≤ M * b := by
  have hab : a < b := Nat.lt_of_mul_lt_mul_left h
  calc M * a + M = M * (a + 1) := by ring
    _ ≤ M * b := Nat.mul_le_mul_left M hab

/-- A freshly initialised menu satisfies the storage invariant. -/
theorem initMeleeMenu_rowsInv (M : Nat) (hM : M < 256) (title : label_t) (fontH : Nat)
    (cbFunc : meleeMenuCb) : rowsInv M (initMeleeMenu M title fontH cbFunc) := by
  unfold rowsInv initMeleeMenu
  dsimp only
  rw [u8_of_lt M hM, List.length_replicate]
  exact ⟨Nat.zero_le _, le_refl _, dvd_refl _⟩

/-- Resetting a menu keeps the storage invariant. -/
theorem resetMeleeMenu_rowsInv (M : Nat) (m : meleeMenu_t) (title : label_t)
    (cbFunc : meleeMenuCb) (h : rowsInv M m) : rowsInv M (resetMeleeMenu m title cbFunc) := by
  obtain ⟨_, h2, h3⟩ := h
  unfold rowsInv resetMeleeMenu
  dsimp only
  refine ⟨Nat.zero_le _, ?_, h3⟩
  rw [List.length_append, List.length_replicate, List.length_drop]
  omega

/-- One `addRowToMeleeMenu` on a menu that satisfies the storage invariant, with
an allocator that succeeds: the storage invariant is kept. -/
theorem addRowToMeleeMenu_rowsInv (MAX_ROWS M : Nat) (hmax : MAX_ROWS ≤ 255)
    (hdiv : M ∣ MAX_ROWS) (m : meleeMenu_t) (label : label_t) (junk : Nat → Option label_t)
    (hinv : rowsInv M m) (hlt : m.numRows < MAX_ROWS) :
    rowsInv M (addRowToMeleeMenu MAX_ROWS M m label (some junk)).1 ∧
      (m.numRowsAllocated < m.numRows + 1 →
        (maybeGrowRowsArray m m.numRowsAllocated M (some junk)).2 ≠ 0) := by
  obtain ⟨i1, i2, i3⟩ := hinv
  have hM : 0 < M := by
    rcases Nat.eq_zero_or_pos M with e | e
    · rw [e] at hdiv
      have := Nat.eq_zero_of_zero_dvd hdiv
      omega
    · exact e
  have hMle : M ≤ MAX_ROWS := Nat.le_of_dvd (by omega) hdiv
  have hu : u8 (M : Int) = M := u8_of_lt M (by omega)
  by_cases hg : m.numRowsAllocated < m.numRows + 1
  · have hstep : m.numRowsAllocated + M ≤ MAX_ROWS := by
      obtain ⟨a, ha⟩ := i3
      obtain ⟨b, hb⟩ := hdiv
      rw [ha, hb]
      exact mul_step_le M a b (by rw [← ha, ← hb]; omega)
    have hu2 : u8 ((m.numRowsAllocated : Int) + (M : Nat)) = m.numRowsAllocated + M := by
      have := u8_of_lt (m.numRowsAllocated + M) (by omega)
      push_cast at this
      exact this
    rw [addRowToMeleeMenu_grown MAX_ROWS M m label junk hlt hg, hu, if_neg (by omega)]
    obtain ⟨_, _, s3, _, s5, s6⟩ := storeRow_spec
      { m with rows := reallocRows m.rows (m.numRowsAllocated + M) junk,
               numRowsAllocated := u8 ((m.numRowsAllocated : Int) + (M : Nat)) } label
      (by dsimp only; rw [reallocRows_length]; omega) (by dsimp only; omega)
    dsimp only at s3 s5 s6
    refine ⟨⟨?_, ?_, ?_⟩, fun _ => ?_⟩
    · rw [s3, s6, hu2]; omega
    · rw [s5, s6, hu2, reallocRows_length]
    · rw [s6, hu2]; exact Dvd.dvd.add i3 (dvd_refl M)
    · show u8 (M : Int) ≠ 0
      rw [hu]; omega
  · rw [addRowToMeleeMenu_fits MAX_ROWS M m label _ hlt hg]
    obtain ⟨_, _, s3, _, s5, s6⟩ := storeRow_spec m label (by omega) (by omega)
    refine ⟨⟨?_, ?_, ?_⟩, fun h => absurd h hg⟩
    · rw [s3, s6]; omega
    · rw [s5, s6]; exact i2
    · rw [s6]; exact i3

/-- A run of successful `addRowToMeleeMenu` calls appends the labels in order. -/
theorem addRows_spec (MAX_ROWS M : Nat) (hmax : MAX_ROWS ≤ 255) (hdiv : M ∣ MAX_ROWS)
    (adds : List (label_t × Option (Nat → Option label_t))) :
    ∀ m : meleeMenu_t, rowsInv M m → m.numRows + adds.length ≤ MAX_ROWS →
      (∀ a ∈ adds, a.2 ≠ none) →
      (addRows MAX_ROWS M m adds).2 =
          (List.range adds.length).map (fun i => ((m.numRows + i : Nat) : Int)) ∧
        (addRows MAX_ROWS M m adds).1.numRows = m.numRows + adds.length ∧
        (∀ i, i < m.numRows → (addRows MAX_ROWS M m adds).1.rows.get? i = m.rows.get? i) ∧
        (∀ i, i < adds.length →
          (addRows MAX_ROWS M m adds).1.rows.get? (m.numRows + i) =
            (adds.get? i).map (fun a => some a.1)) := by
  induction adds with
  | nil =>
    intro m _ _ _
    exact ⟨rfl, rfl, fun _ _ => rfl, fun i hi => absurd hi (Nat.not_lt_zero i)⟩
  | cons a rest ih =>
    intro m hinv hlen hall
    obtain ⟨label, alloc⟩ := a
    rw [List.length_cons] at hlen
    cases alloc with
    | none => exact absurd rfl (hall (label, none) (List.mem_cons_self _ _))
    | some junk =>
      obtain ⟨hinv1, hgrow⟩ := addRowToMeleeMenu_rowsInv MAX_ROWS M hmax hdiv m label junk hinv
        (by omega)
      obtain ⟨s1, s2, s3, s4⟩ := addRowToMeleeMenu_spec MAX_ROWS M hmax m label (some junk)
        hinv.1 hinv.2.1 (by omega) hgrow
      obtain ⟨r1, r2, r3, r4⟩ := ih (addRowToMeleeMenu MAX_ROWS M m label (some junk)).1 hinv1
        (by rw [s3]; omega) (fun a ha => hall a (List.mem_cons_of_mem _ ha))
      unfold addRows
      dsimp only
      refine ⟨?_, ?_, ?_, ?_⟩
      · rw [r1, s1, s3, List.length_cons, List.range_succ_eq_map, List.map_cons, List.map_map]
        congr 1
        apply List.map_congr_left
        intro i _
        simp only [Function.comp]
        congr 1
        omega
      · rw [r2, s3, List.length_cons]; omega
      · intro i hi
        rw [r3 i (by rw [s3]; omega), s4 i hi]
      · intro i hi
        cases i with
        | zero =>
          rw [Nat.add_zero, r3 _ (by rw [s3]; omega), s2]
          rfl
        | succ j =>
          rw [List.length_cons] at hi
          have := r4 j (by omega)
          rw [s3] at this
          rw [show m.numRows + (j + 1) = m.numRows + 1 + j by omega, this]
          rfl

/-- C10. A call of `addRowToMeleeMenu` on a menu with `numRows < MAX_ROWS`, when
no growth of the rows array is needed or the growth succeeds, returns the
previous `numRows`, stores the label at that index, increases `numRows` by one
and leaves the labels at all lower indices unchanged.  So adding labels to an
empty menu leaves exactly those labels, in insertion order, and the `i`-th call
returns `i`. -/
theorem addRowToMeleeMenu_appends (MAX_ROWS MAX_ROWS_ON_SCREEN : Nat) (hmax : MAX_ROWS ≤ 255) :
    (∀ (menu : meleeMenu_t) (label : label_t) (alloc : Option (Nat → Option label_t)),
      menu.numRows ≤ menu.numRowsAllocated → menu.numRowsAllocated ≤ menu.rows.length →
      menu.numRows < MAX_ROWS →
      (menu.numRowsAllocated < menu.numRows + 1 →
        (maybeGrowRowsArray menu menu.numRowsAllocated MAX_ROWS_ON_SCREEN alloc).2 ≠ 0) →
      (addRowToMeleeMenu MAX_ROWS MAX_ROWS_ON_SCREEN menu label alloc).2 = menu.numRows ∧
        (addRowToMeleeMenu MAX_ROWS MAX_ROWS_ON_SCREEN menu label alloc).1.rows.get? menu.numRows =
          some (some label) ∧
        (addRowToMeleeMenu MAX_ROWS MAX_ROWS_ON_SCREEN menu label alloc).1.numRows =
          menu.numRows + 1 ∧
        (∀ i, i < menu.numRows →
          (addRowToMeleeMenu MAX_ROWS MAX_ROWS_ON_SCREEN menu label alloc).1.rows.get? i =
            menu.rows.get? i)) ∧
    (MAX_ROWS_ON_SCREEN ∣ MAX_ROWS →
      ∀ (menu : meleeMenu_t) (adds : List (label_t × Option (Nat → Option label_t))),
        menu.numRows = 0 → rowsInv MAX_ROWS_ON_SCREEN menu →
        adds.length ≤ MAX_ROWS → (∀ a ∈ adds, a.2 ≠ none) →
        (addRows MAX_ROWS MAX_ROWS_ON_SCREEN menu adds).2 =
            (List.range adds.length).map (fun (i : Nat) => (i : Int)) ∧
          (addRows MAX_ROWS MAX_ROWS_ON_SCREEN menu adds).1.numRows = adds.length ∧
          (∀ i, i < adds.length →
            (addRows MAX_ROWS MAX_ROWS_ON_SCREEN menu adds).1.rows.get? i =
              (adds.get? i).map (fun a => some a.1))) := by
  refine ⟨fun menu label alloc h1 h2 h3 h4 =>
    addRowToMeleeMenu_spec MAX_ROWS MAX_ROWS_ON_SCREEN hmax menu label alloc h1 h2 h3 h4, ?_⟩
  intro hdiv menu adds h0 hinv hlen hall
  obtain ⟨r1, r2, _, r4⟩ := addRows_spec MAX_ROWS MAX_ROWS_ON_SCREEN hmax hdiv adds menu hinv
    (by omega) hall
  rw [h0] at r1 r2 r4
  simp only [Nat.zero_add] at r1 r2 r4
  exact ⟨r1, r2, r4⟩

theorem freshMenu_rowsInv : rowsInv 5 freshMenu := by
  unfold rowsInv
  decide

theorem addRowToMeleeMenu_appends_witness :
    (255 ≤ 255 ∧ fullMenu.numRows ≤ fullMenu.numRowsAllocated ∧
      fullMenu.numRowsAllocated ≤ fullMenu.rows.length ∧ fullMenu.numRows < 255 ∧
      (addRowToMeleeMenu 255 5 fullMenu "Sixth" (some (fun _ => none))).2 = fullMenu.numRows ∧
      (addRowToMeleeMenu 255 5 fullMenu "Sixth" (some (fun _ => none))).1.rows.get?
        fullMenu.numRows = some (some "Sixth")) ∧
    (5 ∣ 255 ∧ freshMenu.numRows = 0 ∧ rowsInv 5 freshMenu ∧
      (addRows 255 5 freshMenu
        [("Multiplayer", some (fun _ => none)), ("HR Contest", some (fun _ => none))]).2 =
        (List.range 2).map (fun (i : Nat) => (i : Int)) ∧
      (addRows 255 5 freshMenu
        [("Multiplayer", some (fun _ => none)), ("HR Contest", some (fun _ => none))]).1.numRows
        = 2) :=
  ⟨⟨by decide, by decide, by decide, by decide,
      ((addRowToMeleeMenu_appends 255 5 (by decide)).1 fullMenu "Sixth" (some (fun _ => none))
        (by decide) (by decide) (by decide) (by decide)).1,
      ((addRowToMeleeMenu_appends 255 5 (by decide)).1 fullMenu "Sixth" (some (fun _ => none))
        (by decide) (by decide) (by decide) (by decide)).2.1⟩,
    ⟨by decide, rfl, freshMenu_rowsInv,
      ((addRowToMeleeMenu_appends 255 5 (by decide)).2 (by decide) freshMenu
        [("Multiplayer", some (fun _ => none)), ("HR Contest", some (fun _ => none))]
        rfl freshMenu_rowsInv (by decide) (by simp)).1,
      ((addRowToMeleeMenu_appends 255 5 (by decide)).2 (by decide) freshMenu
        [("Multiplayer", some (fun _ => none)), ("HR Contest", some (fun _ => none))]
        rfl freshMenu_rowsInv (by decide) (by simp)).2.1⟩⟩

/-! ### The melee menu: failed adds, reset, confirm and the other buttons -/

theorem storeRow_snd_nonneg (m : meleeMenu_t) (label : label_t) : (storeRow m label).2 ≠ -1 := by
  unfold storeRow
  dsimp only
  omega

/-- C11. `addRowToMeleeMenu` returns -1 exactly when `numRows` has reached
`MAX_ROWS`, or the rows array has to grow and the growth fails; and whenever it
returns -1 the menu - `numRows`, `numRowsAllocated`, the stored labels, the
selection, the viewport and every other field - is unchanged. -/
theorem addRowToMeleeMenu_fails_iff (MAX_ROWS MAX_ROWS_ON_SCREEN : Nat)
    (hstep : MAX_ROWS_ON_SCREEN % 256 ≠ 0) (menu : meleeMenu_t) (label : label_t)
    (alloc : Option (Nat → Option label_t)) :
    ((addRowToMeleeMenu MAX_ROWS MAX_ROWS_ON_SCREEN menu label alloc).2 = -1 ↔
        (¬ menu.numRows < MAX_ROWS ∨
          (menu.numRowsAllocated < menu.numRows + 1 ∧ alloc = none))) ∧
      ((addRowToMeleeMenu MAX_ROWS MAX_ROWS_ON_SCREEN menu label alloc).2 = -1 →
        (addRowToMeleeMenu MAX_ROWS MAX_ROWS_ON_SCREEN menu label alloc).1 = menu) := by
  have hu : u8 (MAX_ROWS_ON_SCREEN : Int) ≠ 0 := by unfold u8; omega
  by_cases h : menu.numRows < MAX_ROWS
  · by_cases hg : menu.numRowsAllocated < menu.numRows + 1
    · cases alloc with
      | none =>
        rw [addRowToMeleeMenu_alloc_failed MAX_ROWS MAX_ROWS_ON_SCREEN menu label h hg]
        exact ⟨⟨fun _ => Or.inr ⟨hg, rfl⟩, fun _ => rfl⟩, fun _ => rfl⟩
      | some junk =>
        rw [addRowToMeleeMenu_grown MAX_ROWS MAX_ROWS_ON_SCREEN menu label junk h hg, if_neg hu]
        refine ⟨⟨fun e => absurd e (storeRow_snd_nonneg _ _), ?_⟩,
          fun e => absurd e (storeRow_snd_nonneg _ _)⟩
        rintro (h1 | ⟨_, h2⟩)
        · exact absurd h h1
        · exact absurd h2 (by simp)
    · rw [addRowToMeleeMenu_fits MAX_ROWS MAX_ROWS_ON_SCREEN menu label alloc h hg]
      refine ⟨⟨fun e => absurd e (storeRow_snd_nonneg _ _), ?_⟩,
        fun e => absurd e (storeRow_snd_nonneg _ _)⟩
      rintro (h1 | ⟨h2, _⟩)
      · exact absurd h h1
      · exact absurd h2 hg
  · rw [addRowToMeleeMenu_full MAX_ROWS MAX_ROWS_ON_SCREEN menu label alloc h]
    exact ⟨⟨fun _ => Or.inl h, fun _ => rfl⟩, fun _ => rfl⟩

theorem addRowToMeleeMenu_fails_iff_witness :
    5 % 256 ≠ 0 ∧
      (addRowToMeleeMenu 255 5 fullMenu "Sixth" none).2 = -1 ∧
      (addRowToMeleeMenu 255 5 fullMenu "Sixth" none).1 = fullMenu :=
  ⟨by decide, by decide,
    (addRowToMeleeMenu_fails_iff 255 5 (by decide) fullMenu "Sixth" none).2 (by decide)⟩

/-- C12. `resetMeleeMenu` yields `numRows = 0`, `selectedRow = 0`,
`firstRowOnScreen = 0`, every allocated row slot empty, the title and the
callback replaced by the arguments, and `numRowsAllocated` and the font
unchanged; a following `addRowToMeleeMenu` returns 0 (given `MAX_ROWS > 0` and
either an allocated slot or a growth that succeeds). -/
theorem resetMeleeMenu_spec (MAX_ROWS MAX_ROWS_ON_SCREEN : Nat) (menu : meleeMenu_t)
    (title : label_t) (cbFunc : meleeMenuCb) :
    (resetMeleeMenu menu title cbFunc).numRows = 0 ∧
      (resetMeleeMenu menu title cbFunc).selectedRow = 0 ∧
      (resetMeleeMenu menu title cbFunc).firstRowOnScreen = 0 ∧
      (∀ i, i < menu.numRowsAllocated → i < menu.rows.length →
        (resetMeleeMenu menu title cbFunc).rows.get? i = some none) ∧
      (resetMeleeMenu menu title cbFunc).title = title ∧
      (resetMeleeMenu menu title cbFunc).cbFunc = cbFunc ∧
      (resetMeleeMenu menu title cbFunc).numRowsAllocated = menu.numRowsAllocated ∧
      (resetMeleeMenu menu title cbFunc).fontH = menu.fontH ∧
      (∀ (label : label_t) (alloc : Option (Nat → Option label_t)), 0 < MAX_ROWS →
        (menu.numRowsAllocated < 1 →
          (maybeGrowRowsArray (resetMeleeMenu menu title cbFunc) menu.numRowsAllocated
            MAX_ROWS_ON_SCREEN alloc).2 ≠ 0) →
        (addRowToMeleeMenu MAX_ROWS MAX_ROWS_ON_SCREEN (resetMeleeMenu menu title cbFunc)
          label alloc).2 = 0) := by
  refine ⟨rfl, rfl, rfl, ?_, rfl, rfl, rfl, rfl, ?_⟩
  · intro i h1 h2
    unfold resetMeleeMenu
    dsimp only
    rw [List.get?_eq_getElem?, List.getElem?_append_left (by simp; omega)]
    rw [List.getElem?_replicate, if_pos (by omega)]
  · intro label alloc hmax hgrow
    have h0 : (resetMeleeMenu menu title cbFunc).numRows < MAX_ROWS := hmax
    by_cases hg : (resetMeleeMenu menu title cbFunc).numRowsAllocated <
        (resetMeleeMenu menu title cbFunc).numRows + 1
    · have hg' : menu.numRowsAllocated < 1 := hg
      have hnz := hgrow hg'
      cases alloc with
      | none => exact absurd rfl hnz
      | some junk =>
        have hu : u8 (MAX_ROWS_ON_SCREEN : Int) ≠ 0 := hnz
        rw [addRowToMeleeMenu_grown MAX_ROWS MAX_ROWS_ON_SCREEN _ label junk h0 hg, if_neg hu]
        rfl
    · rw [addRowToMeleeMenu_fits MAX_ROWS MAX_ROWS_ON_SCREEN _ label alloc h0 hg]
      rfl

theorem resetMeleeMenu_spec_witness :
    (2 < fullMenu.numRowsAllocated ∧ 2 < fullMenu.rows.length ∧
      (resetMeleeMenu fullMenu "Multiplayer" "fighterMultiplayerCharMenuCb").rows.get? 2 =
        some none) ∧
    (0 < 255 ∧
      (addRowToMeleeMenu 255 5 (resetMeleeMenu fullMenu "Multiplayer"
        "fighterMultiplayerCharMenuCb") "King Donut" none).2 = 0) :=
  ⟨⟨by decide, by decide,
      (resetMeleeMenu_spec 255 5 fullMenu "Multiplayer" "fighterMultiplayerCharMenuCb").2.2.2.1
        2 (by decide) (by decide)⟩,
    ⟨by decide,
      (resetMeleeMenu_spec 255 5 fullMenu "Multiplayer" "fighterMultiplayerCharMenuCb").2.2.2.2.2.2.2.2
        "King Donut" none (by decide) (by decide)⟩⟩

theorem addRowToMeleeMenu_cbFunc (MAX_ROWS M : Nat) (m : meleeMenu_t) (label : label_t)
    (alloc : Option (Nat → Option label_t)) :
    (addRowToMeleeMenu MAX_ROWS M m label alloc).1.cbFunc = m.cbFunc ∧
      (addRowToMeleeMenu MAX_ROWS M m label alloc).1.title = m.title := by
  by_cases h : m.numRows < MAX_ROWS
  · by_cases hgrow : m.numRowsAllocated < m.numRows + 1
    · cases alloc with
      | none =>
        rw [addRowToMeleeMenu_alloc_failed MAX_ROWS M m label h hgrow]
        exact ⟨rfl, rfl⟩
      | some junk =>
        rw [addRowToMeleeMenu_grown MAX_ROWS M m label junk h hgrow]
        split_ifs <;> exact ⟨rfl, rfl⟩
    · rw [addRowToMeleeMenu_fits MAX_ROWS M m label alloc h hgrow]
      exact ⟨rfl, rfl⟩
  · rw [addRowToMeleeMenu_full MAX_ROWS M m label alloc h]
    exact ⟨rfl, rfl⟩

theorem addRows_cbFunc (MAX_ROWS M : Nat)
    (adds : List (label_t × Option (Nat → Option label_t))) :
    ∀ m : meleeMenu_t, (addRows MAX_ROWS M m adds).1.cbFunc = m.cbFunc ∧
      (addRows MAX_ROWS M m adds).1.title = m.title := by
  induction adds with
  | nil => intro m; exact ⟨rfl, rfl⟩
  | cons a rest ih =>
    intro m
    obtain ⟨label, alloc⟩ := a
    obtain ⟨a1, a2⟩ := addRowToMeleeMenu_cbFunc MAX_ROWS M m label alloc
    obtain ⟨b1, b2⟩ := ih (addRowToMeleeMenu MAX_ROWS M m label alloc).1
    unfold addRows
    dsimp only
    exact ⟨by rw [b1, a1], by rw [b2, a2]⟩

set_option maxRecDepth 100000 in
/-- C13 (as stated) fails: on the fighter main menu with "HR Contest" selected,
START hands that label to `fighterMainMenuCb`, which resets and refills the
menu before `meleeMenuButton` returns: the title, the callback, the rows and
the selected row have changed. -/
theorem meleeMenuButton_confirm_rebuilds_menu :
    hrSelectedMenu.selectedRow = 1 ∧ hrSelectedMenu.selectedRow < hrSelectedMenu.numRows ∧
      hrSelectedMenu.title = "Swadge Bros" ∧
      (meleeMenuButton 5 exampleCbEnv hrSelectedMenu .START).2 =
        some ("fighterMainMenuCb", some (some "HR Contest")) ∧
      (meleeMenuButton 5 exampleCbEnv hrSelectedMenu .START).1.selectedRow = 0 ∧
      (meleeMenuButton 5 exampleCbEnv hrSelectedMenu .START).1.title = "HR Contest" ∧
      (meleeMenuButton 5 exampleCbEnv hrSelectedMenu .START).1.cbFunc = "fighterHrMenuCb" ∧
      (meleeMenuButton 5 exampleCbEnv hrSelectedMenu .START).1.rows =
        [some "King Donut", some "Sunny", some "Big Funkus", some "Back", none] ∧
      (meleeMenuButton 5 exampleCbEnv hrSelectedMenu .START).1 ≠ hrSelectedMenu := by
  decide

/-- C13 (amended). With `selectedRow < numRows`, a confirm button (START or
BTN_A) invokes the menu's callback once, with the content of the selected
row's slot; `meleeMenuButton` itself changes no field, so the menu it leaves
is the menu the callback leaves: the menu as it was when the callback does not
touch it, a rebuilt menu when the callback resets and refills it.  For rows
added by `addRowToMeleeMenu` the argument is the label passed to the call that
added the selected row. -/
theorem meleeMenuButton_confirm (MAX_ROWS MAX_ROWS_ON_SCREEN : Nat) (hmax : MAX_ROWS ≤ 255)
    (cb : menuCbEnv) :
    (∀ (menu : meleeMenu_t) (btn : buttonBit_t),
      menu.selectedRow < menu.numRows → menu.numRows ≤ menu.rows.length →
      btn = .START ∨ btn = .BTN_A →
      meleeMenuButton MAX_ROWS_ON_SCREEN cb menu btn =
          (cb menu.cbFunc (menu.rows.get? menu.selectedRow) menu,
            some (menu.cbFunc, menu.rows.get? menu.selectedRow)) ∧
        (∃ slot, menu.rows.get? menu.selectedRow = some slot) ∧
        (cb menu.cbFunc (menu.rows.get? menu.selectedRow) menu = menu →
          (meleeMenuButton MAX_ROWS_ON_SCREEN cb menu btn).1 = menu)) ∧
    (MAX_ROWS_ON_SCREEN ∣ MAX_ROWS →
      ∀ (menu : meleeMenu_t) (adds : List (label_t × Option (Nat → Option label_t)))
        (i : Nat) (btn : buttonBit_t),
        menu.numRows = 0 → rowsInv MAX_ROWS_ON_SCREEN menu →
        adds.length ≤ MAX_ROWS → (∀ a ∈ adds, a.2 ≠ none) → i < adds.length →
        btn = .START ∨ btn = .BTN_A →
        (meleeMenuButton MAX_ROWS_ON_SCREEN cb
            { (addRows MAX_ROWS MAX_ROWS_ON_SCREEN menu adds).1 with selectedRow := i } btn).2 =
          some (menu.cbFunc, (adds.get? i).map (fun a => some a.1))) := by
  constructor
  · intro menu btn hsel hlen hbtn
    have heq : meleeMenuButton MAX_ROWS_ON_SCREEN cb menu btn =
        (cb menu.cbFunc (menu.rows.get? menu.selectedRow) menu,
          some (menu.cbFunc, menu.rows.get? menu.selectedRow)) := by
      rcases hbtn with rfl | rfl <;> rfl
    refine ⟨heq, ?_, fun hk => ?_⟩
    · have hlt : menu.selectedRow < menu.rows.length := by omega
      exact ⟨menu.rows.get ⟨menu.selectedRow, hlt⟩, List.get?_eq_get hlt⟩
    · rw [heq]
      exact hk
  · intro hdiv menu adds i btn h0 hinv hlen hall hi hbtn
    obtain ⟨_, _, _, r4⟩ := addRows_spec MAX_ROWS MAX_ROWS_ON_SCREEN hmax hdiv adds menu hinv
      (by omega) hall
    have hrow := r4 i hi
    rw [h0, Nat.zero_add] at hrow
    have hcb := (addRows_cbFunc MAX_ROWS MAX_ROWS_ON_SCREEN adds menu).1
    rcases hbtn with rfl | rfl
    · show some (_, _) = _
      dsimp only
      rw [hrow, hcb]
    · show some (_, _) = _
      dsimp only
      rw [hrow, hcb]

set_option maxRecDepth 100000 in
theorem meleeMenuButton_confirm_witness :
    (255 ≤ 255 ∧ hrSelectedMenu.selectedRow < hrSelectedMenu.numRows ∧
      hrSelectedMenu.numRows ≤ hrSelectedMenu.rows.length ∧
      meleeMenuButton 5 exampleCbEnv hrSelectedMenu .BTN_A =
        (exampleCbEnv hrSelectedMenu.cbFunc
            (hrSelectedMenu.rows.get? hrSelectedMenu.selectedRow) hrSelectedMenu,
          some (hrSelectedMenu.cbFunc,
            hrSelectedMenu.rows.get? hrSelectedMenu.selectedRow))) ∧
    (5 ∣ 255 ∧ freshMenu.numRows = 0 ∧ rowsInv 5 freshMenu ∧
      (meleeMenuButton 5 exampleCbEnv
        { (addRows 255 5 freshMenu
            [("Multiplayer", some (fun _ => none)), ("HR Contest", some (fun _ => none))]).1
          with selectedRow := 1 } .START).2 =
        some ("fighterMainMenuCb", some (some "HR Contest"))) :=
  ⟨⟨by decide, by decide, by decide,
      ((meleeMenuButton_confirm 255 5 (by decide) exampleCbEnv).1 hrSelectedMenu .BTN_A
        (by decide) (by decide) (Or.inr rfl)).1⟩,
    ⟨by decide, rfl, freshMenu_rowsInv,
      (meleeMenuButton_confirm 255 5 (by decide) exampleCbEnv).2 (by decide) freshMenu
        [("Multiplayer", some (fun _ => none)), ("HR Contest", some (fun _ => none))] 1 .START
        rfl freshMenu_rowsInv (by decide) (by simp) (by decide) (Or.inl rfl)⟩⟩

set_option maxRecDepth 100000 in
/-- C14 (as stated) fails twice: SELECT shares the `case` of DOWN and moves the
selection; and START on the fighter main menu with "HR Contest" selected runs
`fighterMainMenuCb`, which rebuilds the menu, so that `selectedRow` is 0
instead of 1 when `meleeMenuButton` returns. -/
theorem meleeMenuButton_SELECT_START_move :
    (meleeMenuButton 5 exampleCbEnv exampleMenu .SELECT).1.selectedRow ≠
        exampleMenu.selectedRow ∧
      (meleeMenuButton 5 exampleCbEnv hrSelectedMenu .START).1.selectedRow ≠
        hrSelectedMenu.selectedRow := by
  decide

/-- C14 (amended). In `meleeMenuButton` itself only UP, DOWN and SELECT move the
selection: SELECT is handled exactly as DOWN; BTN_B, LEFT, RIGHT and any other
value leave `selectedRow`, `firstRowOnScreen`, `animateStartRow` and every
other field of the menu unchanged; START and BTN_A leave the menu that the
menu's callback leaves, so the three fields are unchanged when the callback
leaves them unchanged. -/
theorem meleeMenuButton_other_buttons (MAX_ROWS_ON_SCREEN : Nat) (cb : menuCbEnv)
    (menu : meleeMenu_t)
    (btn : buttonBit_t) (hup : btn ≠ .UP) (hdown : btn ≠ .DOWN) (hsel : btn ≠ .SELECT) :
    (btn ≠ .START → btn ≠ .BTN_A →
      (meleeMenuButton MAX_ROWS_ON_SCREEN cb menu btn).1 = menu ∧
        (meleeMenuButton MAX_ROWS_ON_SCREEN cb menu btn).1.selectedRow = menu.selectedRow ∧
        (meleeMenuButton MAX_ROWS_ON_SCREEN cb menu btn).1.firstRowOnScreen =
          menu.firstRowOnScreen ∧
        (meleeMenuButton MAX_ROWS_ON_SCREEN cb menu btn).1.animateStartRow =
          menu.animateStartRow) ∧
      (btn = .START ∨ btn = .BTN_A →
        (meleeMenuButton MAX_ROWS_ON_SCREEN cb menu btn).1 =
            cb menu.cbFunc (menu.rows.get? menu.selectedRow) menu ∧
          (meleeMenuButton MAX_ROWS_ON_SCREEN cb menu btn).1.selectedRow =
            (cb menu.cbFunc (menu.rows.get? menu.selectedRow) menu).selectedRow ∧
          (meleeMenuButton MAX_ROWS_ON_SCREEN cb menu btn).1.firstRowOnScreen =
            (cb menu.cbFunc (menu.rows.get? menu.selectedRow) menu).firstRowOnScreen ∧
          (meleeMenuButton MAX_ROWS_ON_SCREEN cb menu btn).1.animateStartRow =
            (cb menu.cbFunc (menu.rows.get? menu.selectedRow) menu).animateStartRow) ∧
      meleeMenuButton MAX_ROWS_ON_SCREEN cb menu .SELECT =
        meleeMenuButton MAX_ROWS_ON_SCREEN cb menu .DOWN := by
  cases btn with
  | UP => exact absurd rfl hup
  | DOWN => exact absurd rfl hdown
  | SELECT => exact absurd rfl hsel
  | LEFT => exact ⟨fun _ _ => ⟨rfl, rfl, rfl, rfl⟩, fun h => by simp at h, rfl⟩
  | RIGHT => exact ⟨fun _ _ => ⟨rfl, rfl, rfl, rfl⟩, fun h => by simp at h, rfl⟩
  | BTN_A => exact ⟨fun _ h => absurd rfl h, fun _ => ⟨rfl, rfl, rfl, rfl⟩, rfl⟩
  | BTN_B => exact ⟨fun _ _ => ⟨rfl, rfl, rfl, rfl⟩, fun h => by simp at h, rfl⟩
  | START => exact ⟨fun h _ => absurd rfl h, fun _ => ⟨rfl, rfl, rfl, rfl⟩, rfl⟩
  | other v => exact ⟨fun _ _ => ⟨rfl, rfl, rfl, rfl⟩, fun h => by simp at h, rfl⟩

set_option maxRecDepth 100000 in
theorem meleeMenuButton_other_buttons_witness :
    (buttonBit_t.BTN_B ≠ .UP ∧ buttonBit_t.BTN_B ≠ .DOWN ∧ buttonBit_t.BTN_B ≠ .SELECT ∧
      buttonBit_t.BTN_B ≠ .START ∧ buttonBit_t.BTN_B ≠ .BTN_A ∧
      (meleeMenuButton 5 exampleCbEnv hrSelectedMenu .BTN_B).1 = hrSelectedMenu) ∧
    (buttonBit_t.START ≠ .UP ∧ buttonBit_t.START ≠ .DOWN ∧ buttonBit_t.START ≠ .SELECT ∧
      (meleeMenuButton 5 exampleCbEnv hrSelectedMenu .START).1.selectedRow =
        (exampleCbEnv hrSelectedMenu.cbFunc
          (hrSelectedMenu.rows.get? hrSelectedMenu.selectedRow) hrSelectedMenu).selectedRow) :=
  ⟨⟨by decide, by decide, by decide, by decide, by decide,
      ((meleeMenuButton_other_buttons 5 exampleCbEnv hrSelectedMenu .BTN_B (by decide) (by decide)
        (by decide)).1 (by decide) (by decide)).1⟩,
    ⟨by decide, by decide, by decide,
      ((meleeMenuButton_other_buttons 5 exampleCbEnv hrSelectedMenu .START (by decide) (by decide)
        (by decide)).2.1 (Or.inl rfl)).2.1⟩⟩

/-! ### The multiplayer session: aborts, ignored packets, results -/

theorem take4_of_get? {α : Type} (l : List α) (a b c d : α)
    (h0 : l.get? 0 = some a) (h1 : l.get? 1 = some b) (h2 : l.get? 2 = some c)
    (h3 : l.get? 3 = some d) : l.take 4 = [a, b, c, d] := by
  match l, h0, h1, h2, h3 with
  | x0 :: x1 :: x2 :: x3 :: rest, h0, h1, h2, h3 =>
    simp only [List.get?_cons_zero, List.get?_cons_succ, Option.some.injEq] at h0 h1 h2 h3
    subst h0 h1 h2 h3
    rfl
  | [], h0, _, _, _ => simp at h0
  | [_], _, h1, _, _ => simp at h1
  | [_, _], _, _, h2, _ => simp at h2
  | [_, _, _], _, _, _, h3 => simp at h3

/-- A run of `addRowToMeleeMenu` calls that all fit the allocation stores the
labels in order, whatever the allocator would have answered. -/
theorem addRows_fits (MAX_ROWS M : Nat) (adds : List (label_t × alloc_t)) :
    ∀ m : meleeMenu_t, m.numRows + adds.length ≤ m.numRowsAllocated →
      m.numRowsAllocated ≤ m.rows.length → m.numRows + adds.length ≤ MAX_ROWS →
      m.numRows + adds.length ≤ 255 →
      (addRows MAX_ROWS M m adds).1.numRows = m.numRows + adds.length ∧
        (∀ i, i < m.numRows → (addRows MAX_ROWS M m adds).1.rows.get? i = m.rows.get? i) ∧
        (∀ i, i < adds.length →
          (addRows MAX_ROWS M m adds).1.rows.get? (m.numRows + i) =
            (adds.get? i).map (fun a => some a.1)) := by
  induction adds with
  | nil =>
    intro m _ _ _ _
    exact ⟨rfl, fun _ _ => rfl, fun i hi => absurd hi (Nat.not_lt_zero i)⟩
  | cons a rest ih =>
    intro m h1 h2 h3 h4
    obtain ⟨label, alloc⟩ := a
    rw [List.length_cons] at h1 h3 h4
    have hfit := addRowToMeleeMenu_fits MAX_ROWS M m label alloc (by omega) (by omega)
    obtain ⟨_, s2, s3, s4, s5, s6⟩ := storeRow_spec m label (by omega) (by omega)
    rw [← hfit] at s2 s3 s4 s5 s6
    obtain ⟨r1, r2, r3⟩ := ih (addRowToMeleeMenu MAX_ROWS M m label alloc).1
      (by rw [s3, s6]; omega) (by rw [s5, s6]; exact h2) (by rw [s3]; omega) (by rw [s3]; omega)
    unfold addRows
    dsimp only
    refine ⟨?_, ?_, ?_⟩
    · rw [r1, s3, List.length_cons]; omega
    · intro i hi
      rw [r2 i (by rw [s3]; omega), s4 i (by omega)]
    · intro i hi
      cases i with
      | zero =>
        rw [Nat.add_zero, r2 _ (by rw [s3]; omega), s2]
        rfl
      | succ j =>
        rw [List.length_cons] at hi
        have := r3 j (by omega)
        rw [s3] at this
        rw [show m.numRows + (j + 1) = m.numRows + 1 + j by omega, this]
        rfl

/-- The menu that `setFighterMainMenu` leaves when its storage holds four rows. -/
theorem setFighterMainMenu_menu (cfg : fighterCfg_t) (allocs : List alloc_t)
    (fm : fighterMenu_t) (h4 : 4 ≤ cfg.MAX_ROWS) (hal : 4 ≤ fm.menu.numRowsAllocated)
    (hlen : fm.menu.numRowsAllocated ≤ fm.menu.rows.length) :
    (setFighterMainMenu cfg allocs fm).menu.title = "Swadge Bros" ∧
      (setFighterMainMenu cfg allocs fm).menu.cbFunc = "fighterMainMenuCb" ∧
      (setFighterMainMenu cfg allocs fm).menu.numRows = 4 ∧
      (setFighterMainMenu cfg allocs fm).menu.rows.take 4 =
        [some "Multiplayer", some "HR Contest", some "Records", some "Exit"] ∧
      (setFighterMainMenu cfg allocs fm).menu.selectedRow = 0 ∧
      (setFighterMainMenu cfg allocs fm).menu.firstRowOnScreen = 0 := by
  have hrl : (resetMeleeMenu fm.menu str_swadgeBros "fighterMainMenuCb").rows.length =
      fm.menu.rows.length := by
    unfold resetMeleeMenu
    dsimp only
    rw [List.length_append, List.length_replicate, List.length_drop]
    omega
  obtain ⟨a1, _, a3⟩ := addRows_fits cfg.MAX_ROWS cfg.MAX_ROWS_ON_SCREEN
    [(str_multiplayer, allocs.getD 0 none), (str_hrContest, allocs.getD 1 none),
     (str_records, allocs.getD 2 none), (str_exit, allocs.getD 3 none)]
    (resetMeleeMenu fm.menu str_swadgeBros "fighterMainMenuCb")
    (by show 0 + 4 ≤ fm.menu.numRowsAllocated; omega)
    (by rw [hrl]; exact hlen) (by show 0 + 4 ≤ cfg.MAX_ROWS; omega) (by show 0 + 4 ≤ 255; omega)
  obtain ⟨b1, b2, _⟩ := addRows_fields cfg.MAX_ROWS cfg.MAX_ROWS_ON_SCREEN
    [(str_multiplayer, allocs.getD 0 none), (str_hrContest, allocs.getD 1 none),
     (str_records, allocs.getD 2 none), (str_exit, allocs.getD 3 none)]
    (resetMeleeMenu fm.menu str_swadgeBros "fighterMainMenuCb") (by show 0 < 256; omega)
  obtain ⟨c1, c2⟩ := addRows_cbFunc cfg.MAX_ROWS cfg.MAX_ROWS_ON_SCREEN
    [(str_multiplayer, allocs.getD 0 none), (str_hrContest, allocs.getD 1 none),
     (str_records, allocs.getD 2 none), (str_exit, allocs.getD 3 none)]
    (resetMeleeMenu fm.menu str_swadgeBros "fighterMainMenuCb")
  unfold setFighterMainMenu
  dsimp only
  refine ⟨c2, c1, a1, ?_, b1, b2⟩
  have g0 := a3 0 (by simp)
  have g1 := a3 1 (by simp)
  have g2 := a3 2 (by simp)
  have g3 := a3 3 (by simp)
  exact take4_of_get? _ _ _ _ _ g0 g1 g2 g3

/-- C15 (as stated) fails: after MSG_FAILED the characters and the stage chosen
so far are still stored. -/
theorem fighterP2pMsgTxCbFn_failed_keeps_selection :
    (fighterP2pMsgTxCbFn exampleCfg [] waitingSession .MSG_FAILED).characters.1 ≠
        exampleCfg.NO_CHARACTER ∧
      (fighterP2pMsgTxCbFn exampleCfg [] waitingSession .MSG_FAILED).stage ≠
        exampleCfg.NO_STAGE := by
  decide

/-- C15 (amended). A MSG_FAILED status puts the session on the top-level menu:
screen FIGHTER_MENU, title Swadge Bros, callback `fighterMainMenuCb`, the four
rows Multiplayer, HR Contest, Records, Exit, selection and viewport 0.  The
character slots, the stage and the call history are left as they were. -/
theorem fighterP2pMsgTxCbFn_failed (cfg : fighterCfg_t) (allocs : List alloc_t)
    (fm : fighterMenu_t) (h4 : 4 ≤ cfg.MAX_ROWS) (hal : 4 ≤ fm.menu.numRowsAllocated)
    (hlen : fm.menu.numRowsAllocated ≤ fm.menu.rows.length) :
    (fighterP2pMsgTxCbFn cfg allocs fm .MSG_FAILED).screen = .FIGHTER_MENU ∧
      (fighterP2pMsgTxCbFn cfg allocs fm .MSG_FAILED).menu.title = "Swadge Bros" ∧
      (fighterP2pMsgTxCbFn cfg allocs fm .MSG_FAILED).menu.cbFunc = "fighterMainMenuCb" ∧
      (fighterP2pMsgTxCbFn cfg allocs fm .MSG_FAILED).menu.numRows = 4 ∧
      (fighterP2pMsgTxCbFn cfg allocs fm .MSG_FAILED).menu.rows.take 4 =
        [some "Multiplayer", some "HR Contest", some "Records", some "Exit"] ∧
      (fighterP2pMsgTxCbFn cfg allocs fm .MSG_FAILED).menu.selectedRow = 0 ∧
      (fighterP2pMsgTxCbFn cfg allocs fm .MSG_FAILED).menu.firstRowOnScreen = 0 ∧
      (fighterP2pMsgTxCbFn cfg allocs fm .MSG_FAILED).characters = fm.characters ∧
      (fighterP2pMsgTxCbFn cfg allocs fm .MSG_FAILED).stage = fm.stage ∧
      (fighterP2pMsgTxCbFn cfg allocs fm .MSG_FAILED).calls = fm.calls := by
  obtain ⟨m1, m2, m3, m4, m5, m6⟩ := setFighterMainMenu_menu cfg allocs fm h4 hal hlen
  exact ⟨rfl, m1, m2, m3, m4, m5, m6, rfl, rfl, rfl⟩

theorem fighterP2pMsgTxCbFn_failed_witness :
    4 ≤ exampleCfg.MAX_ROWS ∧ 4 ≤ waitingSession.menu.numRowsAllocated ∧
      waitingSession.menu.numRowsAllocated ≤ waitingSession.menu.rows.length ∧
      (fighterP2pMsgTxCbFn exampleCfg [] waitingSession .MSG_FAILED).screen = .FIGHTER_MENU ∧
      (fighterP2pMsgTxCbFn exampleCfg [] waitingSession .MSG_FAILED).menu.rows.take 4 =
        [some "Multiplayer", some "HR Contest", some "Records", some "Exit"] :=
  ⟨by decide, by decide, by decide,
    (fighterP2pMsgTxCbFn_failed exampleCfg [] waitingSession (by decide) (by decide)
      (by decide)).1,
    (fighterP2pMsgTxCbFn_failed exampleCfg [] waitingSession (by decide) (by decide)
      (by decide)).2.2.2.2.1⟩

/-- C16 (as stated) fails: after CON_LOST the characters and the stage chosen so
far are still stored. -/
theorem fighterP2pConCbFn_lost_keeps_selection :
    (fighterP2pConCbFn exampleCfg [] waitingSession .CON_LOST).characters.1 ≠
        exampleCfg.NO_CHARACTER ∧
      (fighterP2pConCbFn exampleCfg [] waitingSession .CON_LOST).stage ≠
        exampleCfg.NO_STAGE := by
  decide

/-- C16 (amended). A CON_LOST event exits the game (one call of
`fighterExitGame`) and puts the session on the top-level menu: screen
FIGHTER_MENU with the four rows Multiplayer, HR Contest, Records, Exit and
selection 0.  The character slots and the stage are left as they were. -/
theorem fighterP2pConCbFn_lost (cfg : fighterCfg_t) (allocs : List alloc_t)
    (fm : fighterMenu_t) (h4 : 4 ≤ cfg.MAX_ROWS) (hal : 4 ≤ fm.menu.numRowsAllocated)
    (hlen : fm.menu.numRowsAllocated ≤ fm.menu.rows.length) :
    (fighterP2pConCbFn cfg allocs fm .CON_LOST).calls =
        fm.calls ++ [fighterCall_t.fighterExitGame] ∧
      (fighterP2pConCbFn cfg allocs fm .CON_LOST).screen = .FIGHTER_MENU ∧
      (fighterP2pConCbFn cfg allocs fm .CON_LOST).menu.title = "Swadge Bros" ∧
      (fighterP2pConCbFn cfg allocs fm .CON_LOST).menu.cbFunc = "fighterMainMenuCb" ∧
      (fighterP2pConCbFn cfg allocs fm .CON_LOST).menu.numRows = 4 ∧
      (fighterP2pConCbFn cfg allocs fm .CON_LOST).menu.rows.take 4 =
        [some "Multiplayer", some "HR Contest", some "Records", some "Exit"] ∧
      (fighterP2pConCbFn cfg allocs fm .CON_LOST).menu.selectedRow = 0 ∧
      (fighterP2pConCbFn cfg allocs fm .CON_LOST).menu.firstRowOnScreen = 0 ∧
      (fighterP2pConCbFn cfg allocs fm .CON_LOST).characters = fm.characters ∧
      (fighterP2pConCbFn cfg allocs fm .CON_LOST).stage = fm.stage := by
  obtain ⟨m1, m2, m3, m4, m5, m6⟩ := setFighterMainMenu_menu cfg allocs
    { fm with calls := fm.calls ++ [fighterCall_t.fighterExitGame] } h4 hal hlen
  exact ⟨rfl, rfl, m1, m2, m3, m4, m5, m6, rfl, rfl⟩

theorem fighterP2pConCbFn_lost_witness :
    4 ≤ exampleCfg.MAX_ROWS ∧ 4 ≤ waitingSession.menu.numRowsAllocated ∧
      waitingSession.menu.numRowsAllocated ≤ waitingSession.menu.rows.length ∧
      (fighterP2pConCbFn exampleCfg [] waitingSession .CON_LOST).calls =
        waitingSession.calls ++ [fighterCall_t.fighterExitGame] ∧
      (fighterP2pConCbFn exampleCfg [] waitingSession .CON_LOST).screen = .FIGHTER_MENU :=
  ⟨by decide, by decide, by decide,
    (fighterP2pConCbFn_lost exampleCfg [] waitingSession (by decide) (by decide)
      (by decide)).1,
    (fighterP2pConCbFn_lost exampleCfg [] waitingSession (by decide) (by decide)
      (by decide)).2.1⟩

theorem fighterCheckGameBegin_of_not_ready (cfg : fighterCfg_t) (fm : fighterMenu_t)
    (h : ¬ beginReady cfg fm) :
    fighterCheckGameBegin cfg.NO_CHARACTER cfg.NO_STAGE fm = fm := by
  unfold fighterCheckGameBegin
  rw [if_neg]
  intro hc
  exact h ⟨hc.2.1, hc.2.2.1, hc.2.2.2⟩

theorem fighterCheckGameBegin_of_ready (cfg : fighterCfg_t) (fm : fighterMenu_t)
    (hs : fm.screen ≠ .FIGHTER_GAME) (h : beginReady cfg fm) :
    fighterCheckGameBegin cfg.NO_CHARACTER cfg.NO_STAGE fm =
      { fm with
        screen := .FIGHTER_GAME
        calls := fm.calls ++ [fighterCall_t.fighterStartGame .MULTIPLAYER fm.characters fm.stage
          (decide (playOrder_t.GOING_FIRST = fm.playOrder))] } := by
  unfold fighterCheckGameBegin
  rw [if_pos ⟨hs, h.1, h.2.1, h.2.2⟩]

theorem fighterCheckGameBegin_ready_iff (cfg : fighterCfg_t) (fm : fighterMenu_t) :
    beginReady cfg (fighterCheckGameBegin cfg.NO_CHARACTER cfg.NO_STAGE fm) ↔
      beginReady cfg fm := by
  unfold fighterCheckGameBegin
  split_ifs <;> exact Iff.rfl

/-- On the menu screen, a received packet or a transmission status that does not
leave the begin condition true neither starts a match nor leaves the screen. -/
theorem fighterStep_msg_not_ready (cfg : fighterCfg_t)
    (asResult : (Nat → Nat) → fighterMpGameResult_t) (t : fighterMenu_t) (e : fighterEvt_t)
    (hs : t.screen = .FIGHTER_MENU) (he : e.isMsg)
    (hn : ¬ beginReady cfg (fighterStep cfg asResult t e)) :
    (fighterStep cfg asResult t e).screen = .FIGHTER_MENU ∧
      (fighterStep cfg asResult t e).calls = t.calls := by
  cases e with
  | conCb evt allocs => exact absurd he (by simp [fighterEvt_t.isMsg])
  | menuCb opt now allocs => exact absurd he (by simp [fighterEvt_t.isMsg])
  | msgRx payload len =>
    simp only [fighterStep] at hn ⊢
    unfold fighterP2pMsgRxCbFn at hn ⊢
    rw [hs] at hn ⊢
    dsimp only at hn ⊢
    by_cases h0 : payload 0 = fighterMessageType_t.CHAR_SEL_MSG.toNat
    · rw [if_pos h0] at hn ⊢
      rw [fighterCheckGameBegin_ready_iff] at hn
      rw [fighterCheckGameBegin_of_not_ready cfg _ hn]
      exact ⟨rfl, rfl⟩
    · rw [if_neg h0] at hn ⊢
      by_cases h1 : payload 0 = fighterMessageType_t.STAGE_SEL_MSG.toNat
      · rw [if_pos h1] at hn ⊢
        rw [fighterCheckGameBegin_ready_iff] at hn
        rw [fighterCheckGameBegin_of_not_ready cfg _ hn]
        exact ⟨rfl, rfl⟩
      · rw [if_neg h1]
        exact ⟨hs, rfl⟩
  | msgTx status allocs =>
    simp only [fighterStep] at hn ⊢
    cases status with
    | MSG_ACKED =>
      unfold fighterP2pMsgTxCbFn at hn ⊢
      dsimp only at hn ⊢
      split_ifs at hn ⊢ with h0
      · rw [fighterCheckGameBegin_ready_iff] at hn
        rw [fighterCheckGameBegin_of_not_ready cfg _ hn]
        exact ⟨hs, rfl⟩
      · exact ⟨hs, rfl⟩
    | MSG_FAILED => exact ⟨rfl, rfl⟩
    | other v => exact ⟨hs, rfl⟩

theorem fighterRun_msgs_not_ready (cfg : fighterCfg_t)
    (asResult : (Nat → Nat) → fighterMpGameResult_t) (evts : List fighterEvt_t) :
    ∀ t : fighterMenu_t, t.screen = .FIGHTER_MENU → (∀ e ∈ evts, e.isMsg) →
      (∀ k, k ≤ evts.length → ¬ beginReady cfg (fighterRun cfg asResult t (evts.take k))) →
      (fighterRun cfg asResult t evts).screen = .FIGHTER_MENU ∧
        (fighterRun cfg asResult t evts).calls = t.calls := by
  induction evts with
  | nil => intro t hs _ _; exact ⟨hs, rfl⟩
  | cons e rest ih =>
    intro t hs hmsg hn
    have h1 := hn 1 (by simp)
    simp only [List.take_succ_cons, List.take_zero, fighterRun, List.foldl_cons,
      List.foldl_nil] at h1
    obtain ⟨s1, c1⟩ := fighterStep_msg_not_ready cfg asResult t e hs
      (hmsg e (List.mem_cons_self _ _)) h1
    have := ih (fighterStep cfg asResult t e) s1
      (fun e' he' => hmsg e' (List.mem_cons_of_mem _ he'))
      (fun k hk => by
        have := hn (k + 1) (by simp; omega)
        simpa only [List.take_succ_cons, fighterRun, List.foldl_cons] using this)
    unfold fighterRun at this ⊢
    rw [List.foldl_cons]
    exact ⟨this.1, by rw [this.2, c1]⟩

theorem fighterP2pMsgRxCbFn_char_ready (cfg : fighterCfg_t)
    (asResult : (Nat → Nat) → fighterMpGameResult_t) (t : fighterMenu_t)
    (payload : Nat → Nat) (len : Nat) (hs : t.screen = .FIGHTER_MENU)
    (h0 : payload 0 = fighterMessageType_t.CHAR_SEL_MSG.toNat)
    (hready : beginReady cfg
      { t with
        characters := setCharacter t.characters
          (if playOrder_t.GOING_FIRST = t.playOrder then 1 else 0) (payload 1) }) :
    (fighterP2pMsgRxCbFn cfg asResult t payload len).screen = .FIGHTER_GAME ∧
      (fighterP2pMsgRxCbFn cfg asResult t payload len).calls = t.calls ++
        [fighterCall_t.fighterStartGame .MULTIPLAYER
          (setCharacter t.characters
            (if playOrder_t.GOING_FIRST = t.playOrder then 1 else 0) (payload 1))
          t.stage (decide (playOrder_t.GOING_FIRST = t.playOrder))] := by
  unfold fighterP2pMsgRxCbFn
  rw [hs] at hready ⊢
  dsimp only
  rw [if_pos h0, fighterCheckGameBegin_of_ready cfg _ (by simp) hready]
  exact ⟨rfl, rfl⟩

theorem fighterP2pMsgRxCbFn_stage_ready (cfg : fighterCfg_t)
    (asResult : (Nat → Nat) → fighterMpGameResult_t) (t : fighterMenu_t)
    (payload : Nat → Nat) (len : Nat) (hs : t.screen = .FIGHTER_MENU)
    (h0 : payload 0 = fighterMessageType_t.STAGE_SEL_MSG.toNat)
    (hready : beginReady cfg { t with stage := payload 1 }) :
    (fighterP2pMsgRxCbFn cfg asResult t payload len).screen = .FIGHTER_GAME ∧
      (fighterP2pMsgRxCbFn cfg asResult t payload len).calls = t.calls ++
        [fighterCall_t.fighterStartGame .MULTIPLAYER t.characters (payload 1)
          (decide (playOrder_t.GOING_FIRST = t.playOrder))] := by
  have h0n : ¬ payload 0 = fighterMessageType_t.CHAR_SEL_MSG.toNat := by
    rw [h0]; decide
  unfold fighterP2pMsgRxCbFn
  rw [hs] at hready ⊢
  dsimp only
  rw [if_neg h0n, if_pos h0, fighterCheckGameBegin_of_ready cfg _ (by simp) hready]
  exact ⟨rfl, rfl⟩

/-- C17 (as stated) fails: the going-first player picks King Donut, picks
Battlefield, and the stage-select message fails; the session is back on the
top-level menu, and the peer's character-select message then starts the match
without Multiplayer being chosen again. -/
theorem negotiation_not_terminal :
    (fighterRun exampleCfg exampleAsResult (connectingSession .GOING_FIRST)
        [.conCb .CON_ESTABLISHED [], .menuCb "King Donut" 5 [], .msgTx .MSG_ACKED [],
          .menuCb "Battlefield" 9 [], .msgTx .MSG_FAILED []]).screen = .FIGHTER_MENU ∧
      (fighterRun exampleCfg exampleAsResult (connectingSession .GOING_FIRST)
        [.conCb .CON_ESTABLISHED [], .menuCb "King Donut" 5 [], .msgTx .MSG_ACKED [],
          .menuCb "Battlefield" 9 [], .msgTx .MSG_FAILED [],
          .msgRx (payload2 0 2) 2]).screen = .FIGHTER_GAME ∧
      (fighterRun exampleCfg exampleAsResult (connectingSession .GOING_FIRST)
        [.conCb .CON_ESTABLISHED [], .menuCb "King Donut" 5 [], .msgTx .MSG_ACKED [],
          .menuCb "Battlefield" 9 [], .msgTx .MSG_FAILED [],
          .msgRx (payload2 0 2) 2]).calls =
        [fighterCall_t.p2pSendMsg (sentPayload_t.bytes [0, 0]) true,
          fighterCall_t.p2pSendMsg (sentPayload_t.bytes [1, 0]) true,
          fighterCall_t.fighterStartGame .MULTIPLAYER (0, 2) 0 true] := by
  decide

/-- C17 (amended). After a MSG_FAILED status the session is on the top-level menu
with the stored characters, the stored stage and the call history unchanged.
From there a sequence of received packets and transmission statuses leads
neither to the screen FIGHTER_GAME nor to a call of `fighterStartGame` as long
as the begin condition (both character slots and the stage set) holds in none
of the states passed.  The negotiation is not terminal, though: a received
CHAR_SEL_MSG or STAGE_SEL_MSG that completes the begin condition starts the
match. -/
theorem negotiation_after_failure (cfg : fighterCfg_t)
    (asResult : (Nat → Nat) → fighterMpGameResult_t) (allocs : List alloc_t)
    (fm : fighterMenu_t) :
    ((fighterP2pMsgTxCbFn cfg allocs fm .MSG_FAILED).screen = .FIGHTER_MENU ∧
      (fighterP2pMsgTxCbFn cfg allocs fm .MSG_FAILED).characters = fm.characters ∧
      (fighterP2pMsgTxCbFn cfg allocs fm .MSG_FAILED).stage = fm.stage ∧
      (fighterP2pMsgTxCbFn cfg allocs fm .MSG_FAILED).calls = fm.calls) ∧
    (∀ evts : List fighterEvt_t, (∀ e ∈ evts, e.isMsg) →
      (∀ k, k ≤ evts.length → ¬ beginReady cfg
        (fighterRun cfg asResult (fighterP2pMsgTxCbFn cfg allocs fm .MSG_FAILED)
          (evts.take k))) →
      (fighterRun cfg asResult (fighterP2pMsgTxCbFn cfg allocs fm .MSG_FAILED)
          evts).screen = .FIGHTER_MENU ∧
        (fighterRun cfg asResult (fighterP2pMsgTxCbFn cfg allocs fm .MSG_FAILED)
          evts).calls = fm.calls) ∧
    (∀ (payload : Nat → Nat) (len : Nat),
      payload 0 = fighterMessageType_t.CHAR_SEL_MSG.toNat →
      beginReady cfg
        { fm with
          characters := setCharacter fm.characters
            (if playOrder_t.GOING_FIRST = fm.playOrder then 1 else 0) (payload 1) } →
      (fighterP2pMsgRxCbFn cfg asResult (fighterP2pMsgTxCbFn cfg allocs fm .MSG_FAILED)
          payload len).screen = .FIGHTER_GAME ∧
        (fighterP2pMsgRxCbFn cfg asResult (fighterP2pMsgTxCbFn cfg allocs fm .MSG_FAILED)
          payload len).calls = fm.calls ++
            [fighterCall_t.fighterStartGame .MULTIPLAYER
              (setCharacter fm.characters
                (if playOrder_t.GOING_FIRST = fm.playOrder then 1 else 0) (payload 1))
              fm.stage (decide (playOrder_t.GOING_FIRST = fm.playOrder))]) ∧
    (∀ (payload : Nat → Nat) (len : Nat),
      payload 0 = fighterMessageType_t.STAGE_SEL_MSG.toNat →
      beginReady cfg { fm with stage := payload 1 } →
      (fighterP2pMsgRxCbFn cfg asResult (fighterP2pMsgTxCbFn cfg allocs fm .MSG_FAILED)
          payload len).screen = .FIGHTER_GAME ∧
        (fighterP2pMsgRxCbFn cfg asResult (fighterP2pMsgTxCbFn cfg allocs fm .MSG_FAILED)
          payload len).calls = fm.calls ++
            [fighterCall_t.fighterStartGame .MULTIPLAYER fm.characters (payload 1)
              (decide (playOrder_t.GOING_FIRST = fm.playOrder))]) := by
  refine ⟨⟨rfl, rfl, rfl, rfl⟩, ?_, ?_, ?_⟩
  · intro evts hmsg hn
    exact fighterRun_msgs_not_ready cfg asResult evts _ rfl hmsg hn
  · intro payload len h0 hready
    exact fighterP2pMsgRxCbFn_char_ready cfg asResult _ payload len rfl h0 hready
  · intro payload len h0 hready
    exact fighterP2pMsgRxCbFn_stage_ready cfg asResult _ payload len rfl h0 hready

theorem negotiation_after_failure_witness :
    ((fighterRun exampleCfg exampleAsResult
        (fighterP2pMsgTxCbFn exampleCfg [] waitingSession .MSG_FAILED)
        [.msgRx (payload2 1 1) 2]).screen = .FIGHTER_MENU ∧
      (fighterRun exampleCfg exampleAsResult
        (fighterP2pMsgTxCbFn exampleCfg [] waitingSession .MSG_FAILED)
        [.msgRx (payload2 1 1) 2]).calls = waitingSession.calls) ∧
    ((fighterP2pMsgRxCbFn exampleCfg exampleAsResult
        (fighterP2pMsgTxCbFn exampleCfg [] waitingSession .MSG_FAILED)
        (payload2 0 2) 2).screen = .FIGHTER_GAME ∧
      (fighterP2pMsgRxCbFn exampleCfg exampleAsResult
        (fighterP2pMsgTxCbFn exampleCfg [] waitingSession .MSG_FAILED)
        (payload2 0 2) 2).calls = waitingSession.calls ++
          [fighterCall_t.fighterStartGame .MULTIPLAYER
            (setCharacter waitingSession.characters
              (if playOrder_t.GOING_FIRST = waitingSession.playOrder then 1 else 0)
              (payload2 0 2 1))
            waitingSession.stage
            (decide (playOrder_t.GOING_FIRST = waitingSession.playOrder))]) :=
  ⟨(negotiation_after_failure exampleCfg exampleAsResult [] waitingSession).2.1
      [.msgRx (payload2 1 1) 2] (by simp [fighterEvt_t.isMsg])
      (by
        intro k hk
        have hk2 : k = 0 ∨ k = 1 := by simp at hk; omega
        rcases hk2 with rfl | rfl <;> unfold beginReady <;> decide),
    (negotiation_after_failure exampleCfg exampleAsResult [] waitingSession).2.2.1
      (payload2 0 2) 2 (by decide) (by unfold beginReady; decide)⟩

/-- C18. A received payload whose first byte is not a message type handled on
the current screen - anything other than CHAR_SEL_MSG and STAGE_SEL_MSG on the
menu, connecting and waiting screens; anything other than BUTTON_INPUT_MSG,
SCENE_COMPOSED_MSG and MP_GAME_OVER_MSG on the game screen; any payload at all
on the home-run-result, multiplayer-result and records screens - is ignored:
`fighterP2pMsgRxCbFn` returns the whole session state unchanged, the list of
calls made (game and result functions among them) included. -/
theorem fighterP2pMsgRxCbFn_ignores_unhandled (cfg : fighterCfg_t)
    (asResult : (Nat → Nat) → fighterMpGameResult_t) (fm : fighterMenu_t)
    (payload : Nat → Nat) (len : Nat)
    (h : ((fm.screen = .FIGHTER_MENU ∨ fm.screen = .FIGHTER_CONNECTING ∨
            fm.screen = .FIGHTER_WAITING) ∧
          payload 0 ≠ fighterMessageType_t.CHAR_SEL_MSG.toNat ∧
          payload 0 ≠ fighterMessageType_t.STAGE_SEL_MSG.toNat) ∨
        (fm.screen = .FIGHTER_GAME ∧
          payload 0 ≠ fighterMessageType_t.BUTTON_INPUT_MSG.toNat ∧
          payload 0 ≠ fighterMessageType_t.SCENE_COMPOSED_MSG.toNat ∧
          payload 0 ≠ fighterMessageType_t.MP_GAME_OVER_MSG.toNat) ∨
        (fm.screen = .FIGHTER_HR_RESULT ∨ fm.screen = .FIGHTER_MP_RESULT ∨
          fm.screen = .FIGHTER_RECORDS)) :
    fighterP2pMsgRxCbFn cfg asResult fm payload len = fm := by
  unfold fighterP2pMsgRxCbFn
  rcases h with ⟨hs, h0, h1⟩ | ⟨hs, h2, h3, h4⟩ | hs
  · rcases hs with hs | hs | hs <;> rw [hs] <;> dsimp only <;> rw [if_neg h0, if_neg h1]
  · rw [hs]
    dsimp only
    rw [if_neg (Ne.symm h2), if_neg (Ne.symm h3), if_neg (Ne.symm h4)]
  · rcases hs with hs | hs | hs <;> rw [hs]

theorem fighterP2pMsgRxCbFn_ignores_unhandled_witness :
    fighterP2pMsgRxCbFn exampleCfg exampleAsResult exampleSession (payload2 2 9) 2 =
      exampleSession :=
  fighterP2pMsgRxCbFn_ignores_unhandled exampleCfg exampleAsResult exampleSession
    (payload2 2 9) 2 (Or.inl ⟨Or.inr (Or.inr rfl), by decide, by decide⟩)

/-- C19. The sender's `fighterShowMpResult` sends, acknowledged, the result
struct with type MP_GAME_OVER_MSG and the seven values, shows its own result
and sets its screen to FIGHTER_MP_RESULT.  A peer on the game screen that
receives that struct (first byte MP_GAME_OVER_MSG) sets its screen to
FIGHTER_MP_RESULT, shows the same round time with the two players exchanged -
its own character, KOs and damage are the sender's `other` values and its
opponent's are the sender's `self` values - and then exits the game; nothing
else of its state changes. -/
theorem fighterShowMpResult_received (cfg : fighterCfg_t)
    (asResult : (Nat → Nat) → fighterMpGameResult_t) (sender receiver : fighterMenu_t)
    (roundTimeMs : Nat) (self : fightingCharacter_t) (selfKOs selfDmg : Int)
    (other : fightingCharacter_t) (otherKOs otherDmg : Int)
    (payload : Nat → Nat) (len : Nat)
    (hs : receiver.screen = .FIGHTER_GAME)
    (h0 : payload 0 = fighterMessageType_t.MP_GAME_OVER_MSG.toNat)
    (hres : fighterCall_t.p2pSendMsg (sentPayload_t.result (asResult payload)) true ∈
      ((fighterShowMpResult sender roundTimeMs self selfKOs selfDmg
        other otherKOs otherDmg).calls.drop sender.calls.length)) :
    (fighterShowMpResult sender roundTimeMs self selfKOs selfDmg other otherKOs otherDmg) =
      { sender with
        screen := .FIGHTER_MP_RESULT
        calls := sender.calls ++
          [fighterCall_t.p2pSendMsg (sentPayload_t.result
              { msgType := fighterMessageType_t.MP_GAME_OVER_MSG.toNat
                roundTimeMs := roundTimeMs
                self := self, selfKOs := selfKOs, selfDmg := selfDmg
                other := other, otherKOs := otherKOs, otherDmg := otherDmg }) true,
            fighterCall_t.initFighterMpResult roundTimeMs self selfKOs selfDmg
              other otherKOs otherDmg] } ∧
    fighterP2pMsgRxCbFn cfg asResult receiver payload len =
      { receiver with
        screen := .FIGHTER_MP_RESULT
        calls := receiver.calls ++
          [fighterCall_t.initFighterMpResult roundTimeMs other otherKOs otherDmg
              self selfKOs selfDmg,
            fighterCall_t.fighterExitGame] } := by
  refine ⟨by simp [fighterShowMpResult], ?_⟩
  have hres2 : asResult payload =
      { msgType := fighterMessageType_t.MP_GAME_OVER_MSG.toNat
        roundTimeMs := roundTimeMs
        self := self, selfKOs := selfKOs, selfDmg := selfDmg
        other := other, otherKOs := otherKOs, otherDmg := otherDmg } := by
    simpa [fighterShowMpResult] using hres
  have h2 : ¬ fighterMessageType_t.BUTTON_INPUT_MSG.toNat = payload 0 := by rw [h0]; decide
  have h3 : ¬ fighterMessageType_t.SCENE_COMPOSED_MSG.toNat = payload 0 := by rw [h0]; decide
  unfold fighterP2pMsgRxCbFn
  rw [hs]
  dsimp only
  rw [if_neg h2, if_neg h3, if_pos h0.symm, hres2]
  simp

theorem fighterShowMpResult_received_witness :
    fighterShowMpResult exampleSession 1000 0 2 50 1 1 30 =
      { exampleSession with
        screen := .FIGHTER_MP_RESULT
        calls := exampleSession.calls ++
          [fighterCall_t.p2pSendMsg (sentPayload_t.result
              { msgType := fighterMessageType_t.MP_GAME_OVER_MSG.toNat
                roundTimeMs := 1000
                self := 0, selfKOs := 2, selfDmg := 50
                other := 1, otherKOs := 1, otherDmg := 30 }) true,
            fighterCall_t.initFighterMpResult 1000 0 2 50 1 1 30] } ∧
    fighterP2pMsgRxCbFn exampleCfg exampleAsResult gameSession
        (fun i => [4, 1000, 0, 1, 50, 30, 2, 1].getD i 0) 8 =
      { gameSession with
        screen := .FIGHTER_MP_RESULT
        calls := gameSession.calls ++
          [fighterCall_t.initFighterMpResult 1000 1 1 30 0 2 50,
            fighterCall_t.fighterExitGame] } :=
  fighterShowMpResult_received exampleCfg exampleAsResult exampleSession gameSession
    1000 0 2 50 1 1 30 (fun i => [4, 1000, 0, 1, 50, 30, 2, 1].getD i 0) 8 rfl rfl
    (by decide)

/-! ### Order-independent match start -/

theorem negView_fighterCheckGameBegin (cfg : fighterCfg_t) (fm : fighterMenu_t) :
    negView (fighterCheckGameBegin cfg.NO_CHARACTER cfg.NO_STAGE fm) =
      viewCheck cfg (negView fm) := by
  unfold fighterCheckGameBegin viewCheck
  by_cases h : fm.screen ≠ .FIGHTER_GAME ∧ fm.characters.1 ≠ cfg.NO_CHARACTER ∧
      fm.characters.2 ≠ cfg.NO_CHARACTER ∧ fm.stage ≠ cfg.NO_STAGE
  · rw [if_pos h, if_pos (by simpa [negView] using h)]
    simp [negView, List.filter_append, fighterCall_t.isStart]
  · rw [if_neg h, if_neg (by simpa [negView] using h)]

theorem setFighterMultiplayerStageSelMenu_cbFunc (cfg : fighterCfg_t) (allocs : List alloc_t)
    (fm : fighterMenu_t) :
    (setFighterMultiplayerStageSelMenu cfg allocs fm).menu.cbFunc =
      "fighterMultiplayerStageMenuCb" := by
  simp [setFighterMultiplayerStageSelMenu, addRows_cbFunc, resetMeleeMenu]

theorem setFighterMultiplayerCharSelMenu_cbFunc (cfg : fighterCfg_t) (allocs : List alloc_t)
    (fm : fighterMenu_t) :
    (setFighterMultiplayerCharSelMenu cfg allocs fm).menu.cbFunc =
      "fighterMultiplayerCharMenuCb" := by
  simp [setFighterMultiplayerCharSelMenu, addRows_cbFunc, resetMeleeMenu]

theorem negView_charMenuCb (cfg : fighterCfg_t) (par : negPar_t) (sel : negSel_t)
    (fm : fighterMenu_t) (hok : negTokOk cfg par sel .Lc) :
    negView (fighterMultiplayerCharMenuCb cfg par.allocs par.now fm par.lc) =
      (if playOrder_t.GOING_FIRST = fm.playOrder then
        { negView fm with
          characters := setCharacter fm.characters 0 sel.own
          lastSentMsg := .CHAR_SEL_MSG
          cbFunc := "fighterMultiplayerStageMenuCb"
          screen := .FIGHTER_MENU }
      else
        { negView fm with
          characters := setCharacter fm.characters 1 sel.own
          lastSentMsg := .CHAR_SEL_MSG
          screen := .FIGHTER_WAITING }) := by
  unfold negTokOk at hok
  rcases hok with ⟨hl, hv⟩ | ⟨hl, hv⟩ | ⟨hl, hv⟩ <;>
    by_cases hf : playOrder_t.GOING_FIRST = fm.playOrder <;>
    simp [fighterMultiplayerCharMenuCb, hl, hv, hf, negView, str_charKD, str_charSN,
      str_charBF, List.filter_append, fighterCall_t.isStart,
      setFighterMultiplayerStageSelMenu, addRows_cbFunc, resetMeleeMenu]

theorem negView_stageMenuCb (cfg : fighterCfg_t) (par : negPar_t) (sel : negSel_t)
    (fm : fighterMenu_t) (hok : negTokOk cfg par sel .Ls) :
    negView (fighterMultiplayerStageMenuCb cfg par.now fm par.ls) =
      { negView fm with
        stage := sel.stage
        lastSentMsg := .STAGE_SEL_MSG
        screen := .FIGHTER_WAITING } := by
  unfold negTokOk at hok
  rcases hok with ⟨hl, hv⟩ | ⟨hl, hv⟩ <;>
    simp [fighterMultiplayerStageMenuCb, hl, hv, negView, str_stgBF, str_stgFD,
      List.filter_append, fighterCall_t.isStart]

theorem negView_rx_char (cfg : fighterCfg_t)
    (asResult : (Nat → Nat) → fighterMpGameResult_t) (fm : fighterMenu_t)
    (payload : Nat → Nat) (len : Nat)
    (h0 : payload 0 = fighterMessageType_t.CHAR_SEL_MSG.toNat) :
    negView (fighterP2pMsgRxCbFn cfg asResult fm payload len) =
      (if fm.screen = .FIGHTER_MENU ∨ fm.screen = .FIGHTER_CONNECTING ∨
          fm.screen = .FIGHTER_WAITING then
        viewCheck cfg { negView fm with
          characters := setCharacter fm.characters
            (if playOrder_t.GOING_FIRST = fm.playOrder then 1 else 0) (payload 1) }
      else negView fm) := by
  have h2 : ¬ fighterMessageType_t.BUTTON_INPUT_MSG.toNat = payload 0 := by rw [h0]; decide
  have h3 : ¬ fighterMessageType_t.SCENE_COMPOSED_MSG.toNat = payload 0 := by rw [h0]; decide
  have h4 : ¬ fighterMessageType_t.MP_GAME_OVER_MSG.toNat = payload 0 := by rw [h0]; decide
  unfold fighterP2pMsgRxCbFn
  cases hs : fm.screen <;> dsimp only <;>
    (try simp only [if_pos h0, if_neg h2, if_neg h3, if_neg h4,
      negView_fighterCheckGameBegin]) <;>
    simp [negView, hs]

theorem negView_rx_stage (cfg : fighterCfg_t)
    (asResult : (Nat → Nat) → fighterMpGameResult_t) (fm : fighterMenu_t)
    (payload : Nat → Nat) (len : Nat)
    (h0 : payload 0 = fighterMessageType_t.STAGE_SEL_MSG.toNat) :
    negView (fighterP2pMsgRxCbFn cfg asResult fm payload len) =
      (if fm.screen = .FIGHTER_MENU ∨ fm.screen = .FIGHTER_CONNECTING ∨
          fm.screen = .FIGHTER_WAITING then
        viewCheck cfg { negView fm with stage := payload 1 }
      else negView fm) := by
  have h1 : ¬ payload 0 = fighterMessageType_t.CHAR_SEL_MSG.toNat := by rw [h0]; decide
  have h2 : ¬ fighterMessageType_t.BUTTON_INPUT_MSG.toNat = payload 0 := by rw [h0]; decide
  have h3 : ¬ fighterMessageType_t.SCENE_COMPOSED_MSG.toNat = payload 0 := by rw [h0]; decide
  have h4 : ¬ fighterMessageType_t.MP_GAME_OVER_MSG.toNat = payload 0 := by rw [h0]; decide
  unfold fighterP2pMsgRxCbFn
  cases hs : fm.screen <;> dsimp only <;>
    (try simp only [if_pos h0, if_neg h1, if_neg h2, if_neg h3, if_neg h4,
      negView_fighterCheckGameBegin]) <;>
    simp [negView, hs]

theorem negView_tx_acked (cfg : fighterCfg_t) (allocs : List alloc_t) (fm : fighterMenu_t) :
    negView (fighterP2pMsgTxCbFn cfg allocs fm .MSG_ACKED) =
      (if fm.lastSentMsg = .CHAR_SEL_MSG ∨ fm.lastSentMsg = .STAGE_SEL_MSG then
        viewCheck cfg (negView fm)
      else negView fm) := by
  unfold fighterP2pMsgTxCbFn
  dsimp only
  split_ifs
  · exact negView_fighterCheckGameBegin cfg fm
  · rfl

/-- Where the view determines the effect of a negotiation event, the session's
handler has that effect. -/
theorem negView_fighterStep (cfg : fighterCfg_t)
    (asResult : (Nat → Nat) → fighterMpGameResult_t) (par : negPar_t) (sel : negSel_t)
    (fm : fighterMenu_t) (tok : negTok_t) (w : negView_t)
    (hok : negTokOk cfg par sel tok) (h : viewStep cfg sel (negView fm) tok = some w) :
    negView (fighterStep cfg asResult fm (negEvt par tok)) = w := by
  cases tok with
  | Lc =>
    simp only [negEvt, fighterStep]
    simp only [viewStep] at h
    by_cases hs : fm.screen = .FIGHTER_MENU
    · have hs2 : (negView fm).screen = .FIGHTER_MENU := hs
      rw [if_pos hs]
      rw [if_pos hs2] at h
      by_cases hc : (negView fm).cbFunc = "fighterMultiplayerCharMenuCb"
      · rw [if_pos hc] at h
        have hc2 : fm.menu.cbFunc = "fighterMultiplayerCharMenuCb" := hc
        have : fighterMenuCb cfg par.allocs par.now fm par.lc =
            fighterMultiplayerCharMenuCb cfg par.allocs par.now fm par.lc := by
          simp [fighterMenuCb, hc2]
        rw [this, negView_charMenuCb cfg par sel fm hok]
        by_cases hf : playOrder_t.GOING_FIRST = fm.playOrder
        · have hf2 : playOrder_t.GOING_FIRST = (negView fm).playOrder := hf
          simp only [if_pos hf2, if_pos hf] at h ⊢
          simpa [negView] using h
        · have hf2 : ¬ playOrder_t.GOING_FIRST = (negView fm).playOrder := hf
          simp only [if_neg hf2, if_neg hf] at h ⊢
          simpa [negView] using h
      · rw [if_neg hc] at h
        exact absurd h (by simp)
    · have hs2 : ¬ (negView fm).screen = .FIGHTER_MENU := hs
      rw [if_neg hs]
      rw [if_neg hs2] at h
      exact Option.some.inj h
  | Ls =>
    simp only [negEvt, fighterStep]
    simp only [viewStep] at h
    by_cases hs : fm.screen = .FIGHTER_MENU
    · have hs2 : (negView fm).screen = .FIGHTER_MENU := hs
      rw [if_pos hs]
      rw [if_pos hs2] at h
      by_cases hc : (negView fm).cbFunc = "fighterMultiplayerStageMenuCb"
      · rw [if_pos hc] at h
        have hc2 : fm.menu.cbFunc = "fighterMultiplayerStageMenuCb" := hc
        have : fighterMenuCb cfg par.allocs par.now fm par.ls =
            fighterMultiplayerStageMenuCb cfg par.now fm par.ls := by
          simp [fighterMenuCb, hc2]
        rw [this, negView_stageMenuCb cfg par sel fm hok]
        simpa [negView] using h
      · rw [if_neg hc] at h
        exact absurd h (by simp)
    · have hs2 : ¬ (negView fm).screen = .FIGHTER_MENU := hs
      rw [if_neg hs]
      rw [if_neg hs2] at h
      exact Option.some.inj h
  | Rc =>
    simp only [negEvt, fighterStep]
    rw [negView_rx_char cfg asResult fm par.pc par.len hok.1, hok.2]
    simp only [viewStep] at h
    have e1 : (negView fm).screen = fm.screen := rfl
    have e2 : (negView fm).playOrder = fm.playOrder := rfl
    have e3 : (negView fm).characters = fm.characters := rfl
    rw [e1, e2, e3] at h
    split_ifs at h ⊢ <;> exact Option.some.inj h
  | Rs =>
    simp only [negEvt, fighterStep]
    rw [negView_rx_stage cfg asResult fm par.ps par.len hok.1, hok.2]
    simp only [viewStep] at h
    have e1 : (negView fm).screen = fm.screen := rfl
    rw [e1] at h
    split_ifs at h ⊢ <;> exact Option.some.inj h
  | K =>
    simp only [negEvt, fighterStep]
    rw [negView_tx_acked]
    simp only [viewStep] at h
    have e1 : (negView fm).lastSentMsg = fm.lastSentMsg := rfl
    rw [e1] at h
    split_ifs at h ⊢ <;> exact Option.some.inj h

theorem negView_fighterRun (cfg : fighterCfg_t)
    (asResult : (Nat → Nat) → fighterMpGameResult_t) (par : negPar_t) (sel : negSel_t)
    (toks : List negTok_t) :
    ∀ (fm : fighterMenu_t) (w : negView_t), (∀ tok ∈ toks, negTokOk cfg par sel tok) →
      viewRun cfg sel (negView fm) toks = some w →
      negView (fighterRun cfg asResult fm (toks.map (negEvt par))) = w := by
  induction toks with
  | nil =>
    intro fm w _ h
    exact Option.some.inj h
  | cons t ts ih =>
    intro fm w hok h
    simp only [viewRun] at h
    cases hstep : viewStep cfg sel (negView fm) t with
    | none => rw [hstep] at h; exact absurd h (by simp)
    | some u =>
      rw [hstep] at h
      have hu := negView_fighterStep cfg asResult par sel fm t u
        (hok t (List.mem_cons_self _ _)) hstep
      have := ih (fighterStep cfg asResult fm (negEvt par t)) w
        (fun tok htok => hok tok (List.mem_cons_of_mem _ htok)) (by rw [hu]; exact h)
      simpa [fighterRun] using this

theorem mem_insertAll (a : negTok_t) (s t : List negTok_t) :
    s ++ a :: t ∈ insertAll a (s ++ t) := by
  induction s with
  | nil =>
    cases t with
    | nil => simp [insertAll]
    | cons b t => simp [insertAll]
  | cons b s ih =>
    simp only [List.cons_append, insertAll, List.mem_cons, List.mem_map]
    exact Or.inr ⟨_, ih, rfl⟩

theorem mem_allOrders (l : List negTok_t) :
    ∀ toks : List negTok_t, toks.Perm l → toks ∈ allOrders l := by
  induction l with
  | nil =>
    intro toks hp
    rw [List.perm_nil.1 hp]
    simp [allOrders]
  | cons a l ih =>
    intro toks hp
    have ha : a ∈ toks := hp.symm.subset (List.mem_cons_self a l)
    obtain ⟨s, t, rfl⟩ := List.append_of_mem ha
    have hp2 : (s ++ t).Perm l :=
      List.Perm.cons_inv ((List.perm_middle.symm).trans hp)
    simp only [allOrders, List.mem_flatMap]
    exact ⟨s ++ t, ih _ hp2, mem_insertAll a s t⟩

set_option maxRecDepth 100000 in
theorem negOrdersFirst_complete (toks : List negTok_t) (hp : toks.Perm negToksFirst)
    (hv : validOrder toks) : toks ∈ negOrdersFirst := by
  have h : ∀ t ∈ allOrders [negTok_t.Lc, .Ls, .Rc, .K, .K],
      validOrder t → t ∈ negOrdersFirst := by decide
  exact h toks (mem_allOrders _ toks hp) hv

set_option maxRecDepth 100000 in
theorem negOrdersSecond_complete (toks : List negTok_t) (hp : toks.Perm negToksSecond)
    (hv : validOrder toks) : toks ∈ negOrdersSecond := by
  have h : ∀ t ∈ allOrders [negTok_t.Lc, .Rc, .Rs, .K],
      validOrder t → t ∈ negOrdersSecond := by decide
  exact h toks (mem_allOrders _ toks hp) hv

theorem viewRun_first (cfg : fighterCfg_t) (sel : negSel_t) (l0 : fighterMessageType_t)
    (st0 : List fighterCall_t) (hown : sel.own ≠ cfg.NO_CHARACTER)
    (hpeer : sel.peer ≠ cfg.NO_CHARACTER) (hstg : sel.stage ≠ cfg.NO_STAGE) :
    ∀ toks ∈ negOrdersFirst,
      viewRun cfg sel (negViewStart cfg .GOING_FIRST l0 st0) toks =
        some { screen := .FIGHTER_GAME, cbFunc := "fighterMultiplayerStageMenuCb",
               playOrder := .GOING_FIRST, characters := (sel.own, sel.peer),
               stage := sel.stage, lastSentMsg := .STAGE_SEL_MSG,
               starts := st0 ++ [fighterCall_t.fighterStartGame .MULTIPLAYER
                 (sel.own, sel.peer) sel.stage true] } := by
  simp only [negOrdersFirst, List.forall_mem_cons, List.not_mem_nil, false_implies,
    implies_true, and_true]
  refine ⟨?_, ?_, ?_, ?_, ?_, ?_, ?_, ?_, ?_, ?_⟩ <;>
    simp [viewRun, viewStep, viewCheck, negViewStart, setCharacter, hown, hpeer, hstg]

theorem viewRun_second (cfg : fighterCfg_t) (sel : negSel_t) (l0 : fighterMessageType_t)
    (st0 : List fighterCall_t) (hown : sel.own ≠ cfg.NO_CHARACTER)
    (hpeer : sel.peer ≠ cfg.NO_CHARACTER) (hstg : sel.stage ≠ cfg.NO_STAGE) :
    ∀ toks ∈ negOrdersSecond,
      viewRun cfg sel (negViewStart cfg .GOING_SECOND l0 st0) toks =
        some { screen := .FIGHTER_GAME, cbFunc := "fighterMultiplayerCharMenuCb",
               playOrder := .GOING_SECOND, characters := (sel.peer, sel.own),
               stage := sel.stage, lastSentMsg := .CHAR_SEL_MSG,
               starts := st0 ++ [fighterCall_t.fighterStartGame .MULTIPLAYER
                 (sel.peer, sel.own) sel.stage false] } := by
  simp only [negOrdersSecond, List.forall_mem_cons, List.not_mem_nil, false_implies,
    implies_true, and_true]
  refine ⟨?_, ?_, ?_, ?_, ?_, ?_, ?_, ?_, ?_, ?_, ?_, ?_⟩ <;>
    simp [viewRun, viewStep, viewCheck, negViewStart, setCharacter, hown, hpeer, hstg]

theorem viewRun_first_prefix (cfg : fighterCfg_t) (sel : negSel_t) (l0 : fighterMessageType_t)
    (st0 : List fighterCall_t) :
    ∀ toks ∈ negOrdersFirst, ∀ k : Nat, ¬ negComplete (toks.take k) →
      ∃ w, viewRun cfg sel (negViewStart cfg .GOING_FIRST l0 st0) (toks.take k) = some w ∧
        w.screen ≠ .FIGHTER_GAME ∧ w.starts = st0 := by
  simp only [negOrdersFirst, List.forall_mem_cons, List.not_mem_nil, false_implies,
    implies_true, and_true]
  refine ⟨?_, ?_, ?_, ?_, ?_, ?_, ?_, ?_, ?_, ?_⟩ <;> intro k hk <;>
    rcases k with _ | _ | _ | _ | _ | k <;>
    (try simp [negComplete] at hk) <;>
    simp [viewRun, viewStep, viewCheck, negViewStart, setCharacter]

theorem viewRun_second_prefix (cfg : fighterCfg_t) (sel : negSel_t) (l0 : fighterMessageType_t)
    (st0 : List fighterCall_t) :
    ∀ toks ∈ negOrdersSecond, ∀ k : Nat, ¬ negComplete (toks.take k) →
      ∃ w, viewRun cfg sel (negViewStart cfg .GOING_SECOND l0 st0) (toks.take k) = some w ∧
        w.screen ≠ .FIGHTER_GAME ∧ w.starts = st0 := by
  simp only [negOrdersSecond, List.forall_mem_cons, List.not_mem_nil, false_implies,
    implies_true, and_true]
  refine ⟨?_, ?_, ?_, ?_, ?_, ?_, ?_, ?_, ?_, ?_, ?_, ?_⟩ <;> intro k hk <;>
    rcases k with _ | _ | _ | _ | k <;>
    (try simp [negComplete] at hk) <;>
    simp [viewRun, viewStep, viewCheck, negViewStart, setCharacter]

theorem negView_established (cfg : fighterCfg_t) (allocs : List alloc_t) (fm : fighterMenu_t)
    (hchars : fm.characters = (cfg.NO_CHARACTER, cfg.NO_CHARACTER))
    (hstage : fm.stage = cfg.NO_STAGE) :
    negView (fighterP2pConCbFn cfg allocs fm .CON_ESTABLISHED) =
      negViewStart cfg fm.playOrder fm.lastSentMsg (fm.calls.filter fighterCall_t.isStart) := by
  simp [negView, negViewStart, fighterP2pConCbFn, setFighterMultiplayerCharSelMenu,
    addRows_cbFunc, resetMeleeMenu, hchars, hstage]

theorem negRun_take (cfg : fighterCfg_t) (asResult : (Nat → Nat) → fighterMpGameResult_t)
    (allocs : List alloc_t) (par : negPar_t) (sel : negSel_t) (fm : fighterMenu_t)
    (toks : List negTok_t) (k : Nat) (w : negView_t)
    (hchars : fm.characters = (cfg.NO_CHARACTER, cfg.NO_CHARACTER))
    (hstage : fm.stage = cfg.NO_STAGE)
    (hok : ∀ tok ∈ toks, negTokOk cfg par sel tok)
    (h : viewRun cfg sel (negViewStart cfg fm.playOrder fm.lastSentMsg
      (fm.calls.filter fighterCall_t.isStart)) (toks.take k) = some w) :
    negView (negRun cfg asResult allocs par fm (toks.take k)) = w := by
  unfold negRun
  apply negView_fighterRun cfg asResult par sel (toks.take k) _ w
    (fun tok htok => hok tok (List.mem_of_mem_take htok))
  rw [negView_established cfg allocs fm hchars hstage]
  exact h

/-- C20 (as stated) fails in its last sentence: the going-second player picks
Sunny and receives the peer's character and stage; the match starts although
the acknowledgement of the local character-select has not been handled. -/
theorem match_starts_before_ack :
    (fighterRun exampleCfg exampleAsResult (connectingSession .GOING_SECOND)
        [.conCb .CON_ESTABLISHED [], .menuCb "Sunny" 7 [], .msgRx (payload2 0 2) 2,
          .msgRx (payload2 1 1) 2]).screen = .FIGHTER_GAME ∧
      (fighterRun exampleCfg exampleAsResult (connectingSession .GOING_SECOND)
        [.conCb .CON_ESTABLISHED [], .menuCb "Sunny" 7 [], .msgRx (payload2 0 2) 2,
          .msgRx (payload2 1 1) 2]).calls =
        [fighterCall_t.p2pSendMsg (sentPayload_t.bytes [0, 1]) true,
          fighterCall_t.fighterStartGame .MULTIPLAYER (2, 1) 1 false] := by
  decide

/-- C20 (amended). Order-independent match start: for either role, after the
connection is established with no character and no stage stored, once the
local character selection (and, for the going-first peer, the local stage
selection), the peer's character-select (and, for the going-second peer, the
peer's stage-select) and the acknowledgements of the local sends have all been
handled, in any order the screens allow, the screen is FIGHTER_GAME and the
match has been started exactly once, with slot 0 holding the going-first
player's character, slot 1 the going-second player's character, and the
selected stage.  Before the last of the selections and of the peer's select
messages is handled the match has not started; the acknowledgements need not
have been handled for it to start. -/
theorem match_start_order_independent (cfg : fighterCfg_t)
    (asResult : (Nat → Nat) → fighterMpGameResult_t) (allocs : List alloc_t)
    (par : negPar_t) (sel : negSel_t) (fm : fighterMenu_t) (toks : List negTok_t)
    (hrole : (fm.playOrder = .GOING_FIRST ∧ toks.Perm negToksFirst) ∨
      (fm.playOrder = .GOING_SECOND ∧ toks.Perm negToksSecond))
    (hvalid : validOrder toks)
    (hchars : fm.characters = (cfg.NO_CHARACTER, cfg.NO_CHARACTER))
    (hstage : fm.stage = cfg.NO_STAGE)
    (hok : ∀ tok ∈ toks, negTokOk cfg par sel tok)
    (hown : sel.own ≠ cfg.NO_CHARACTER) (hpeer : sel.peer ≠ cfg.NO_CHARACTER)
    (hstg : sel.stage ≠ cfg.NO_STAGE) :
    (negRun cfg asResult allocs par fm toks).screen = .FIGHTER_GAME ∧
    (negRun cfg asResult allocs par fm toks).characters =
      (if fm.playOrder = .GOING_FIRST then (sel.own, sel.peer) else (sel.peer, sel.own)) ∧
    (negRun cfg asResult allocs par fm toks).stage = sel.stage ∧
    (negRun cfg asResult allocs par fm toks).calls.filter fighterCall_t.isStart =
      fm.calls.filter fighterCall_t.isStart ++
        [fighterCall_t.fighterStartGame .MULTIPLAYER
          (if fm.playOrder = .GOING_FIRST then (sel.own, sel.peer) else (sel.peer, sel.own))
          sel.stage (decide (fm.playOrder = .GOING_FIRST))] ∧
    (∀ k : Nat, ¬ negComplete (toks.take k) →
      (negRun cfg asResult allocs par fm (toks.take k)).screen ≠ .FIGHTER_GAME ∧
      (negRun cfg asResult allocs par fm (toks.take k)).calls.filter fighterCall_t.isStart =
        fm.calls.filter fighterCall_t.isStart) := by
  have hfull : toks.take toks.length = toks := List.take_length toks
  rcases hrole with ⟨hr, hp⟩ | ⟨hr, hp⟩
  · have hmem := negOrdersFirst_complete toks hp hvalid
    have hfin := viewRun_first cfg sel fm.lastSentMsg (fm.calls.filter fighterCall_t.isStart)
      hown hpeer hstg toks hmem
    have hv := negRun_take cfg asResult allocs par sel fm toks toks.length _ hchars hstage hok
      (by rw [hfull, hr]; exact hfin)
    rw [hfull] at hv
    refine ⟨congrArg negView_t.screen hv, ?_, congrArg negView_t.stage hv, ?_, ?_⟩
    · have := congrArg negView_t.characters hv
      simpa [negView, hr] using this
    · have := congrArg negView_t.starts hv
      simpa [negView, hr] using this
    · intro k hk
      obtain ⟨w, hw, hscr, hst⟩ := viewRun_first_prefix cfg sel fm.lastSentMsg
        (fm.calls.filter fighterCall_t.isStart) toks hmem k hk
      have hvk := negRun_take cfg asResult allocs par sel fm toks k w hchars hstage hok
        (by rw [hr]; exact hw)
      refine ⟨?_, ?_⟩
      · have := congrArg negView_t.screen hvk
        intro hg
        exact hscr (this ▸ hg)
      · have := congrArg negView_t.starts hvk
        rw [hst] at this
        exact this
  · have hmem := negOrdersSecond_complete toks hp hvalid
    have hfin := viewRun_second cfg sel fm.lastSentMsg (fm.calls.filter fighterCall_t.isStart)
      hown hpeer hstg toks hmem
    have hv := negRun_take cfg asResult allocs par sel fm toks toks.length _ hchars hstage hok
      (by rw [hfull, hr]; exact hfin)
    rw [hfull] at hv
    refine ⟨congrArg negView_t.screen hv, ?_, congrArg negView_t.stage hv, ?_, ?_⟩
    · have := congrArg negView_t.characters hv
      simpa [negView, hr] using this
    · have := congrArg negView_t.starts hv
      simpa [negView, hr] using this
    · intro k hk
      obtain ⟨w, hw, hscr, hst⟩ := viewRun_second_prefix cfg sel fm.lastSentMsg
        (fm.calls.filter fighterCall_t.isStart) toks hmem k hk
      have hvk := negRun_take cfg asResult allocs par sel fm toks k w hchars hstage hok
        (by rw [hr]; exact hw)
      refine ⟨?_, ?_⟩
      · have := congrArg negView_t.screen hvk
        intro hg
        exact hscr (this ▸ hg)
      · have := congrArg negView_t.starts hvk
        rw [hst] at this
        exact this

theorem match_start_order_independent_witness :
    ((negRun exampleCfg exampleAsResult [] exampleNegPar (connectingSession .GOING_FIRST)
        [.Lc, .Ls, .Rc, .K, .K]).screen = .FIGHTER_GAME ∧
      (negRun exampleCfg exampleAsResult [] exampleNegPar (connectingSession .GOING_FIRST)
        [.Lc, .Ls, .Rc, .K, .K]).calls.filter fighterCall_t.isStart =
        [fighterCall_t.fighterStartGame .MULTIPLAYER (0, 2) 0 true]) ∧
    ((negRun exampleCfg exampleAsResult [] exampleNegPar (connectingSession .GOING_SECOND)
        [.Rs, .Lc, .K, .Rc]).screen = .FIGHTER_GAME ∧
      (negRun exampleCfg exampleAsResult [] exampleNegPar (connectingSession .GOING_SECOND)
        [.Rs, .Lc, .K, .Rc]).calls.filter fighterCall_t.isStart =
        [fighterCall_t.fighterStartGame .MULTIPLAYER (2, 0) 0 false]) :=
  ⟨⟨(match_start_order_independent exampleCfg exampleAsResult [] exampleNegPar exampleNegSel
        (connectingSession .GOING_FIRST) [.Lc, .Ls, .Rc, .K, .K]
        (Or.inl ⟨rfl, List.Perm.refl _⟩) (by decide) rfl rfl
        (by intro tok _; cases tok <;> simp [negTokOk, exampleNegPar, exampleNegSel,
          exampleCfg, payload2, str_charKD, str_stgBF, fighterMessageType_t.toNat])
        (by decide) (by decide) (by decide)).1,
      (match_start_order_independent exampleCfg exampleAsResult [] exampleNegPar exampleNegSel
        (connectingSession .GOING_FIRST) [.Lc, .Ls, .Rc, .K, .K]
        (Or.inl ⟨rfl, List.Perm.refl _⟩) (by decide) rfl rfl
        (by intro tok _; cases tok <;> simp [negTokOk, exampleNegPar, exampleNegSel,
          exampleCfg, payload2, str_charKD, str_stgBF, fighterMessageType_t.toNat])
        (by decide) (by decide) (by decide)).2.2.2.1⟩,
    ⟨(match_start_order_independent exampleCfg exampleAsResult [] exampleNegPar exampleNegSel
        (connectingSession .GOING_SECOND) [.Rs, .Lc, .K, .Rc]
        (Or.inr ⟨rfl, by decide⟩) (by decide) rfl rfl
        (by intro tok _; cases tok <;> simp [negTokOk, exampleNegPar, exampleNegSel,
          exampleCfg, payload2, str_charKD, str_stgBF, fighterMessageType_t.toNat])
        (by decide) (by decide) (by decide)).1,
      (match_start_order_independent exampleCfg exampleAsResult [] exampleNegPar exampleNegSel
        (connectingSession .GOING_SECOND) [.Rs, .Lc, .K, .Rc]
        (Or.inr ⟨rfl, by decide⟩) (by decide) rfl rfl
        (by intro tok _; cases tok <;> simp [negTokOk, exampleNegPar, exampleNegSel,
          exampleCfg, payload2, str_charKD, str_stgBF, fighterMessageType_t.toNat])
        (by decide) (by decide) (by decide)).2.2.2.1⟩⟩

/-! ### The scanline fill: transition count and leaks -/

theorem countStep_count (bc : paletteColor_t) (y x : Int) (s : fill_t) :
    ((countStep bc y x s).transitionCount, (countStep bc y x s).insideHysteresis) =
      countFlagsStep (decide (bc = s.disp.px x y)) (s.transitionCount, s.insideHysteresis) := by
  unfold countStep countFlagsStep GET_PIXEL
  dsimp only
  by_cases hb : bc = s.disp.px x y <;> cases hh : s.insideHysteresis <;>
    cases hi : s.isInside <;> simp [hb, hh, hi]

theorem countLoop_count (bc : paletteColor_t) (y : Int) (n : Nat) :
    ∀ (x : Int) (s : fill_t),
      ((countLoop bc y n x s).transitionCount, (countLoop bc y n x s).insideHysteresis) =
        countAt s.disp bc y n x (s.transitionCount, s.insideHysteresis) := by
  induction n with
  | zero => intro x s; rfl
  | succ n ih =>
    intro x s
    rw [countLoop, ih, countStep_disp, countStep_count, countAt]

theorem countAt_add (d : display_t) (bc : paletteColor_t) (y : Int) (m : Nat) :
    ∀ (n : Nat) (x : Int) (s : Nat × Bool),
      countAt d bc y (m + n) x s = countAt d bc y n (x + m) (countAt d bc y m x s) := by
  induction m with
  | zero => intro n x s; simp [countAt]
  | succ m ih =>
    intro n x s
    have h : m + 1 + n = (m + n) + 1 := by omega
    rw [h, countAt, ih, countAt]
    have hx : x + 1 + (m : Int) = x + ((m + 1 : Nat) : Int) := by push_cast; omega
    rw [hx]

theorem countAt_split (d : display_t) (bc : paletteColor_t) (y u v p : Int) (s : Nat × Bool)
    (huv : u ≤ v) (hvp : v ≤ p) :
    countAt d bc y (p - u).toNat u s =
      countAt d bc y (p - v).toNat v (countAt d bc y (v - u).toNat u s) := by
  have hn : (p - u).toNat = (v - u).toNat + (p - v).toNat := by omega
  have hv : u + ((v - u).toNat : Int) = v := by omega
  rw [hn, countAt_add, hv]

theorem countAt_clear (d : display_t) (bc : paletteColor_t) (y : Int) (n : Nat) :
    ∀ (x : Int) (c : Nat) (h : Bool), (∀ q, x ≤ q → q < x + n → d.px q y ≠ bc) →
      countAt d bc y n x (c, h) = (c, if n = 0 then h else false) := by
  induction n with
  | zero => intro x c h _; rfl
  | succ n ih =>
    intro x c h hq
    have h0 : ¬ bc = d.px x y := fun e => hq x (le_refl x) (by push_cast; omega) e.symm
    rw [countAt, countFlagsStep, decide_eq_false h0]
    simp only [Bool.false_eq_true, if_false]
    rw [ih (x + 1) c false (fun q h1 h2 => hq q (by omega) (by push_cast; omega))]
    simp

theorem countAt_boundary (d : display_t) (bc : paletteColor_t) (y : Int) (n : Nat) :
    ∀ (x : Int) (c : Nat) (h : Bool), (∀ q, x ≤ q → q < x + n + 1 → d.px q y = bc) →
      countAt d bc y (n + 1) x (c, h) = (if h then c else (c + 1) % 65536, true) := by
  induction n with
  | zero =>
    intro x c h hq
    have h0 : bc = d.px x y := (hq x (le_refl x) (by omega)).symm
    rw [countAt, countFlagsStep, decide_eq_true h0, countAt]
    cases h <;> simp
  | succ n ih =>
    intro x c h hq
    have h0 : bc = d.px x y := (hq x (le_refl x) (by omega)).symm
    rw [countAt, countFlagsStep, decide_eq_true h0]
    simp only [if_true]
    cases h
    · simp only [Bool.not_false, if_true]
      rw [ih (x + 1) ((c + 1) % 65536) true
        (fun q h1 h2 => hq q (by omega) (by push_cast; omega))]
      simp
    · simp only [Bool.not_true, Bool.false_eq_true, if_false]
      rw [ih (x + 1) c true (fun q h1 h2 => hq q (by omega) (by push_cast; omega))]
      simp

theorem countAt_clear_seg (d : display_t) (bc : paletteColor_t) (y u v : Int) (c : Nat)
    (huv : u ≤ v) (hq : ∀ q, u ≤ q → q < v → d.px q y ≠ bc) :
    countAt d bc y (v - u).toNat u (c, false) = (c, false) := by
  rw [countAt_clear d bc y _ u c false (fun q h1 h2 => hq q h1 (by omega))]
  simp

theorem countAt_boundary_seg (d : display_t) (bc : paletteColor_t) (y u v : Int) (c : Nat)
    (huv : u < v) (hq : ∀ q, u ≤ q → q < v → d.px q y = bc) :
    countAt d bc y (v - u).toNat u (c, false) = ((c + 1) % 65536, true) := by
  have hn : (v - u).toNat = (v - u - 1).toNat + 1 := by omega
  rw [hn, countAt_boundary d bc y _ u c false (fun q h1 h2 => hq q h1 (by omega))]
  simp

/-- Scanning a row whose boundary pixels form the runs `runs`: the counter has
advanced once for every run that starts before position `p`. -/
theorem countAt_runs (d : display_t) (bc : paletteColor_t) (y hi : Int)
    (runs : List (Int × Int)) :
    ∀ (lo : Int) (c : Nat), c < 65536 → runsChain hi lo runs →
      (∀ p, lo ≤ p → p < hi → (d.px p y = bc ↔ inRuns p runs)) →
      ∀ p, lo ≤ p → p ≤ hi →
        (countAt d bc y (p - lo).toNat lo (c, false)).1 =
          (c + startsBefore p runs) % 65536 := by
  induction runs with
  | nil =>
    intro lo c hclt _ hmask p hp1 hp2
    rw [countAt_clear_seg d bc y lo p c hp1
      (fun q h1 h2 => fun e => by
        obtain ⟨r, hr, _⟩ := (hmask q h1 (by omega)).1 e
        simp at hr)]
    simp only [startsBefore_nil]
    omega
  | cons r rest ih =>
    intro lo c hclt hc hmask p hp1 hp2
    obtain ⟨h1, h2, h3, h4⟩ := hc
    have hclear1 : ∀ q, lo ≤ q → q < r.1 → d.px q y ≠ bc := by
      intro q hq1 hq2 e
      obtain ⟨r', hr', h5, h6⟩ := (hmask q hq1 (by omega)).1 e
      rcases List.mem_cons.1 hr' with rfl | hmem
      · omega
      · exact not_inRuns_of_lt hi rest (r.2 + 2) q h4 (by omega) ⟨r', hmem, h5, h6⟩
    have hbnd : ∀ q, r.1 ≤ q → q < r.2 + 1 → d.px q y = bc := by
      intro q hq1 hq2
      exact (hmask q (by omega) (by omega)).2 ⟨r, List.mem_cons_self _ _, hq1, by omega⟩
    rw [startsBefore_cons]
    by_cases hpa : p ≤ r.1
    · rw [countAt_clear_seg d bc y lo p c hp1 (fun q q1 q2 => hclear1 q q1 (by omega)),
        startsBefore_of_le hi rest (r.2 + 2) p h4 (by omega), if_neg (by omega)]
      simp only []
      omega
    · by_cases hpb : p ≤ r.2 + 1
      · rw [countAt_split d bc y lo r.1 p _ h1 (by omega),
          countAt_clear_seg d bc y lo r.1 c h1 hclear1,
          countAt_boundary_seg d bc y r.1 p c (by omega) (fun q q1 q2 => hbnd q q1 (by omega)),
          startsBefore_of_le hi rest (r.2 + 2) p h4 (by omega), if_pos (by omega)]
      · have hgap : d.px (r.2 + 1) y ≠ bc := by
          intro e
          obtain ⟨r', hr', h5, h6⟩ := (hmask (r.2 + 1) (by omega) (by omega)).1 e
          rcases List.mem_cons.1 hr' with rfl | hmem
          · omega
          · exact not_inRuns_of_lt hi rest (r.2 + 2) (r.2 + 1) h4 (by omega) ⟨r', hmem, h5, h6⟩
        have hstep : countAt d bc y (r.2 + 2 - (r.2 + 1)).toNat (r.2 + 1)
            ((c + 1) % 65536, true) = ((c + 1) % 65536, false) := by
          have h1' : (r.2 + 2 - (r.2 + 1)).toNat = 1 := by omega
          have h0 : ¬ bc = d.px (r.2 + 1) y := fun e => hgap e.symm
          rw [h1', countAt, countAt, countFlagsStep, decide_eq_false h0]
          simp
        have hmask' : ∀ q, r.2 + 2 ≤ q → q < hi → (d.px q y = bc ↔ inRuns q rest) := by
          intro q hq1 hq2
          rw [hmask q (by omega) hq2]
          constructor
          · rintro ⟨r', hr', h5, h6⟩
            rcases List.mem_cons.1 hr' with rfl | hmem
            · omega
            · exact ⟨r', hmem, h5, h6⟩
          · rintro ⟨r', hr', h5, h6⟩
            exact ⟨r', List.mem_cons_of_mem _ hr', h5, h6⟩
        rw [countAt_split d bc y lo r.1 p _ h1 (by omega),
          countAt_clear_seg d bc y lo r.1 c h1 hclear1,
          countAt_split d bc y r.1 (r.2 + 1) p _ (by omega) (by omega),
          countAt_boundary_seg d bc y r.1 (r.2 + 1) c (by omega) hbnd,
          countAt_split d bc y (r.2 + 1) (r.2 + 2) p _ (by omega) (by omega),
          hstep, if_pos (by omega),
          ih (r.2 + 2) ((c + 1) % 65536) (by omega) h4 hmask' p (by omega) hp2]
        omega

/-- The runs of a chain need two columns each, but for the last. -/
theorem runsChain_length (hi : Int) (runs : List (Int × Int)) :
    ∀ lo : Int, runsChain hi lo runs → runs ≠ [] → 2 * (runs.length : Int) ≤ hi - lo + 1 := by
  induction runs with
  | nil => intro lo _ h; exact absurd rfl h
  | cons r rest ih =>
    intro lo hc _
    obtain ⟨h1, h2, h3, h4⟩ := hc
    rw [List.length_cons]
    push_cast
    cases rest with
    | nil => simp; omega
    | cons r2 rest2 =>
      have := ih (r.2 + 2) h4 (by simp)
      omega

/-- C21. On a row of the clamped rectangle whose boundaryColor pixels form the
maximal runs `runs`, the transition count of the first pass is the number of
runs (taken modulo 65536, the counter being a `uint16_t`; they are equal on
every canvas less than 131071 pixels wide), so a boundary stroke several
pixels wide counts as one transition; and the flag `isInside` after a pixel of
the range is true exactly when an odd number of runs start at or before it. -/
theorem rowTransitionCount_runs (disp : display_t) (x0 x1 y : Int) (bc : paletteColor_t)
    (runs : List (Int × Int))
    (hr : rowRuns disp bc y (clampLo x0) (clampHi x1 disp.w) runs) :
    rowTransitionCount disp x0 x1 y bc = runs.length % 65536 ∧
    (disp.w < 131071 → rowTransitionCount disp x0 x1 y bc = runs.length) ∧
    (∀ p, clampLo x0 ≤ p → p < clampHi x1 disp.w →
      (rowInsideAfter disp x0 y p bc = true ↔ startsBefore (p + 1) runs % 2 = 1)) := by
  have fx0 := clampLo_nonneg x0
  have fx1 := clampHi_le x1 disp.w
  have hcount : rowTransitionCount disp x0 x1 y bc = runs.length % 65536 := by
    by_cases hle : clampLo x0 ≤ clampHi x1 disp.w
    · have h := countAt_runs disp bc y _ runs _ 0 (by omega) hr.1 hr.2 (clampHi x1 disp.w)
        hle (le_refl _)
      rw [startsBefore_of_ge _ runs _ hr.1, Nat.zero_add] at h
      rw [← h]
      unfold rowTransitionCount
      exact congrArg Prod.fst (countLoop_count bc y _ _ _)
    · have hnil : runs = [] := by
        cases runs with
        | nil => rfl
        | cons r rest =>
          obtain ⟨h1, h2, h3, _⟩ := hr.1
          omega
      have h0 : (clampHi x1 disp.w - clampLo x0).toNat = 0 := by omega
      unfold rowTransitionCount
      rw [h0, hnil]
      rfl
  refine ⟨hcount, ?_, ?_⟩
  · intro hw
    rw [hcount]
    apply Nat.mod_eq_of_lt
    by_cases hnil : runs = []
    · rw [hnil]; simp
    · have := runsChain_length _ runs _ hr.1 hnil
      omega
  · intro p hp1 hp2
    have hf := flagsAt_runs disp bc y _ runs _ false hr.1 hr.2 (p + 1) (by omega) (by omega)
    have hfl := congrArg Prod.fst (countLoop_flags bc y (p + 1 - clampLo x0).toNat (clampLo x0)
      { disp := disp, isInside := false, insideHysteresis := false,
        transitionCount := 0, accessed := [] })
    simp only at hfl
    unfold rowInsideAfter
    rw [hfl, hf]
    simp

theorem exampleWideRow_runs :
    rowRuns (canvasOf 7 1 [[0, 1, 1, 1, 0, 1, 0]]) 1 0 (clampLo 0)
      (clampHi 7 (canvasOf 7 1 [[0, 1, 1, 1, 0, 1, 0]]).w) [(1, 3), (5, 5)] := by
  refine ⟨by simp [runsChain, clampLo, clampHi, canvasOf], ?_⟩
  intro p h1 h2
  have h1' : 0 ≤ p := h1
  have h2' : p < 7 := h2
  interval_cases p <;> simp [canvasOf, inRuns]

theorem rowTransitionCount_runs_witness :
    rowRuns (canvasOf 7 1 [[0, 1, 1, 1, 0, 1, 0]]) 1 0 (clampLo 0)
      (clampHi 7 (canvasOf 7 1 [[0, 1, 1, 1, 0, 1, 0]]).w) [(1, 3), (5, 5)] ∧
    rowTransitionCount (canvasOf 7 1 [[0, 1, 1, 1, 0, 1, 0]]) 0 7 0 1 =
      [((1 : Int), (3 : Int)), (5, 5)].length ∧
    (rowInsideAfter (canvasOf 7 1 [[0, 1, 1, 1, 0, 1, 0]]) 0 0 4 1 = true ↔
      startsBefore (4 + 1) [(1, 3), (5, 5)] % 2 = 1) :=
  ⟨exampleWideRow_runs,
    (rowTransitionCount_runs (canvasOf 7 1 [[0, 1, 1, 1, 0, 1, 0]]) 0 7 0 1 [(1, 3), (5, 5)]
      exampleWideRow_runs).2.1 (by decide),
    (rowTransitionCount_runs (canvasOf 7 1 [[0, 1, 1, 1, 0, 1, 0]]) 0 7 0 1 [(1, 3), (5, 5)]
      exampleWideRow_runs).2.2 4 (by decide) (by decide)⟩

/-- C27. The fill never leaks to the edge of the bounding box: every pixel
whose colour `oddEvenFillFix` changes has, in its row and inside the clamped
column range, a boundaryColor pixel to its left and a boundaryColor pixel to
its right. -/
theorem oddEvenFillFix_no_leak (disp : display_t) (x0 y0 x1 y1 : Int)
    (bc fc : paletteColor_t) (a b : Int)
    (h : (oddEvenFillFix disp x0 y0 x1 y1 bc fc).px a b ≠ disp.px a b) :
    (∃ l, clampLo x0 ≤ l ∧ l < a ∧ disp.px l b = bc) ∧
      (∃ r, a < r ∧ r < clampHi x1 disp.w ∧ disp.px r b = bc) := by
  rw [oddEvenFillFix_px] at h
  split_ifs at h with hc
  · obtain ⟨_, _, p1, p2, _, _, _, _, hend, hnb, hat⟩ := hc
    constructor
    · by_contra hno
      push_neg at hno
      rw [flagsAt_clear_seg disp bc b (clampLo x0) a false p1
        (fun q h1 h2 => hno q h1 h2)] at hat
      exact absurd hat (by simp)
    · by_contra hno
      push_neg at hno
      have hclear : ∀ q, a ≤ q → q < a + ((clampHi x1 disp.w - a).toNat : Int) →
          disp.px q b ≠ bc := by
        intro q h1 h2
        by_cases hq : q = a
        · rw [hq]; exact hnb
        · exact hno q (by omega) (by omega)
      rw [flagsAt_split disp bc b (clampLo x0) a (clampHi x1 disp.w) _ p1 (by omega)] at hend
      cases hf : flagsAt disp bc b (a - clampLo x0).toNat (clampLo x0) (false, false) with
      | mk i hy =>
        rw [hf] at hat hend
        simp only at hat
        rw [hat, flagsAt_clear disp bc b _ a true hy hclear] at hend
        exact absurd hend (by simp)
  · exact absurd rfl h

theorem oddEvenFillFix_no_leak_witness :
    (oddEvenFillFix (canvasOf 3 1 [[1, 0, 1]]) 0 0 3 1 1 2).px 1 0 ≠
        (canvasOf 3 1 [[1, 0, 1]]).px 1 0 ∧
      ((∃ l, clampLo 0 ≤ l ∧ l < 1 ∧ (canvasOf 3 1 [[1, 0, 1]]).px l 0 = 1) ∧
        (∃ r, 1 < r ∧ r < clampHi 3 (canvasOf 3 1 [[1, 0, 1]]).w ∧
          (canvasOf 3 1 [[1, 0, 1]]).px r 0 = 1)) :=
  ⟨by decide, oddEvenFillFix_no_leak (canvasOf 3 1 [[1, 0, 1]]) 0 0 3 1 1 2 1 0 (by decide)⟩

/-! ### The melee menu: animation, viewport and rendered rows -/

theorem drawEntries_idle (M : Nat) (m : meleeMenu_t) (h : m.animating = false) :
    (drawEntries M m).1 = m := by
  unfold drawEntries
  simp [h]

theorem drawEntries_animating (M : Nat) (m : meleeMenu_t) (h : m.animating = true) :
    (drawEntries M m).1 =
      if animArrived m (m.animateOffset + animNextSpeed m) then
        { m with animateStartRow := m.firstRowOnScreen, animateOffset := 0,
                 animateSpeed := 0, animating := false }
      else
        { m with animateSpeed := animNextSpeed m,
                 animateOffset := m.animateOffset + animNextSpeed m } := by
  unfold drawEntries animArrived animNextSpeed animRowGap animGoingDown
  simp only [h, if_true]
  by_cases hg : m.animateStartRow < m.firstRowOnScreen
  · simp only [hg, decide_True, Bool.not_true, Bool.false_eq_true, if_true, if_false,
      true_and, false_and, or_false]
    split_ifs <;> first | rfl | (exfalso; tauto)
  · simp only [hg, decide_False, Bool.not_false, Bool.false_eq_true, if_true, if_false,
      true_and, false_and, false_or]
    split_ifs <;> rfl

theorem drawAdjustViewport_anim (M : Nat) (m : meleeMenu_t) :
    (drawAdjustViewport M m).animating = m.animating ∧
      (drawAdjustViewport M m).animateSpeed = m.animateSpeed ∧
      (drawAdjustViewport M m).animateOffset = m.animateOffset ∧
      (drawAdjustViewport M m).fontH = m.fontH ∧
      (drawAdjustViewport M m).selectedRow = m.selectedRow ∧
      (drawAdjustViewport M m).numRows = m.numRows := by
  unfold drawAdjustViewport captureStartRow
  split_ifs <;> exact ⟨rfl, rfl, rfl, rfl, rfl, rfl⟩

theorem drawStartAnimation_of_animating (m : meleeMenu_t) (h : m.animating = true) :
    drawStartAnimation m = m := by
  unfold drawStartAnimation
  simp [h]

/-- The menu left by `drawMeleeMenu` when the menu is animating at the call. -/
theorem drawMeleeMenu_animating (M : Nat) (m : meleeMenu_t) (h : m.animating = true) :
    (drawMeleeMenu M m).1 =
      if animArrived (drawAdjustViewport M m)
          (m.animateOffset + animNextSpeed (drawAdjustViewport M m)) then
        { drawAdjustViewport M m with
          animateStartRow := (drawAdjustViewport M m).firstRowOnScreen, animateOffset := 0,
          animateSpeed := 0, animating := false }
      else
        { drawAdjustViewport M m with
          animateSpeed := animNextSpeed (drawAdjustViewport M m),
          animateOffset := m.animateOffset + animNextSpeed (drawAdjustViewport M m) } := by
  obtain ⟨a1, _, a3, _⟩ := drawAdjustViewport_anim M m
  unfold drawMeleeMenu
  rw [drawStartAnimation_of_animating _ (a1.trans h), drawEntries_animating _ _ (a1.trans h), a3]

set_option maxRecDepth 100000 in
/-- C22. The arrival test of `drawMeleeMenu` misses the tick that reaches the
destination exactly.  The comment on the branch (line 430) reads "We have
reached our destination (or gone past it)", but the two comparisons on line
428 are strict.  With rows 28 pixels high, the seventh tick of a scroll down
brings the offset to exactly 28, the row height, and the menu is still
animating; it becomes idle one tick later. -/
theorem drawMeleeMenu_offset_equal_rowGap :
    (menuRun 5 exampleCbEnv sevenRowMenu
      [.button .DOWN, .button .DOWN, .button .DOWN, .button .DOWN, .button .DOWN,
       .draw, .draw, .draw, .draw, .draw, .draw, .draw]).animateOffset =
      animRowGap sevenRowMenu ∧
    (menuRun 5 exampleCbEnv sevenRowMenu
      [.button .DOWN, .button .DOWN, .button .DOWN, .button .DOWN, .button .DOWN,
       .draw, .draw, .draw, .draw, .draw, .draw, .draw]).animating = true ∧
    (menuRun 5 exampleCbEnv sevenRowMenu
      [.button .DOWN, .button .DOWN, .button .DOWN, .button .DOWN, .button .DOWN,
       .draw, .draw, .draw, .draw, .draw, .draw, .draw, .draw]).animating = false := by
  decide

/-- The arrival test as line 428 has it: an animating menu becomes idle in the
tick in which the offset, after the new speed is added, is greater than rowGap
(= font height + 2*TEXT_Y_GAP + 3) when scrolling down, or less than -rowGap
when scrolling up; otherwise it stays animating with that offset. -/
theorem drawMeleeMenu_arrival (M : Nat) (menu : meleeMenu_t) (h : menu.animating = true) :
    ((drawMeleeMenu M menu).1.animating = false ↔
      (animGoingDown (drawAdjustViewport M menu) = true ∧
        menu.animateOffset + animNextSpeed (drawAdjustViewport M menu) >
          (menu.fontH : Int) + 2 * TEXT_Y_GAP + 3) ∨
      (animGoingDown (drawAdjustViewport M menu) = false ∧
        menu.animateOffset + animNextSpeed (drawAdjustViewport M menu) <
          -((menu.fontH : Int) + 2 * TEXT_Y_GAP + 3))) ∧
    ((drawMeleeMenu M menu).1.animating = true →
      (drawMeleeMenu M menu).1.animateOffset =
        menu.animateOffset + animNextSpeed (drawAdjustViewport M menu)) := by
  obtain ⟨a1, _, _, a4, _⟩ := drawAdjustViewport_anim M menu
  have hgap : animRowGap (drawAdjustViewport M menu) = (menu.fontH : Int) + 2 * TEXT_Y_GAP + 3 := by
    unfold animRowGap; rw [a4]
  rw [drawMeleeMenu_animating M menu h, ← hgap]
  by_cases hc : animArrived (drawAdjustViewport M menu)
      (menu.animateOffset + animNextSpeed (drawAdjustViewport M menu))
  · rw [if_pos hc]
    exact ⟨⟨fun _ => hc, fun _ => rfl⟩, fun hf => absurd hf (by simp)⟩
  · rw [if_neg hc]
    refine ⟨⟨fun hf => ?_, fun hh => absurd hh hc⟩, fun _ => rfl⟩
    have : (drawAdjustViewport M menu).animating = false := hf
    rw [a1, h] at this
    exact absurd this (by simp)

theorem drawAdjustViewport_first (M : Nat) (m : meleeMenu_t) (hM : 0 < M)
    (hsel : m.selectedRow ≤ 255) :
    (drawAdjustViewport M m).firstRowOnScreen =
      if m.selectedRow < m.firstRowOnScreen then m.selectedRow
      else if m.firstRowOnScreen + M ≤ m.selectedRow then m.selectedRow + 1 - M
      else m.firstRowOnScreen := by
  unfold drawAdjustViewport
  by_cases h1 : m.selectedRow < m.firstRowOnScreen
  · rw [if_pos h1, if_pos h1]
    dsimp only
    rw [captureStartRow_selectedRow]
  · rw [if_neg h1, if_neg h1]
    by_cases h2 : m.firstRowOnScreen + M ≤ m.selectedRow
    · rw [if_pos (by omega), if_pos h2]
      dsimp only
      rw [captureStartRow_selectedRow]
      unfold u8
      omega
    · rw [if_neg (by omega), if_neg h2]

theorem drawAdjustViewport_startRow (M : Nat) (m : meleeMenu_t) (ha : m.animating = false)
    (hmoved : (drawAdjustViewport M m).firstRowOnScreen ≠ m.firstRowOnScreen) :
    (drawAdjustViewport M m).animateStartRow = m.firstRowOnScreen := by
  unfold drawAdjustViewport captureStartRow at hmoved ⊢
  simp only [ha, Bool.not_false, if_true] at hmoved ⊢
  split_ifs at hmoved ⊢
  · rfl
  · rfl
  · exact absurd rfl hmoved

theorem drawMeleeMenu_fields (M : Nat) (m : meleeMenu_t) :
    (drawMeleeMenu M m).1.firstRowOnScreen = (drawAdjustViewport M m).firstRowOnScreen ∧
      (drawMeleeMenu M m).1.selectedRow = m.selectedRow ∧
      (drawMeleeMenu M m).1.numRows = m.numRows := by
  obtain ⟨_, _, _, _, a5, a6⟩ := drawAdjustViewport_anim M m
  obtain ⟨b1, b2, b3⟩ := drawStartAnimation_fields (drawAdjustViewport M m)
  obtain ⟨c1, c2, c3⟩ := drawEntries_fields M (drawStartAnimation (drawAdjustViewport M m))
  unfold drawMeleeMenu
  exact ⟨c1.trans b1, (c2.trans b2).trans a5, (c3.trans b3).trans a6⟩

/-- A tick from rest does not arrive: a row is at least 7 pixels high. -/
theorem not_animArrived_first_tick (m : meleeMenu_t) (hs : m.animateSpeed = 0) :
    ¬ animArrived m (0 + animNextSpeed m) := by
  unfold animArrived animNextSpeed animRowGap
  simp only [hs, ANIM_ACCEL, ANIM_MAXSPEED, TEXT_Y_GAP]
  cases animGoingDown m <;> simp <;> omega

theorem drawMeleeMenu_inWindow (M : Nat) (m : meleeMenu_t) (hM : 0 < M)
    (hsel : m.selectedRow ≤ 255) : inWindow M (drawMeleeMenu M m).1 := by
  obtain ⟨f1, f2, _⟩ := drawMeleeMenu_fields M m
  have hf := drawAdjustViewport_first M m hM hsel
  unfold inWindow
  rw [f1, f2, hf]
  split_ifs <;> omega

/-- C25. From a menu with any `selectedRow` and `firstRowOnScreen`, one
`drawMeleeMenu` call leaves the selection unchanged and inside the viewport,
`firstRowOnScreen ≤ selectedRow < firstRowOnScreen + MAX_ROWS_ON_SCREEN`; it
moves `firstRowOnScreen` by the smallest amount that achieves this, and not at
all when the selection already was inside the viewport; and if it moved the
viewport while idle, `animateStartRow` holds the viewport position from before
the move. -/
theorem drawMeleeMenu_viewport (M : Nat) (menu : meleeMenu_t) (hM : 0 < M)
    (hsel : menu.selectedRow ≤ 255) :
    (drawMeleeMenu M menu).1.selectedRow = menu.selectedRow ∧
    ((drawMeleeMenu M menu).1.firstRowOnScreen ≤ menu.selectedRow ∧
      menu.selectedRow < (drawMeleeMenu M menu).1.firstRowOnScreen + M) ∧
    (∀ f : Nat, f ≤ menu.selectedRow → menu.selectedRow < f + M →
      Int.natAbs (((drawMeleeMenu M menu).1.firstRowOnScreen : Int) - menu.firstRowOnScreen) ≤
        Int.natAbs ((f : Int) - menu.firstRowOnScreen)) ∧
    (menu.firstRowOnScreen ≤ menu.selectedRow ∧
        menu.selectedRow < menu.firstRowOnScreen + M →
      (drawMeleeMenu M menu).1.firstRowOnScreen = menu.firstRowOnScreen) ∧
    (menu.animating = false →
      (drawMeleeMenu M menu).1.firstRowOnScreen ≠ menu.firstRowOnScreen →
      (drawMeleeMenu M menu).1.animateStartRow = menu.firstRowOnScreen) := by
  obtain ⟨f1, f2, _⟩ := drawMeleeMenu_fields M menu
  have hf := drawAdjustViewport_first M menu hM hsel
  rw [← f1] at hf
  refine ⟨f2, ?_, ?_, ?_, ?_⟩
  · rw [hf]; split_ifs <;> omega
  · intro f h1 h2
    rw [hf]; split_ifs <;> omega
  · intro h
    rw [hf]; split_ifs <;> omega
  · intro ha hmoved
    rw [f1] at hmoved
    obtain ⟨a1, _⟩ := drawAdjustViewport_anim M menu
    have hstart := drawAdjustViewport_startRow M menu ha hmoved
    have hne : (drawAdjustViewport M menu).animateStartRow ≠
        (drawAdjustViewport M menu).firstRowOnScreen := by
      rw [hstart]; exact fun e => hmoved e.symm
    have hsa : drawStartAnimation (drawAdjustViewport M menu) =
        { drawAdjustViewport M menu with
          animating := true, animateSpeed := 0, animateOffset := 0 } := by
      unfold drawStartAnimation
      rw [if_pos ⟨by rw [a1, ha]; rfl, hne⟩]
    unfold drawMeleeMenu
    rw [hsa, drawEntries_animating _ _ rfl, if_neg (not_animArrived_first_tick _ rfl)]
    exact hstart

theorem drawMeleeMenu_viewport_witness :
    (drawMeleeMenu 5 { sevenRowMenu with selectedRow := 6 }).1.firstRowOnScreen = 2 ∧
      (drawMeleeMenu 5 { sevenRowMenu with selectedRow := 6 }).1.animateStartRow = 0 :=
  ⟨by
      have h := (drawMeleeMenu_viewport 5 { sevenRowMenu with selectedRow := 6 } (by decide)
        (by decide)).2.1
      have h2 : ({ sevenRowMenu with selectedRow := 6 } : meleeMenu_t).selectedRow = 6 := rfl
      have h3 := (drawMeleeMenu_viewport 5 { sevenRowMenu with selectedRow := 6 } (by decide)
        (by decide)).2.2.1 2 (by decide) (by decide)
      have h4 : ({ sevenRowMenu with selectedRow := 6 } : meleeMenu_t).firstRowOnScreen = 0 := by
        decide
      rw [h4] at h3
      rw [h2] at h
      omega,
    (drawMeleeMenu_viewport 5 { sevenRowMenu with selectedRow := 6 } (by decide)
      (by decide)).2.2.2.2 (by decide) (by decide)⟩

theorem drawRowsLoop_eq (menu : meleeMenu_t) (endRow : Nat) (rowGap : Int)
    (hn : menu.numRows ≤ 255) :
    ∀ (fuel row : Nat) (yIdx : Int), min menu.numRows endRow - row ≤ fuel →
      drawRowsLoop menu endRow rowGap fuel row yIdx =
        (List.range (min menu.numRows endRow - row)).map (fun i =>
          { row := row + i, text := menu.rows.get? (row + i),
            yPos := yIdx + i * rowGap - menu.animateOffset,
            isSelected := decide (row + i = menu.selectedRow) }) := by
  intro fuel
  induction fuel with
  | zero =>
    intro row yIdx h
    have h0 : min menu.numRows endRow - row = 0 := by omega
    rw [h0]
    rfl
  | succ fuel ih =>
    intro row yIdx h
    unfold drawRowsLoop
    by_cases hc : row < menu.numRows ∧ row < endRow
    · rw [if_pos hc]
      have hu : u8 ((row : Int) + 1) = row + 1 := by unfold u8; omega
      have hcount : min menu.numRows endRow - row = (min menu.numRows endRow - (row + 1)) + 1 := by
        omega
      rw [hu, ih (row + 1) (yIdx + rowGap) (by omega), hcount, List.range_succ_eq_map,
        List.map_cons, List.map_map]
      congr 1
      · simp
      · apply List.map_congr_left
        intro i _
        simp only [Function.comp, rowDraw_t.mk.injEq]
        refine ⟨by omega, by rw [show row + 1 + i = row + (i + 1) by omega], ?_, ?_⟩
        · push_cast; ring
        · rw [show row + 1 + i = row + (i + 1) by omega]
    · rw [if_neg hc]
      have h0 : min menu.numRows endRow - row = 0 := by omega
      rw [h0]
      rfl

theorem drawEntries_idle_draws (M : Nat) (m : meleeMenu_t)
    (h : (drawEntries M m).1.animating = false) :
    (drawEntries M m).2 =
      drawRowsLoop (drawEntries M m).1 (u8 ((m.firstRowOnScreen : Int) + M))
        ((m.fontH : Int) + 2 * TEXT_Y_GAP + 3) 256 m.firstRowOnScreen
        (BORDER_GAP + 1 + m.fontH + 2 * TEXT_Y_GAP + 2 * BORDER_WIDTH + 1) := by
  unfold drawEntries at h ⊢
  by_cases ha : m.animating = true
  · simp only [ha, if_true] at h ⊢
    split_ifs at h ⊢ <;> rfl
  · have ha2 : m.animating = false := by simpa using ha
    simp only [ha2, Bool.false_eq_true, if_false]

theorem filter_range_eq_nil (s : Nat) :
    ∀ (n a : Nat), s < a → (List.range' a n).filter (fun r => decide (r = s)) = [] := by
  intro n
  induction n with
  | zero => intro a _; rfl
  | succ n ih =>
    intro a h
    rw [List.range'_succ, List.filter_cons, if_neg (by simp; omega), ih (a + 1) (by omega)]

theorem filter_range_eq_singleton (s : Nat) :
    ∀ (n a : Nat), a ≤ s → s < a + n →
      (List.range' a n).filter (fun r => decide (r = s)) = [s] := by
  intro n
  induction n with
  | zero => intro a h1 h2; omega
  | succ n ih =>
    intro a h1 h2
    rw [List.range'_succ, List.filter_cons]
    by_cases ha : a = s
    · rw [if_pos (by simp [ha]), filter_range_eq_nil s n (a + 1) (by omega), ha]
    · rw [if_neg (by simp [ha]), ih (a + 1) (by omega) (by omega)]

set_option maxRecDepth 1000000 in
/-- C26 (as stated) fails: in `wrappedMenu` the selection 254 is an existing row
inside the viewport that starts at row 251, the menu is idle, and a
`drawMeleeMenu` call renders no row: `endRow` is the `uint8_t` value of
251 + 5, which is 0. -/
theorem drawMeleeMenu_renders_nothing :
    wrappedMenu.selectedRow = 254 ∧ wrappedMenu.numRows = 255 ∧
      wrappedMenu.firstRowOnScreen = 251 ∧
      (drawMeleeMenu 5 wrappedMenu).1.animating = false ∧
      (drawMeleeMenu 5 wrappedMenu).2 = [] := by
  decide

/-- C26 (amended). For every menu with `selectedRow < numRows`, a
`drawMeleeMenu` call in which the menu is idle when the rows are drawn, and
after which `firstRowOnScreen + MAX_ROWS_ON_SCREEN` does not exceed 255,
renders exactly the rows
`firstRowOnScreen .. min(numRows, firstRowOnScreen + MAX_ROWS_ON_SCREEN) - 1`,
each once and in increasing order, and marks exactly one of them as selected,
namely `selectedRow`. -/
theorem drawMeleeMenu_idle_rows (M : Nat) (menu : meleeMenu_t) (hM : 0 < M)
    (hsel : menu.selectedRow < menu.numRows) (hn : menu.numRows ≤ 255)
    (hidle : (drawMeleeMenu M menu).1.animating = false)
    (hwrap : (drawMeleeMenu M menu).1.firstRowOnScreen + M ≤ 255) :
    (drawMeleeMenu M menu).2.map (fun d => d.row) =
      List.range' (drawMeleeMenu M menu).1.firstRowOnScreen
        (min menu.numRows ((drawMeleeMenu M menu).1.firstRowOnScreen + M) -
          (drawMeleeMenu M menu).1.firstRowOnScreen) ∧
    ((drawMeleeMenu M menu).2.filter (fun d => d.isSelected)).map (fun d => d.row) =
      [menu.selectedRow] := by
  have v2 := drawMeleeMenu_inWindow M menu hM (by omega)
  obtain ⟨_, f2', _⟩ := drawMeleeMenu_fields M menu
  rw [inWindow, f2'] at v2
  obtain ⟨f1, f2, f3⟩ := drawMeleeMenu_fields M menu
  obtain ⟨b1, _, _⟩ := drawStartAnimation_fields (drawAdjustViewport M menu)
  have hfont : (drawStartAnimation (drawAdjustViewport M menu)).fontH = menu.fontH := by
    unfold drawStartAnimation
    split_ifs
    · exact (drawAdjustViewport_anim M menu).2.2.2.1
    · exact (drawAdjustViewport_anim M menu).2.2.2.1
  have hdraws := drawEntries_idle_draws M (drawStartAnimation (drawAdjustViewport M menu)) hidle
  have hu : u8 (((drawMeleeMenu M menu).1.firstRowOnScreen : Int) + M) =
      (drawMeleeMenu M menu).1.firstRowOnScreen + M := by
    unfold u8; omega
  rw [b1, ← f1, hu] at hdraws
  have hloop := drawRowsLoop_eq (drawMeleeMenu M menu).1
    ((drawMeleeMenu M menu).1.firstRowOnScreen + M)
    (((drawStartAnimation (drawAdjustViewport M menu)).fontH : Int) + 2 * TEXT_Y_GAP + 3)
    (by rw [f3]; exact hn) 256 (drawMeleeMenu M menu).1.firstRowOnScreen
    (BORDER_GAP + 1 + (drawStartAnimation (drawAdjustViewport M menu)).fontH + 2 * TEXT_Y_GAP +
      2 * BORDER_WIDTH + 1) (by rw [f3]; omega)
  have hd : (drawMeleeMenu M menu).2 = _ := hdraws.trans hloop
  rw [f3] at hd
  have hrows : (drawMeleeMenu M menu).2.map (fun d => d.row) =
      List.range' (drawMeleeMenu M menu).1.firstRowOnScreen
        (min menu.numRows ((drawMeleeMenu M menu).1.firstRowOnScreen + M) -
          (drawMeleeMenu M menu).1.firstRowOnScreen) := by
    rw [hd, List.map_map, List.range'_eq_map_range]
    rfl
  have hsels : ∀ d ∈ (drawMeleeMenu M menu).2,
      d.isSelected = decide (d.row = menu.selectedRow) := by
    intro d hmem
    rw [hd] at hmem
    obtain ⟨i, _, rfl⟩ := List.mem_map.1 hmem
    simp only [f2]
  refine ⟨hrows, ?_⟩
  have hfil : (drawMeleeMenu M menu).2.filter (fun d => d.isSelected) =
      (drawMeleeMenu M menu).2.filter (fun d => decide (d.row = menu.selectedRow)) :=
    List.filter_congr (fun d hmem => hsels d hmem)
  have hcomp : ((drawMeleeMenu M menu).2.filter
      (fun d => decide (d.row = menu.selectedRow))).map (fun d => d.row) =
      ((drawMeleeMenu M menu).2.map (fun d => d.row)).filter
        (fun r => decide (r = menu.selectedRow)) := by
    rw [List.filter_map]
    rfl
  rw [hfil, hcomp, hrows]
  exact filter_range_eq_singleton menu.selectedRow _ _ v2.1 (by omega)

set_option maxRecDepth 1000000 in
theorem drawMeleeMenu_idle_rows_witness :
    (drawMeleeMenu 5 sevenRowMenu).2.map (fun d => d.row) =
      List.range' (drawMeleeMenu 5 sevenRowMenu).1.firstRowOnScreen
        (min sevenRowMenu.numRows ((drawMeleeMenu 5 sevenRowMenu).1.firstRowOnScreen + 5) -
          (drawMeleeMenu 5 sevenRowMenu).1.firstRowOnScreen) ∧
    ((drawMeleeMenu 5 sevenRowMenu).2.filter (fun d => d.isSelected)).map (fun d => d.row) =
      [sevenRowMenu.selectedRow] :=
  drawMeleeMenu_idle_rows 5 sevenRowMenu (by decide) (by decide) (by decide) (by decide)
    (by decide)

theorem addRowToMeleeMenu_scrollState (MAX_ROWS M : Nat) (m : meleeMenu_t) (label : label_t)
    (alloc : Option (Nat → Option label_t)) :
    scrollState (addRowToMeleeMenu MAX_ROWS M m label alloc).1 = scrollState m := by
  by_cases h : m.numRows < MAX_ROWS
  · by_cases hgrow : m.numRowsAllocated < m.numRows + 1
    · cases alloc with
      | none => rw [addRowToMeleeMenu_alloc_failed MAX_ROWS M m label h hgrow]
      | some junk =>
        rw [addRowToMeleeMenu_grown MAX_ROWS M m label junk h hgrow]
        split_ifs <;> rfl
    · rw [addRowToMeleeMenu_fits MAX_ROWS M m label alloc h hgrow]
      rfl
  · rw [addRowToMeleeMenu_full MAX_ROWS M m label alloc h]

theorem addRows_scrollState (MAX_ROWS M : Nat)
    (adds : List (label_t × Option (Nat → Option label_t))) :
    ∀ m : meleeMenu_t, scrollState (addRows MAX_ROWS M m adds).1 = scrollState m := by
  induction adds with
  | nil => intro m; rfl
  | cons a rest ih =>
    intro m
    obtain ⟨label, alloc⟩ := a
    simp only [addRows]
    rw [ih, addRowToMeleeMenu_scrollState]

/-- The menu left by `drawMeleeMenu` on a menu that is not animating and whose
selection is inside the viewport: nothing changes when `animateStartRow` is
the viewport position, and an animation starts otherwise. -/
theorem drawMeleeMenu_not_animating (M : Nat) (m : meleeMenu_t) (hW : inWindow M m)
    (ha : m.animating = false) :
    (drawMeleeMenu M m).1 =
      if m.animateStartRow = m.firstRowOnScreen then m
      else
        { m with
          animating := true
          animateSpeed := animNextSpeed { m with animateSpeed := 0 }
          animateOffset := 0 + animNextSpeed { m with animateSpeed := 0 } } := by
  have hadj : drawAdjustViewport M m = m := by
    unfold inWindow at hW
    unfold drawAdjustViewport
    rw [if_neg (by omega), if_neg (by omega)]
  unfold drawMeleeMenu
  rw [hadj]
  unfold drawStartAnimation
  by_cases hs : m.animateStartRow = m.firstRowOnScreen
  · rw [if_neg (by simp [hs]), if_pos hs, drawEntries_idle M m ha]
  · rw [if_pos ⟨by simp [ha], hs⟩, if_neg hs, drawEntries_animating _ _ rfl,
      if_neg (not_animArrived_first_tick _ rfl)]
    rfl

set_option maxRecDepth 1000000 in
/-- C29 (as stated) fails: `scrolledMenu` is idle with its viewport at row 1;
after `resetMeleeMenu` and two new rows the next `drawMeleeMenu` call starts a
scroll animation. -/
theorem resetMeleeMenu_starts_animation :
    scrolledMenu.animating = false ∧
      scrolledMenu.animateStartRow = scrolledMenu.firstRowOnScreen ∧
      scrolledMenu.firstRowOnScreen = 1 ∧
      (drawMeleeMenu 5 (addRows 255 5 (resetMeleeMenu scrolledMenu "Gamepad" "gamepadMainMenuCb")
        [("PC", none), ("Switch", none)]).1).1.animating = true ∧
      (drawMeleeMenu 5 (addRows 255 5 (resetMeleeMenu scrolledMenu "Gamepad" "gamepadMainMenuCb")
        [("PC", none), ("Switch", none)]).1).1.animateOffset = -1 := by
  decide

/-- C29 (amended). `resetMeleeMenu` keeps `animating`, `animateStartRow`,
`animateSpeed` and `animateOffset`.  For every idle menu (animating false,
animateStartRow = firstRowOnScreen), after `resetMeleeMenu` and the addition of
new rows, the next `drawMeleeMenu` call leaves animating false and the
animation offset unchanged when the menu was at scroll position 0; from any
other scroll position it starts a scroll animation (animating true, offset
-1), since `animateStartRow` still holds the old position while
`firstRowOnScreen` is 0. -/
theorem resetMeleeMenu_then_draw (MAX_ROWS M : Nat) (menu : meleeMenu_t) (title : label_t)
    (cbFunc : meleeMenuCb) (adds : List (label_t × Option (Nat → Option label_t)))
    (hM : 0 < M) (hidle : menu.animating = false)
    (hstart : menu.animateStartRow = menu.firstRowOnScreen) :
    ((resetMeleeMenu menu title cbFunc).animating = menu.animating ∧
      (resetMeleeMenu menu title cbFunc).animateStartRow = menu.animateStartRow ∧
      (resetMeleeMenu menu title cbFunc).animateSpeed = menu.animateSpeed ∧
      (resetMeleeMenu menu title cbFunc).animateOffset = menu.animateOffset) ∧
    (menu.firstRowOnScreen = 0 →
      (drawMeleeMenu M (addRows MAX_ROWS M (resetMeleeMenu menu title cbFunc) adds).1).1.animating
          = false ∧
        (drawMeleeMenu M (addRows MAX_ROWS M (resetMeleeMenu menu title cbFunc)
          adds).1).1.animateOffset = menu.animateOffset) ∧
    (menu.firstRowOnScreen ≠ 0 →
      (drawMeleeMenu M (addRows MAX_ROWS M (resetMeleeMenu menu title cbFunc) adds).1).1.animating
          = true ∧
        (drawMeleeMenu M (addRows MAX_ROWS M (resetMeleeMenu menu title cbFunc)
          adds).1).1.animateOffset = -1) := by
  have hst := addRows_scrollState MAX_ROWS M adds (resetMeleeMenu menu title cbFunc)
  simp only [scrollState, Prod.mk.injEq] at hst
  obtain ⟨s1, s2, s3, s4, s5, s6, s7⟩ := hst
  replace s1 := s1.trans (show (resetMeleeMenu menu title cbFunc).firstRowOnScreen = 0 from rfl)
  replace s2 := s2.trans (show (resetMeleeMenu menu title cbFunc).selectedRow = 0 from rfl)
  replace s3 := s3.trans
    (show (resetMeleeMenu menu title cbFunc).animateStartRow = menu.animateStartRow from rfl)
  replace s4 := s4.trans
    (show (resetMeleeMenu menu title cbFunc).animating = menu.animating from rfl)
  replace s6 := s6.trans
    (show (resetMeleeMenu menu title cbFunc).animateOffset = menu.animateOffset from rfl)
  have hW : inWindow M (addRows MAX_ROWS M (resetMeleeMenu menu title cbFunc) adds).1 := by
    unfold inWindow
    rw [s1, s2]
    omega
  have hdraw := drawMeleeMenu_not_animating M _ hW (s4.trans hidle)
  refine ⟨⟨rfl, rfl, rfl, rfl⟩, ?_, ?_⟩
  · intro h0
    rw [hdraw, if_pos (by rw [s3, s1, hstart, h0])]
    exact ⟨s4.trans hidle, s6⟩
  · intro h0
    rw [hdraw, if_neg (by rw [s3, s1, hstart]; exact h0)]
    refine ⟨rfl, ?_⟩
    have hgd : animGoingDown
        { (addRows MAX_ROWS M (resetMeleeMenu menu title cbFunc) adds).1 with
          animateSpeed := 0 } = false := by
      unfold animGoingDown
      simp only [s1, s3]
      simp
    simp only [animNextSpeed, hgd, ANIM_ACCEL, ANIM_MAXSPEED]
    decide

set_option maxRecDepth 1000000 in
theorem resetMeleeMenu_then_draw_witness :
    (sevenRowMenu.firstRowOnScreen = 0 →
      (drawMeleeMenu 5 (addRows 255 5 (resetMeleeMenu sevenRowMenu "Gamepad"
          "gamepadMainMenuCb") [("PC", none), ("Switch", none)]).1).1.animating = false ∧
        (drawMeleeMenu 5 (addRows 255 5 (resetMeleeMenu sevenRowMenu "Gamepad"
          "gamepadMainMenuCb") [("PC", none), ("Switch", none)]).1).1.animateOffset =
          sevenRowMenu.animateOffset) ∧
    (scrolledMenu.firstRowOnScreen ≠ 0 →
      (drawMeleeMenu 5 (addRows 255 5 (resetMeleeMenu scrolledMenu "Gamepad"
          "gamepadMainMenuCb") [("PC", none), ("Switch", none)]).1).1.animating = true ∧
        (drawMeleeMenu 5 (addRows 255 5 (resetMeleeMenu scrolledMenu "Gamepad"
          "gamepadMainMenuCb") [("PC", none), ("Switch", none)]).1).1.animateOffset = -1) :=
  ⟨(resetMeleeMenu_then_draw 255 5 sevenRowMenu "Gamepad" "gamepadMainMenuCb"
      [("PC", none), ("Switch", none)] (by decide) (by decide) (by decide)).2.1,
    (resetMeleeMenu_then_draw 255 5 scrolledMenu "Gamepad" "gamepadMainMenuCb"
      [("PC", none), ("Switch", none)] (by decide) (by decide) (by decide)).2.2⟩

/-! ### The melee menu: the animation settles -/

theorem animNextSpeed_bounds (m : meleeMenu_t) :
    -ANIM_MAXSPEED ≤ animNextSpeed m ∧ animNextSpeed m ≤ ANIM_MAXSPEED := by
  unfold animNextSpeed
  simp only [ANIM_ACCEL, ANIM_MAXSPEED]
  split_ifs <;> omega

theorem animNextSpeed_step (m : meleeMenu_t) (h1 : -ANIM_MAXSPEED ≤ m.animateSpeed)
    (h2 : m.animateSpeed ≤ ANIM_MAXSPEED) :
    (animGoingDown m = true ∧ m.animateSpeed ≤ animNextSpeed m ∧
        animNextSpeed m ≤ m.animateSpeed + ANIM_ACCEL) ∨
      (animGoingDown m = false ∧ m.animateSpeed - ANIM_ACCEL ≤ animNextSpeed m ∧
        animNextSpeed m ≤ m.animateSpeed) := by
  unfold animNextSpeed
  cases hg : animGoingDown m
  · right
    refine ⟨rfl, ?_⟩
    simp only [ANIM_ACCEL, ANIM_MAXSPEED, Bool.false_eq_true, if_false] at h1 h2 ⊢
    split_ifs <;> omega
  · left
    refine ⟨rfl, ?_⟩
    simp only [ANIM_ACCEL, ANIM_MAXSPEED, if_true] at h1 h2 ⊢
    split_ifs <;> omega

/-- The menu left by `drawMeleeMenu` when the menu is not animating at the call. -/
theorem drawMeleeMenu_of_idle (M : Nat) (m : meleeMenu_t) (ha : m.animating = false) :
    (drawMeleeMenu M m).1 =
      if (drawAdjustViewport M m).animateStartRow = (drawAdjustViewport M m).firstRowOnScreen
      then drawAdjustViewport M m
      else
        { drawAdjustViewport M m with
          animating := true
          animateSpeed := animNextSpeed { drawAdjustViewport M m with animateSpeed := 0 }
          animateOffset := 0 + animNextSpeed { drawAdjustViewport M m with animateSpeed := 0 } } := by
  obtain ⟨a1, _⟩ := drawAdjustViewport_anim M m
  have ha' := a1.trans ha
  unfold drawMeleeMenu drawStartAnimation
  by_cases hs : (drawAdjustViewport M m).animateStartRow = (drawAdjustViewport M m).firstRowOnScreen
  · rw [if_neg (by simp [hs]), if_pos hs, drawEntries_idle M _ ha']
  · rw [if_pos ⟨by simp [ha'], hs⟩, if_neg hs, drawEntries_animating _ _ rfl,
      if_neg (not_animArrived_first_tick _ rfl)]
    rfl

theorem meleeMenuButton_anim (M : Nat) (cb : menuCbEnv) (m : meleeMenu_t) (btn : buttonBit_t)
    (hs : btn ≠ .START) (ha : btn ≠ .BTN_A) :
    (meleeMenuButton M cb m btn).1.animating = m.animating ∧
      (meleeMenuButton M cb m btn).1.animateSpeed = m.animateSpeed ∧
      (meleeMenuButton M cb m btn).1.animateOffset = m.animateOffset ∧
      (m.selectedRow ≤ 255 → (meleeMenuButton M cb m btn).1.selectedRow ≤ 255) := by
  have hu : ∀ v : Int, u8 v ≤ 255 := fun v => by have := u8_lt v; omega
  unfold meleeMenuButton captureStartRow
  cases btn <;> first
    | exact absurd rfl hs
    | exact absurd rfl ha
    | (dsimp only; (try split_ifs) <;> refine ⟨rfl, rfl, rfl, fun h => ?_⟩ <;>
        (try dsimp only) <;> first | exact h | exact hu _ | exact Nat.zero_le _)

theorem drawMeleeMenu_animInv (M : Nat) (m : meleeMenu_t) (h : animInv m) :
    animInv (drawMeleeMenu M m).1 := by
  obtain ⟨h1, h2, h3, h4⟩ := h
  obtain ⟨a1, a2, a3, _, a5, _⟩ := drawAdjustViewport_anim M m
  have hb := fun x => animNextSpeed_bounds x
  cases ha : m.animating
  · obtain ⟨h5, h6⟩ := h3 ha
    rw [drawMeleeMenu_of_idle M m ha]
    split_ifs
    · exact ⟨by rw [a2]; exact h1, by rw [a2]; exact h2,
        fun _ => ⟨a2.trans h5, a3.trans h6⟩, by rw [a5]; exact h4⟩
    · exact ⟨(hb _).1, (hb _).2, fun hf => absurd hf (by simp), by
        show (drawAdjustViewport M m).selectedRow ≤ 255
        rw [a5]; exact h4⟩
  · rw [drawMeleeMenu_animating M m ha]
    split_ifs
    · exact ⟨by simp [ANIM_MAXSPEED], by simp [ANIM_MAXSPEED], fun _ => ⟨rfl, rfl⟩, by
        show (drawAdjustViewport M m).selectedRow ≤ 255
        rw [a5]; exact h4⟩
    · exact ⟨(hb _).1, (hb _).2, fun hf => by
          have : (drawAdjustViewport M m).animating = false := hf
          rw [a1, ha] at this
          exact absurd this (by simp), by
        show (drawAdjustViewport M m).selectedRow ≤ 255
        rw [a5]; exact h4⟩

theorem resetMeleeMenu_animInv (m : meleeMenu_t) (title : label_t) (cbFunc : meleeMenuCb)
    (h : animInv m) : animInv (resetMeleeMenu m title cbFunc) := by
  obtain ⟨h1, h2, h3, _⟩ := h
  exact ⟨h1, h2, h3, Nat.zero_le _⟩

theorem addRows_animInv (MAX_ROWS M : Nat)
    (adds : List (label_t × Option (Nat → Option label_t))) (m : meleeMenu_t)
    (h : animInv m) : animInv (addRows MAX_ROWS M m adds).1 := by
  have hs := addRows_scrollState MAX_ROWS M adds m
  simp only [scrollState, Prod.mk.injEq] at hs
  obtain ⟨_, s2, _, s4, s5, s6, _⟩ := hs
  unfold animInv
  rw [s2, s4, s5, s6]
  exact h

theorem menuOpStep_animInv (MAX_ROWS M : Nat) (cb : menuCbEnv)
    (hcb : ∀ (f : meleeMenuCb) (opt : Option (Option label_t)) (m : meleeMenu_t),
      animInv m → animInv (cb f opt m))
    (m : meleeMenu_t) (op : menuOp_t)
    (h : animInv m) : animInv (menuOpStep MAX_ROWS M cb m op) := by
  cases op with
  | button btn =>
    by_cases hc : btn = .START ∨ btn = .BTN_A
    · simp only [menuOpStep]
      rw [meleeMenuButton_confirm_menu M cb m btn hc]
      exact hcb _ _ m h
    · obtain ⟨b1, b2, b3, b4⟩ := meleeMenuButton_anim M cb m btn (fun e => hc (Or.inl e))
        (fun e => hc (Or.inr e))
      obtain ⟨h1, h2, h3, h4⟩ := h
      unfold animInv
      simp only [menuOpStep]
      rw [b1, b2, b3]
      exact ⟨h1, h2, h3, b4 h4⟩
  | draw => exact drawMeleeMenu_animInv M m h
  | reset title cbFunc => exact resetMeleeMenu_animInv m title cbFunc h
  | addRow label alloc =>
    have hs := addRowToMeleeMenu_scrollState MAX_ROWS M m label alloc
    simp only [scrollState, Prod.mk.injEq] at hs
    obtain ⟨_, s2, _, s4, s5, s6, _⟩ := hs
    unfold animInv
    simp only [menuOpStep]
    rw [s2, s4, s5, s6]
    exact h

theorem menuOpRun_animInv (MAX_ROWS M : Nat) (cb : menuCbEnv)
    (hcb : ∀ (f : meleeMenuCb) (opt : Option (Option label_t)) (m : meleeMenu_t),
      animInv m → animInv (cb f opt m))
    (ops : List menuOp_t) :
    ∀ m : meleeMenu_t, animInv m → animInv (menuOpRun MAX_ROWS M cb m ops) := by
  induction ops with
  | nil => intro m h; exact h
  | cons op rest ih =>
    intro m h
    unfold menuOpRun
    rw [List.foldl_cons]
    exact ih _ (menuOpStep_animInv MAX_ROWS M cb hcb m op h)

/-- The callbacks of fighter_menu.c keep the invariant of the animation state:
they leave the menu as it is or reset and refill it. -/
theorem fighterCbEnv_animInv (cfg : fighterCfg_t) (allocs : List alloc_t) (now : Int)
    (fm : fighterMenu_t) (f : meleeMenuCb) (opt : Option (Option label_t)) (m : meleeMenu_t)
    (h : animInv m) : animInv (fighterCbEnv cfg allocs now fm f opt m) := by
  have hset : ∀ (title : label_t) (c : meleeMenuCb)
      (adds : List (label_t × Option (Nat → Option label_t))),
      animInv (addRows cfg.MAX_ROWS cfg.MAX_ROWS_ON_SCREEN (resetMeleeMenu m title c) adds).1 :=
    fun title c adds => addRows_animInv _ _ adds _ (resetMeleeMenu_animInv m title c h)
  unfold fighterCbEnv
  rcases opt with _ | _ | opt
  · exact h
  · exact h
  · dsimp only
    unfold fighterMainMenuCb fighterHrMenuCb fighterMultiplayerCharMenuCb
      fighterMultiplayerStageMenuCb setFighterHrMenu setFighterMainMenu
      setFighterMultiplayerStageSelMenu
    dsimp only
    split_ifs <;> first | exact h | exact hset _ _ _

theorem initMeleeMenu_animInv (M : Nat) (title : label_t) (fontH : Nat) (cbFunc : meleeMenuCb) :
    animInv (initMeleeMenu M title fontH cbFunc) := by
  unfold animInv initMeleeMenu
  simp [ANIM_MAXSPEED]

/-- C24. In every menu state reachable from `initMeleeMenu` through button
events, resets, added rows and `drawMeleeMenu` calls, the animation speed lies
between -ANIM_MAXSPEED and ANIM_MAXSPEED (16).  One `drawMeleeMenu` call
either sets `animateSpeed` to 0 or changes it by at most ANIM_ACCEL (1)
towards the direction of travel, and when it leaves the menu animating the
new offset is the old offset plus the new speed.  The callbacks that START and
BTN_A run are code of the hosting mode: they are assumed to keep the
invariant `animInv`, as the callbacks of fighter_menu.c do
(`fighterCbEnv_animInv`). -/
theorem animateSpeed_bounded (MAX_ROWS M : Nat) (cb : menuCbEnv) (title : label_t) (fontH : Nat)
    (cbFunc : meleeMenuCb) (ops : List menuOp_t)
    (hcb : ∀ (f : meleeMenuCb) (opt : Option (Option label_t)) (m : meleeMenu_t),
      animInv m → animInv (cb f opt m)) :
    (-ANIM_MAXSPEED ≤
        (menuOpRun MAX_ROWS M cb (initMeleeMenu M title fontH cbFunc) ops).animateSpeed ∧
      (menuOpRun MAX_ROWS M cb (initMeleeMenu M title fontH cbFunc) ops).animateSpeed ≤
        ANIM_MAXSPEED) ∧
    ((drawMeleeMenu M (menuOpRun MAX_ROWS M cb (initMeleeMenu M title fontH cbFunc)
        ops)).1.animateSpeed = 0 ∨
      (animGoingDown (drawAdjustViewport M
          (menuOpRun MAX_ROWS M cb (initMeleeMenu M title fontH cbFunc) ops)) = true ∧
        (menuOpRun MAX_ROWS M cb (initMeleeMenu M title fontH cbFunc) ops).animateSpeed ≤
          (drawMeleeMenu M (menuOpRun MAX_ROWS M cb (initMeleeMenu M title fontH cbFunc)
            ops)).1.animateSpeed ∧
        (drawMeleeMenu M (menuOpRun MAX_ROWS M cb (initMeleeMenu M title fontH cbFunc)
            ops)).1.animateSpeed ≤
          (menuOpRun MAX_ROWS M cb (initMeleeMenu M title fontH cbFunc) ops).animateSpeed +
            ANIM_ACCEL) ∨
      (animGoingDown (drawAdjustViewport M
          (menuOpRun MAX_ROWS M cb (initMeleeMenu M title fontH cbFunc) ops)) = false ∧
        (menuOpRun MAX_ROWS M cb (initMeleeMenu M title fontH cbFunc) ops).animateSpeed -
            ANIM_ACCEL ≤
          (drawMeleeMenu M (menuOpRun MAX_ROWS M cb (initMeleeMenu M title fontH cbFunc)
            ops)).1.animateSpeed ∧
        (drawMeleeMenu M (menuOpRun MAX_ROWS M cb (initMeleeMenu M title fontH cbFunc)
            ops)).1.animateSpeed ≤
          (menuOpRun MAX_ROWS M cb (initMeleeMenu M title fontH cbFunc) ops).animateSpeed)) ∧
    ((drawMeleeMenu M (menuOpRun MAX_ROWS M cb (initMeleeMenu M title fontH cbFunc)
        ops)).1.animating = true →
      (drawMeleeMenu M (menuOpRun MAX_ROWS M cb (initMeleeMenu M title fontH cbFunc)
        ops)).1.animateOffset =
        (menuOpRun MAX_ROWS M cb (initMeleeMenu M title fontH cbFunc) ops).animateOffset +
          (drawMeleeMenu M (menuOpRun MAX_ROWS M cb (initMeleeMenu M title fontH cbFunc)
            ops)).1.animateSpeed) := by
  have hinv := menuOpRun_animInv MAX_ROWS M cb hcb ops _
    (initMeleeMenu_animInv M title fontH cbFunc)
  generalize menuOpRun MAX_ROWS M cb (initMeleeMenu M title fontH cbFunc) ops = m at hinv ⊢
  obtain ⟨h1, h2, h3, h4⟩ := hinv
  obtain ⟨a1, a2, a3, _⟩ := drawAdjustViewport_anim M m
  refine ⟨⟨h1, h2⟩, ?_⟩
  cases ha : m.animating
  · obtain ⟨h5, h6⟩ := h3 ha
    rw [drawMeleeMenu_of_idle M m ha]
    split_ifs
    · exact ⟨Or.inl (a2.trans h5), fun hf => by
        rw [a1, ha] at hf; exact absurd hf (by simp)⟩
    · refine ⟨Or.inr ?_, fun _ => ?_⟩
      · have hstep := animNextSpeed_step { drawAdjustViewport M m with animateSpeed := 0 }
          (by simp [ANIM_MAXSPEED]) (by simp [ANIM_MAXSPEED])
        rw [h5]
        exact hstep
      · rw [h6]
  · rw [drawMeleeMenu_animating M m ha]
    split_ifs
    · exact ⟨Or.inl rfl, fun hf => absurd hf (by simp)⟩
    · refine ⟨Or.inr ?_, fun _ => rfl⟩
      have hstep := animNextSpeed_step (drawAdjustViewport M m) (by rw [a2]; exact h1)
        (by rw [a2]; exact h2)
      rw [a2] at hstep
      exact hstep

theorem animNextSpeed_eq (m : meleeMenu_t) :
    (animGoingDown m = true → animNextSpeed m = max (-16) (min 16 (m.animateSpeed + 1))) ∧
      (animGoingDown m = false → animNextSpeed m = max (-16) (min 16 (m.animateSpeed - 1))) := by
  unfold animNextSpeed
  constructor <;> intro hg <;> simp only [hg, ANIM_ACCEL, ANIM_MAXSPEED, if_true,
    Bool.false_eq_true, if_false] <;> split_ifs <;> omega

theorem drawAdjustViewport_of_window (M : Nat) (m : meleeMenu_t) (hW : inWindow M m) :
    drawAdjustViewport M m = m := by
  unfold inWindow at hW
  unfold drawAdjustViewport
  rw [if_neg (by omega), if_neg (by omega)]

/-- One tick of an animating menu whose selection is inside the viewport. -/
theorem drawMeleeMenu_tick (M : Nat) (m : meleeMenu_t) (hW : inWindow M m)
    (ha : m.animating = true) :
    (drawMeleeMenu M m).1 =
      if animArrived m (m.animateOffset + animNextSpeed m) then animSettled m
      else animTicked m := by
  rw [drawMeleeMenu_animating M m ha, drawAdjustViewport_of_window M m hW]
  rfl

theorem menuRun_draw_succ (M : Nat) (cb : menuCbEnv) (m : meleeMenu_t) (n : Nat) :
    menuRun M cb m (List.replicate (n + 1) .draw) =
      menuRun M cb (drawMeleeMenu M m).1 (List.replicate n .draw) := by
  simp [menuRun, List.replicate_succ, menuStep]

/-- An idle menu whose selection is inside the viewport is left as it is by
`drawMeleeMenu`. -/
theorem drawMeleeMenu_of_animIdle (M : Nat) (m : meleeMenu_t) (hi : animIdle m)
    (hW : inWindow M m) : (drawMeleeMenu M m).1 = m := by
  rw [drawMeleeMenu_not_animating M m hW hi.1, if_pos hi.2.2.2]

theorem menuRun_draws_of_animIdle (M : Nat) (cb : menuCbEnv) (m : meleeMenu_t)
    (hi : animIdle m)
    (hW : inWindow M m) : ∀ k : Nat, menuRun M cb m (List.replicate k .draw) = m := by
  intro k
  induction k with
  | zero => rfl
  | succ k ih => rw [menuRun_draw_succ, drawMeleeMenu_of_animIdle M m hi hW, ih]

/-- Once the speed points in the direction of travel, the offset passes the row
height within `d` ticks, `d` being the distance left. -/
theorem settle_phase2 (M : Nat) (cb : menuCbEnv) :
    ∀ (d : Nat) (m : meleeMenu_t), inWindow M m → m.animating = true →
      (animGoingDown m = true → 0 ≤ m.animateSpeed ∧ animRowGap m - m.animateOffset < d) →
      (animGoingDown m = false → m.animateSpeed ≤ 0 ∧ animRowGap m + m.animateOffset < d) →
      ∃ n, animIdle (menuRun M cb m (List.replicate n .draw)) ∧
        inWindow M (menuRun M cb m (List.replicate n .draw)) := by
  intro d
  induction d with
  | zero =>
    intro m hW ha hd hu
    refine ⟨1, ?_⟩
    obtain ⟨e1, e2⟩ := animNextSpeed_eq m
    have harr : animArrived m (m.animateOffset + animNextSpeed m) := by
      unfold animArrived
      cases hg : animGoingDown m
      · right
        have := hu hg
        have := e2 hg
        exact ⟨rfl, by push_cast at *; omega⟩
      · left
        have := hd hg
        have := e1 hg
        exact ⟨rfl, by push_cast at *; omega⟩
    rw [menuRun_draw_succ, drawMeleeMenu_tick M m hW ha, if_pos harr]
    exact ⟨⟨rfl, rfl, rfl, rfl⟩, hW⟩
  | succ d ih =>
    intro m hW ha hd hu
    by_cases harr : animArrived m (m.animateOffset + animNextSpeed m)
    · refine ⟨1, ?_⟩
      rw [menuRun_draw_succ, drawMeleeMenu_tick M m hW ha, if_pos harr]
      exact ⟨⟨rfl, rfl, rfl, rfl⟩, hW⟩
    · obtain ⟨e1, e2⟩ := animNextSpeed_eq m
      have hstep := ih (animTicked m) hW ha
        (fun hg => by
          have hg' : animGoingDown m = true := hg
          have := hd hg'
          have := e1 hg'
          have hna : ¬ (m.animateOffset + animNextSpeed m > animRowGap m) := fun hc =>
            harr (Or.inl ⟨hg', hc⟩)
          have hgap : animRowGap (animTicked m) = animRowGap m := rfl
          have hsp : (animTicked m).animateSpeed = animNextSpeed m := rfl
          have hof : (animTicked m).animateOffset = m.animateOffset + animNextSpeed m := rfl
          rw [hgap, hsp, hof]
          push_cast at *
          omega)
        (fun hg => by
          have hg' : animGoingDown m = false := hg
          have := hu hg'
          have := e2 hg'
          have hna : ¬ (m.animateOffset + animNextSpeed m < -animRowGap m) := fun hc =>
            harr (Or.inr ⟨hg', hc⟩)
          have hgap : animRowGap (animTicked m) = animRowGap m := rfl
          have hsp : (animTicked m).animateSpeed = animNextSpeed m := rfl
          have hof : (animTicked m).animateOffset = m.animateOffset + animNextSpeed m := rfl
          rw [hgap, hsp, hof]
          push_cast at *
          omega)
      obtain ⟨n, hn⟩ := hstep
      refine ⟨n + 1, ?_⟩
      rw [menuRun_draw_succ, drawMeleeMenu_tick M m hW ha, if_neg harr]
      exact hn

/-- Whatever the speed is, it points in the direction of travel after at most
`k` ticks, `k` bounding the speed against the direction. -/
theorem settle_phase1 (M : Nat) (cb : menuCbEnv) :
    ∀ (k : Nat) (m : meleeMenu_t), inWindow M m → m.animating = true →
      (animGoingDown m = true → -(k : Int) ≤ m.animateSpeed) →
      (animGoingDown m = false → m.animateSpeed ≤ k) →
      ∃ n, animIdle (menuRun M cb m (List.replicate n .draw)) ∧
        inWindow M (menuRun M cb m (List.replicate n .draw)) := by
  intro k
  induction k with
  | zero =>
    intro m hW ha hd hu
    apply settle_phase2 M cb ((animRowGap m - m.animateOffset).toNat +
      (animRowGap m + m.animateOffset).toNat + 1) m hW ha
    · intro hg
      have := hd hg
      push_cast at *
      omega
    · intro hg
      have := hu hg
      push_cast at *
      omega
  | succ k ih =>
    intro m hW ha hd hu
    by_cases hz : (animGoingDown m = true → 0 ≤ m.animateSpeed) ∧
        (animGoingDown m = false → m.animateSpeed ≤ 0)
    · apply settle_phase2 M cb ((animRowGap m - m.animateOffset).toNat +
        (animRowGap m + m.animateOffset).toNat + 1) m hW ha
      · intro hg
        have := hz.1 hg
        push_cast at *
        omega
      · intro hg
        have := hz.2 hg
        push_cast at *
        omega
    · by_cases harr : animArrived m (m.animateOffset + animNextSpeed m)
      · refine ⟨1, ?_⟩
        rw [menuRun_draw_succ, drawMeleeMenu_tick M m hW ha, if_pos harr]
        exact ⟨⟨rfl, rfl, rfl, rfl⟩, hW⟩
      · obtain ⟨e1, e2⟩ := animNextSpeed_eq m
        have hstep := ih (animTicked m) hW ha
          (fun hg => by
            have hg' : animGoingDown m = true := hg
            have := hd hg'
            have := e1 hg'
            have hsp : (animTicked m).animateSpeed = animNextSpeed m := rfl
            rw [hsp]
            push_cast at *
            omega)
          (fun hg => by
            have hg' : animGoingDown m = false := hg
            have := hu hg'
            have := e2 hg'
            have hsp : (animTicked m).animateSpeed = animNextSpeed m := rfl
            rw [hsp]
            push_cast at *
            omega)
        obtain ⟨n, hn⟩ := hstep
        refine ⟨n + 1, ?_⟩
        rw [menuRun_draw_succ, drawMeleeMenu_tick M m hW ha, if_neg harr]
        exact hn

/-- An animating menu settles: after finitely many `drawMeleeMenu` calls it is
idle with its selection inside the viewport. -/
theorem animation_settles_of_typed (M : Nat) (hM : 0 < M) (cb : menuCbEnv) (m : meleeMenu_t)
    (hsel : m.selectedRow ≤ 255) (ha : m.animating = true) :
    ∃ n, animIdle (menuRun M cb m (List.replicate n .draw)) ∧
      inWindow M (menuRun M cb m (List.replicate n .draw)) := by
  have hW := drawMeleeMenu_inWindow M m hM hsel
  cases ha1 : (drawMeleeMenu M m).1.animating
  · refine ⟨1, ?_⟩
    rw [menuRun_draw_succ]
    refine ⟨?_, hW⟩
    have hform := drawMeleeMenu_animating M m ha
    by_cases harr : animArrived (drawAdjustViewport M m)
        (m.animateOffset + animNextSpeed (drawAdjustViewport M m))
    · rw [if_pos harr] at hform
      show animIdle (drawMeleeMenu M m).1
      rw [hform]
      exact ⟨rfl, rfl, rfl, rfl⟩
    · rw [if_neg harr] at hform
      rw [hform] at ha1
      have : (drawAdjustViewport M m).animating = false := ha1
      rw [(drawAdjustViewport_anim M m).1, ha] at this
      exact absurd this (by simp)
  · obtain ⟨n, hn⟩ := settle_phase1 M cb (drawMeleeMenu M m).1.animateSpeed.natAbs
      (drawMeleeMenu M m).1 hW ha1 (fun _ => by omega) (fun _ => by omega)
    exact ⟨n + 1, by rw [menuRun_draw_succ]; exact hn⟩

set_option maxRecDepth 1000000 in
theorem animateSpeed_bounded_witness :
    (-ANIM_MAXSPEED ≤
        (menuOpRun 255 5 exampleCbEnv (initMeleeMenu 5 "Swadge Bros" 21 "fighterMainMenuCb")
          confirmOps).animateSpeed ∧
      (menuOpRun 255 5 exampleCbEnv (initMeleeMenu 5 "Swadge Bros" 21 "fighterMainMenuCb")
          confirmOps).animateSpeed ≤ ANIM_MAXSPEED) ∧
    (drawMeleeMenu 5 (menuOpRun 255 5 exampleCbEnv
        (initMeleeMenu 5 "Swadge Bros" 21 "fighterMainMenuCb") confirmOps)).1.animateOffset =
      (menuOpRun 255 5 exampleCbEnv (initMeleeMenu 5 "Swadge Bros" 21 "fighterMainMenuCb")
          confirmOps).animateOffset +
        (drawMeleeMenu 5 (menuOpRun 255 5 exampleCbEnv
          (initMeleeMenu 5 "Swadge Bros" 21 "fighterMainMenuCb") confirmOps)).1.animateSpeed :=
  ⟨(animateSpeed_bounded 255 5 exampleCbEnv "Swadge Bros" 21 "fighterMainMenuCb" confirmOps
      (fighterCbEnv_animInv exampleCfg okAllocs 0 mainMenuSession)).1,
    (animateSpeed_bounded 255 5 exampleCbEnv "Swadge Bros" 21 "fighterMainMenuCb" confirmOps
      (fighterCbEnv_animInv exampleCfg okAllocs 0 mainMenuSession)).2.2 (by decide)⟩

/-- C23. The scroll animation settles: for every menu state reachable from
`initMeleeMenu` (through button events, resets, added rows and draws) in which
`animating` is true, there is a number `n` of consecutive `drawMeleeMenu` calls
after which `animating` is false, `animateOffset` = 0, `animateSpeed` = 0 and
`animateStartRow` = `firstRowOnScreen`, and every further `drawMeleeMenu`
call leaves the menu exactly as it is then.  The callbacks that START and
BTN_A run on the way to that state are code of the hosting mode: they are
assumed to keep the invariant `animInv`, as the callbacks of fighter_menu.c do
(`fighterCbEnv_animInv`). -/
theorem animation_settles (MAX_ROWS M : Nat) (cb : menuCbEnv) (title : label_t) (fontH : Nat)
    (cbFunc : meleeMenuCb) (ops : List menuOp_t)
    (hcb : ∀ (f : meleeMenuCb) (opt : Option (Option label_t)) (m : meleeMenu_t),
      animInv m → animInv (cb f opt m)) (hM : 0 < M)
    (ha : (menuOpRun MAX_ROWS M cb (initMeleeMenu M title fontH cbFunc) ops).animating = true) :
    ∃ n : Nat,
      (menuRun M cb (menuOpRun MAX_ROWS M cb (initMeleeMenu M title fontH cbFunc) ops)
        (List.replicate n .draw)).animating = false ∧
      (menuRun M cb (menuOpRun MAX_ROWS M cb (initMeleeMenu M title fontH cbFunc) ops)
        (List.replicate n .draw)).animateOffset = 0 ∧
      (menuRun M cb (menuOpRun MAX_ROWS M cb (initMeleeMenu M title fontH cbFunc) ops)
        (List.replicate n .draw)).animateSpeed = 0 ∧
      (menuRun M cb (menuOpRun MAX_ROWS M cb (initMeleeMenu M title fontH cbFunc) ops)
        (List.replicate n .draw)).animateStartRow =
        (menuRun M cb (menuOpRun MAX_ROWS M cb (initMeleeMenu M title fontH cbFunc) ops)
          (List.replicate n .draw)).firstRowOnScreen ∧
      ∀ k : Nat,
        menuRun M cb (menuRun M cb (menuOpRun MAX_ROWS M cb (initMeleeMenu M title fontH cbFunc) ops)
            (List.replicate n .draw)) (List.replicate k .draw) =
          menuRun M cb (menuOpRun MAX_ROWS M cb (initMeleeMenu M title fontH cbFunc) ops)
            (List.replicate n .draw) := by
  have hinv := menuOpRun_animInv MAX_ROWS M cb hcb ops _
    (initMeleeMenu_animInv M title fontH cbFunc)
  obtain ⟨n, hi, hW⟩ := animation_settles_of_typed M hM cb _ hinv.2.2.2 ha
  exact ⟨n, hi.1, hi.2.1, hi.2.2.1, hi.2.2.2, menuRun_draws_of_animIdle M cb _ hi hW⟩

set_option maxRecDepth 1000000 in
theorem animation_settles_witness :
    ∃ n : Nat,
      (menuRun 5 exampleCbEnv (menuOpRun 255 5 exampleCbEnv
          (initMeleeMenu 5 "Swadge Bros" 21 "fighterMainMenuCb") confirmOps)
        (List.replicate n .draw)).animating = false ∧
      (menuRun 5 exampleCbEnv (menuOpRun 255 5 exampleCbEnv
          (initMeleeMenu 5 "Swadge Bros" 21 "fighterMainMenuCb") confirmOps)
        (List.replicate n .draw)).animateOffset = 0 ∧
      (menuRun 5 exampleCbEnv (menuOpRun 255 5 exampleCbEnv
          (initMeleeMenu 5 "Swadge Bros" 21 "fighterMainMenuCb") confirmOps)
        (List.replicate n .draw)).animateSpeed = 0 ∧
      (menuRun 5 exampleCbEnv (menuOpRun 255 5 exampleCbEnv
          (initMeleeMenu 5 "Swadge Bros" 21 "fighterMainMenuCb") confirmOps)
        (List.replicate n .draw)).animateStartRow =
        (menuRun 5 exampleCbEnv (menuOpRun 255 5 exampleCbEnv
            (initMeleeMenu 5 "Swadge Bros" 21 "fighterMainMenuCb") confirmOps)
          (List.replicate n .draw)).firstRowOnScreen ∧
      ∀ k : Nat,
        menuRun 5 exampleCbEnv (menuRun 5 exampleCbEnv (menuOpRun 255 5 exampleCbEnv
            (initMeleeMenu 5 "Swadge Bros" 21 "fighterMainMenuCb") confirmOps)
            (List.replicate n .draw)) (List.replicate k .draw) =
          menuRun 5 exampleCbEnv (menuOpRun 255 5 exampleCbEnv
            (initMeleeMenu 5 "Swadge Bros" 21 "fighterMainMenuCb") confirmOps)
            (List.replicate n .draw) :=
  animation_settles 255 5 exampleCbEnv "Swadge Bros" 21 "fighterMainMenuCb" confirmOps
    (fighterCbEnv_animInv exampleCfg okAllocs 0 mainMenuSession) (by decide) (by decide)

/-! ### The fighter session: a fresh negotiation and payload reads -/

/-- C28. Whatever the session state was, choosing Multiplayer in
`fighterMainMenuCb` sets both character slots to NO_CHARACTER, the stage to
NO_STAGE and the screen to FIGHTER_CONNECTING (and restarts the connection),
so that the begin condition is false afterwards and `fighterCheckGameBegin`
leaves the session as it is, without starting a match. -/
theorem fighterMainMenuCb_multiplayer_clears (cfg : fighterCfg_t) (allocs : List alloc_t)
    (fm : fighterMenu_t) :
    (fighterMainMenuCb cfg allocs fm str_multiplayer).characters =
        (cfg.NO_CHARACTER, cfg.NO_CHARACTER) ∧
      (fighterMainMenuCb cfg allocs fm str_multiplayer).stage = cfg.NO_STAGE ∧
      (fighterMainMenuCb cfg allocs fm str_multiplayer).screen = .FIGHTER_CONNECTING ∧
      (fighterMainMenuCb cfg allocs fm str_multiplayer).calls =
        fm.calls ++ [fighterCall_t.p2pDeinit, fighterCall_t.p2pInitialize,
          fighterCall_t.p2pStartConnection] ∧
      ¬ beginReady cfg (fighterMainMenuCb cfg allocs fm str_multiplayer) ∧
      fighterCheckGameBegin cfg.NO_CHARACTER cfg.NO_STAGE
          (fighterMainMenuCb cfg allocs fm str_multiplayer) =
        fighterMainMenuCb cfg allocs fm str_multiplayer := by
  have h : fighterMainMenuCb cfg allocs fm str_multiplayer =
      { fm with
        characters := (cfg.NO_CHARACTER, cfg.NO_CHARACTER)
        stage := cfg.NO_STAGE
        screen := .FIGHTER_CONNECTING
        calls := fm.calls ++ [fighterCall_t.p2pDeinit, fighterCall_t.p2pInitialize,
          fighterCall_t.p2pStartConnection] } := by
    unfold fighterMainMenuCb
    rw [if_pos rfl]
  have hnr : ¬ beginReady cfg (fighterMainMenuCb cfg allocs fm str_multiplayer) := by
    rw [h]
    intro hc
    exact hc.1 rfl
  refine ⟨by rw [h], by rw [h], by rw [h], by rw [h], hnr, ?_⟩
  exact fighterCheckGameBegin_of_not_ready cfg _ hnr

/-- Recording the reads does not change what the handler does. -/
theorem fighterP2pMsgRxCbFnLogged_fst (cfg : fighterCfg_t)
    (asResult : (Nat → Nat) → fighterMpGameResult_t) (resultIdx : List Nat)
    (fm : fighterMenu_t) (payload : Nat → Nat) (len : Nat) :
    (fighterP2pMsgRxCbFnLogged cfg asResult resultIdx fm payload len).1 =
      fighterP2pMsgRxCbFn cfg asResult fm payload len := by
  unfold fighterP2pMsgRxCbFnLogged fighterP2pMsgRxCbFn readPayload
  cases fm.screen <;> dsimp only <;> split_ifs <;> rfl

/-- The indices recorded, by screen and message type. -/
theorem fighterP2pMsgRxCbFnLogged_snd (cfg : fighterCfg_t)
    (asResult : (Nat → Nat) → fighterMpGameResult_t) (resultIdx : List Nat)
    (fm : fighterMenu_t) (payload : Nat → Nat) (len : Nat) :
    (fighterP2pMsgRxCbFnLogged cfg asResult resultIdx fm payload len).2 =
      if fm.screen = .FIGHTER_HR_RESULT ∨ fm.screen = .FIGHTER_MP_RESULT ∨
          fm.screen = .FIGHTER_RECORDS then []
      else if fm.screen = .FIGHTER_GAME then
        if payload 0 = fighterMessageType_t.BUTTON_INPUT_MSG.toNat then [0, 1]
        else if payload 0 = fighterMessageType_t.SCENE_COMPOSED_MSG.toNat then [0, 0]
        else if payload 0 = fighterMessageType_t.MP_GAME_OVER_MSG.toNat then
          [0, 0, 0] ++ resultIdx
        else [0, 0, 0]
      else
        if payload 0 = fighterMessageType_t.CHAR_SEL_MSG.toNat then [0, 1]
        else if payload 0 = fighterMessageType_t.STAGE_SEL_MSG.toNat then [0, 0, 1]
        else [0, 0] := by
  unfold fighterP2pMsgRxCbFnLogged readPayload
  cases hs : fm.screen <;> dsimp only <;>
    simp only [reduceCtorEq, or_self, or_false, false_or, true_or, or_true, if_false, if_true,
      List.nil_append, List.cons_append] <;>
    split_ifs <;> first | rfl | (exfalso; simp_all)

/-- The handler's result depends on the payload only through the bytes
recorded: a payload that agrees with `payload` at every recorded index gives
the same session, provided the struct seen through the cast depends only on
the bytes at `resultIdx`. -/
theorem fighterP2pMsgRxCbFn_depends_on_reads (cfg : fighterCfg_t)
    (asResult : (Nat → Nat) → fighterMpGameResult_t) (resultIdx : List Nat)
    (hres : ∀ p q : Nat → Nat, (∀ j ∈ resultIdx, q j = p j) → asResult q = asResult p)
    (fm : fighterMenu_t) (payload other : Nat → Nat) (len : Nat)
    (h : ∀ i ∈ (fighterP2pMsgRxCbFnLogged cfg asResult resultIdx fm payload len).2,
      other i = payload i) :
    fighterP2pMsgRxCbFn cfg asResult fm other len =
      fighterP2pMsgRxCbFn cfg asResult fm payload len := by
  rw [fighterP2pMsgRxCbFnLogged_snd] at h
  by_cases hr : fm.screen = .FIGHTER_HR_RESULT ∨ fm.screen = .FIGHTER_MP_RESULT ∨
      fm.screen = .FIGHTER_RECORDS
  · unfold fighterP2pMsgRxCbFn
    rcases hr with hs | hs | hs <;> rw [hs]
  · rw [if_neg hr] at h
    have h0 : other 0 = payload 0 := by
      apply h
      split_ifs <;> simp
    by_cases hg : fm.screen = .FIGHTER_GAME
    · rw [if_pos hg] at h
      unfold fighterP2pMsgRxCbFn
      rw [hg]
      dsimp only
      rw [h0]
      by_cases c1 : payload 0 = fighterMessageType_t.BUTTON_INPUT_MSG.toNat
      · rw [if_pos c1] at h
        simp only [if_pos c1.symm, h 1 (by simp)]
      · rw [if_neg c1] at h
        have d1 : ¬ fighterMessageType_t.BUTTON_INPUT_MSG.toNat = payload 0 := fun e => c1 e.symm
        by_cases c2 : payload 0 = fighterMessageType_t.SCENE_COMPOSED_MSG.toNat
        · simp only [if_neg d1, if_pos c2.symm]
        · rw [if_neg c2] at h
          have d2 : ¬ fighterMessageType_t.SCENE_COMPOSED_MSG.toNat = payload 0 :=
            fun e => c2 e.symm
          by_cases c3 : payload 0 = fighterMessageType_t.MP_GAME_OVER_MSG.toNat
          · rw [if_pos c3] at h
            simp only [if_neg d1, if_neg d2, if_pos c3.symm,
              hres payload other (fun j hj => h j (by simp [hj]))]
          · have d3 : ¬ fighterMessageType_t.MP_GAME_OVER_MSG.toNat = payload 0 :=
              fun e => c3 e.symm
            simp only [if_neg d1, if_neg d2, if_neg d3]
    · rw [if_neg hg] at h
      have hstep : ∀ s : fighterScreen_t, fm.screen = s →
          s = .FIGHTER_MENU ∨ s = .FIGHTER_CONNECTING ∨ s = .FIGHTER_WAITING := by
        intro s hs
        cases s <;> simp_all
      unfold fighterP2pMsgRxCbFn
      by_cases c1 : payload 0 = fighterMessageType_t.CHAR_SEL_MSG.toNat
      · rw [if_pos c1] at h
        have h1 := h 1 (by simp)
        rcases hstep _ rfl with hs | hs | hs <;> rw [hs] <;> dsimp only <;>
          simp only [h0, if_pos c1, h1]
      · rw [if_neg c1] at h
        by_cases c2 : payload 0 = fighterMessageType_t.STAGE_SEL_MSG.toNat
        · rw [if_pos c2] at h
          have h1 := h 1 (by simp)
          rcases hstep _ rfl with hs | hs | hs <;> rw [hs] <;> dsimp only <;>
            simp only [h0, if_neg c1, if_pos c2, h1]
        · rcases hstep _ rfl with hs | hs | hs <;> rw [hs] <;> dsimp only <;>
            simp only [h0, if_neg c1, if_neg c2]

set_option maxRecDepth 100000 in
/-- C30 (as stated) fails.  On the waiting screen a payload of length 0 has its
byte 0 read, and a CHAR_SEL_MSG of length 1 has its byte 1 read.  The bytes
matter: two payloads of length 1 with the same byte 0 leave different
sessions, and so do two payloads of length 0. -/
theorem fighterP2pMsgRxCbFn_reads_beyond_len :
    (¬ ∀ i ∈ (fighterP2pMsgRxCbFnLogged exampleCfg exampleAsResult [] waitingSession
        (payload2 7 0) 0).2, i < 0) ∧
      (¬ ∀ i ∈ (fighterP2pMsgRxCbFnLogged exampleCfg exampleAsResult [] waitingSession
        (payload2 0 2) 1).2, i < 1) ∧
      fighterP2pMsgRxCbFn exampleCfg exampleAsResult waitingSession (payload2 0 1) 1 ≠
        fighterP2pMsgRxCbFn exampleCfg exampleAsResult waitingSession (payload2 0 2) 1 ∧
      fighterP2pMsgRxCbFn exampleCfg exampleAsResult waitingSession (payload2 0 1) 0 ≠
        fighterP2pMsgRxCbFn exampleCfg exampleAsResult waitingSession (payload2 7 1) 0 := by
  decide

/-- C30 (amended). On the home-run-result, multiplayer-result and records
screens `fighterP2pMsgRxCbFn` reads no payload byte.  On every other screen it
reads `payload[0]` whatever `len` is, and `payload[1]` for a CHAR_SEL_MSG or
STAGE_SEL_MSG (menu, connecting, waiting) or a BUTTON_INPUT_MSG (game).  So it
reads only payload bytes at indices below `len` when `len` is at least 2 and,
for an MP_GAME_OVER_MSG on the game screen, `len` covers the bytes read through
the result struct.  The reads are those of the handler itself: recording them
does not change its result, and its result depends on the payload only through
the bytes recorded. -/
theorem fighterP2pMsgRxCbFn_reads_bound (cfg : fighterCfg_t)
    (asResult : (Nat → Nat) → fighterMpGameResult_t) (resultIdx : List Nat)
    (fm : fighterMenu_t) (payload : Nat → Nat) (len : Nat) :
    (fighterP2pMsgRxCbFnLogged cfg asResult resultIdx fm payload len).1 =
        fighterP2pMsgRxCbFn cfg asResult fm payload len ∧
    (fm.screen = .FIGHTER_HR_RESULT ∨ fm.screen = .FIGHTER_MP_RESULT ∨
        fm.screen = .FIGHTER_RECORDS →
      (fighterP2pMsgRxCbFnLogged cfg asResult resultIdx fm payload len).2 = []) ∧
    (fm.screen = .FIGHTER_MENU ∨ fm.screen = .FIGHTER_CONNECTING ∨
        fm.screen = .FIGHTER_WAITING ∨ fm.screen = .FIGHTER_GAME →
      0 ∈ (fighterP2pMsgRxCbFnLogged cfg asResult resultIdx fm payload len).2) ∧
    ((fm.screen = .FIGHTER_MENU ∨ fm.screen = .FIGHTER_CONNECTING ∨
          fm.screen = .FIGHTER_WAITING) ∧
        (payload 0 = fighterMessageType_t.CHAR_SEL_MSG.toNat ∨
          payload 0 = fighterMessageType_t.STAGE_SEL_MSG.toNat) ∨
        fm.screen = .FIGHTER_GAME ∧
          payload 0 = fighterMessageType_t.BUTTON_INPUT_MSG.toNat →
      1 ∈ (fighterP2pMsgRxCbFnLogged cfg asResult resultIdx fm payload len).2) ∧
    (2 ≤ len →
      (fm.screen = .FIGHTER_GAME →
        payload 0 = fighterMessageType_t.MP_GAME_OVER_MSG.toNat → ∀ j ∈ resultIdx, j < len) →
      ∀ i ∈ (fighterP2pMsgRxCbFnLogged cfg asResult resultIdx fm payload len).2, i < len) ∧
    ((∀ p q : Nat → Nat, (∀ j ∈ resultIdx, q j = p j) → asResult q = asResult p) →
      ∀ other : Nat → Nat,
        (∀ i ∈ (fighterP2pMsgRxCbFnLogged cfg asResult resultIdx fm payload len).2,
          other i = payload i) →
        fighterP2pMsgRxCbFn cfg asResult fm other len =
          fighterP2pMsgRxCbFn cfg asResult fm payload len) := by
  refine ⟨fighterP2pMsgRxCbFnLogged_fst cfg asResult resultIdx fm payload len, ?_, ?_, ?_, ?_,
    fun hres other h =>
      fighterP2pMsgRxCbFn_depends_on_reads cfg asResult resultIdx hres fm payload other len h⟩ <;>
    rw [fighterP2pMsgRxCbFnLogged_snd]
  · intro h
    rw [if_pos h]
  · rintro (h | h | h | h) <;> rw [h] <;>
      simp only [reduceCtorEq, or_self, if_false, if_true] <;> split_ifs <;> simp
  · rintro (⟨h | h | h, h0 | h0⟩ | ⟨h, h0⟩) <;> rw [h] <;>
      simp [h0, fighterMessageType_t.toNat]
  · intro hlen hres i hi
    split_ifs at hi with c1 c2 c3 c4 c5 c6 c7 <;> simp at hi <;>
      first
        | omega
        | (rcases hi with h | h
           · omega
           · exact hres c2 c5 i h)

set_option maxRecDepth 100000 in
theorem fighterP2pMsgRxCbFn_reads_bound_witness :
    2 ≤ 8 ∧ gameSession.screen = .FIGHTER_GAME ∧
      resultPayload 0 = fighterMessageType_t.MP_GAME_OVER_MSG.toNat ∧
      (fighterP2pMsgRxCbFnLogged exampleCfg exampleAsResult [0, 1, 2, 3, 4, 5, 6, 7] gameSession
        resultPayload 8).2 = [0, 0, 0, 0, 1, 2, 3, 4, 5, 6, 7] ∧
      ∀ i ∈ (fighterP2pMsgRxCbFnLogged exampleCfg exampleAsResult [0, 1, 2, 3, 4, 5, 6, 7]
        gameSession resultPayload 8).2, i < 8 :=
  ⟨by decide, by decide, by decide, by decide,
    (fighterP2pMsgRxCbFn_reads_bound exampleCfg exampleAsResult [0, 1, 2, 3, 4, 5, 6, 7]
      gameSession resultPayload 8).2.2.2.2.1 (by decide) (fun _ _ => by decide)⟩

end Swadge
